import Mathlib

/-!
# Verification of the georust/gpx streaming parser and writer

This file is a shallow embedding, in Lean 4, of the GPX parser and writer of
the `gpx` crate.  The embedding works at the level of XML parse events, the
same boundary the crate itself uses: the external `xml-rs` tokenizer is
modelled as a producer of a `List XmlEvent`, and every element consumer from
`src/parser/*.rs` becomes a Lean function from an event list to an
`Except Err (value × remaining events)` result, mirroring the Rust control
flow (peek/next on a `Peekable` event iterator becomes head/tail matching on
the list).

Modelling conventions:
* Rust `f64` values that the crate obtains by parsing decimal attribute or
  text content are modelled as exact rationals (`ℚ`).  The decimal grammar
  accepted by the model is sign, digits, optional fractional part — the
  exponent, `inf` and `NaN` forms of `f64::from_str`, and rounding to binary
  floating point, are outside the model.  All comparisons the crate performs
  on these values (range checks, `min ≤ max`) agree with the rational order
  on inputs in this grammar.
* Rust `u16`/`u32`/`u64`/`i32` parses are modelled on `Nat`/`Int` with the
  exact overflow bound of the corresponding Rust type.
* Fallible Rust code returns `Except Err`; `unwrap`/`unreachable!` sites are
  modelled by a distinguished `Err.panicked` value.
* Loops whose body re-enters a sub-consumer are defined with an explicit
  fuel parameter (structural recursion on the fuel) so that every definition
  is computable by kernel reduction; the public entry points instantiate the
  fuel with `events.length + 1`, which is always sufficient because every
  loop iteration consumes at least one event.
-/

set_option maxHeartbeats 1000000

namespace GpxSpec

/-- An XML attribute as delivered by the tokenizer: local name and value. -/
structure Attr where
  name : String
  value : String
deriving DecidableEq, Repr

/-- The structural XML events consumed by the parser, after the crate's
`ParserConfig` has normalised whitespace and CDATA to characters.  `misc`
stands for the remaining event kinds (start/end of document, comments,
processing instructions), which every consumer skips. -/
inductive XmlEvent where
  | startElement (name : String) (attributes : List Attr)
  | endElement (name : String)
  | characters (content : String)
  | misc
deriving DecidableEq, Repr

/-- `GpxVersion` from `src/types.rs`. -/
inductive GpxVersion where
  | Unknown
  | Gpx10
  | Gpx11
deriving DecidableEq, Repr

/-- The error values of the crate (`src/errors.rs`), together with
`stringError` for the older `error_chain`-style textual errors
(`bail!("...")`) still present in some consumers, and `panicked` for
`unwrap`/`unreachable!` sites. -/
inductive Err where
  | parseFloatError
  | parseIntegerError
  | invalidChildElement (child : String) (parent : String)
  | invalidClosingTag (tag : String) (parent : String)
  | missingClosingTag (parent : String)
  | missingOpeningTag (parent : String)
  | invalidElementLacksAttribute (attr : String) (parent : String)
  | unknownVersionError (v : GpxVersion)
  | noStringContent
  | missingEmailPartError (part : String)
  | tooManyAtsError
  | eventParsingError (what : String)
  | lonLatOutOfBoundsError (which : String) (range : String) (value : ℚ)
  | rfc3339Error
  | stringError (msg : String)
  | panicked (msg : String)
deriving DecidableEq, Repr

/-! ## Decimal number codec

The crate parses numeric content with `str::parse::<f64>` and prints it with
`ToString`.  The model below parses the plain decimal grammar into `ℚ` and
prints a value-equal decimal expansion. -/

/-- Numeric value of a decimal digit character. -/
def digitVal (c : Char) : Nat := c.toNat - 48

/-- The decimal digit character for `d < 10`. -/
def digitChar (d : Nat) : Char := Char.ofNat (48 + d)

/-- Big-endian value of a list of digit characters. -/
def digitsVal (l : List Char) : Nat := l.foldl (fun a c => a * 10 + digitVal c) 0

/-- All characters are ASCII decimal digits. -/
def allDigits (l : List Char) : Bool := l.all (fun c => c.isDigit)

/-- Big-endian digit-character rendering of a natural number. -/
def natChars (n : Nat) : List Char :=
  if n = 0 then ['0'] else ((Nat.digits 10 n).map digitChar).reverse

/-- Decimal rendering of a natural number (models Rust `Display` for the
unsigned integer types). -/
def printNat (n : Nat) : String := String.mk (natChars n)

/-- Splits a character list at the first `'.'`, if any. -/
def breakAtDot : List Char → List Char × Option (List Char)
  | [] => ([], none)
  | c :: cs =>
    if c = '.' then ([], some cs)
    else
      let r := breakAtDot cs
      (c :: r.1, r.2)

/-- Value of an unsigned decimal string with optional fractional part. -/
def decimalVal (ip fp : List Char) : ℚ :=
  (digitsVal ip : ℚ) + (digitsVal fp : ℚ) / (10 : ℚ) ^ fp.length

/-- Parses the sign-free part of a decimal number: either all digits (no
dot), or integer digits, a dot and fraction digits, at least one digit in
total. -/
def parseUnsignedFloat (l : List Char) : Option ℚ :=
  ((breakAtDot l).2).elim
    (if allDigits l ∧ l ≠ [] then some (digitsVal l : ℚ) else none)
    (fun fp =>
      if allDigits (breakAtDot l).1 ∧ allDigits fp ∧ ((breakAtDot l).1 ≠ [] ∨ fp ≠ []) then
        some (decimalVal (breakAtDot l).1 fp)
      else none)

/-- Model of `str::parse::<f64>` on the plain decimal grammar: optional
sign, digits, optional single `'.'` and fraction digits. -/
def parseFloat (s : String) : Option ℚ :=
  if s.data.head? = some '-' then (parseUnsignedFloat s.data.tail).map (fun q => -q)
  else if s.data.head? = some '+' then parseUnsignedFloat s.data.tail
  else parseUnsignedFloat s.data

/-- Drops a leading `'+'` sign. -/
def stripPlus (l : List Char) : List Char :=
  if l.head? = some '+' then l.tail else l

/-- Model of `str::parse` for unsigned integers with the overflow bound
`maxVal` of the concrete Rust type. -/
def parseNatLe (maxVal : Nat) (s : String) : Option Nat :=
  if allDigits (stripPlus s.data) ∧ stripPlus s.data ≠ []
      ∧ digitsVal (stripPlus s.data) ≤ maxVal then
    some (digitsVal (stripPlus s.data))
  else none

/-- Model of `str::parse::<i32>`. -/
def parseI32 (s : String) : Option Int :=
  if s.data.head? = some '-' then
    if allDigits s.data.tail ∧ s.data.tail ≠ []
        ∧ (digitsVal s.data.tail : Int) ≤ 2 ^ 31 then
      some (-(digitsVal s.data.tail : Int))
    else none
  else if allDigits (stripPlus s.data) ∧ stripPlus s.data ≠ []
      ∧ digitsVal (stripPlus s.data) < 2 ^ 31 then
    some (digitsVal (stripPlus s.data))
  else none

/-- Zero-pads a digit rendering on the left to width `w`. -/
def padChars (w : Nat) (l : List Char) : List Char :=
  List.replicate (w - l.length) '0' ++ l

/-- The absolute value of `q` scaled by `10 ^ q.den` (an exact natural
number whenever `q.den` divides a power of ten). -/
def floatScaled (q : ℚ) : Nat := q.num.natAbs * 10 ^ q.den / q.den

/-- The unsigned digit rendering of `q`: integer digits, a dot, and
`q.den` fraction digits. -/
def floatBody (q : ℚ) : List Char :=
  natChars (floatScaled q / 10 ^ q.den)
    ++ '.' :: padChars q.den (natChars (floatScaled q % 10 ^ q.den))

/-- Decimal rendering of a rational whose (reduced) denominator divides a
power of ten — the values `parseFloat` can produce.  Rust's `f64` `Display`
prints the shortest round-tripping decimal; the model prints a value-equal
decimal expansion with `q.den` fractional digits, which re-parses to the
same rational. -/
def printFloat (q : ℚ) : String :=
  if q < 0 then String.mk ('-' :: floatBody q) else String.mk (floatBody q)

/-! ## Data model (`src/types.rs`) -/

/-- `geo_types::Coordinate<f64>` with exact-rational coordinates. -/
structure Coordinate where
  x : ℚ
  y : ℚ
deriving DecidableEq, Repr

/-- `geo_types::Rect<f64>`: a min and a max corner. -/
structure Rect where
  min : Coordinate
  max : Coordinate
deriving DecidableEq, Repr

/-- `geo_types::Point<f64>`: `x` is the longitude, `y` the latitude. -/
structure Point where
  x : ℚ
  y : ℚ
deriving DecidableEq, Repr

/-- `Link` from `src/types.rs`. -/
structure Link where
  href : String
  text : Option String
  _type : Option String
deriving DecidableEq, Repr

/-- `Default::default()` for `Link`. -/
def Link.default : Link := ⟨"", none, none⟩

/-- `Person` from `src/types.rs`. -/
structure Person where
  name : Option String
  email : Option String
  link : Option Link
deriving DecidableEq, Repr

/-- `Default::default()` for `Person`. -/
def Person.default : Person := ⟨none, none, none⟩

/-- `Fix` from `src/types.rs`: the five closed variants plus the open
`Other` catch-all. -/
inductive Fix where
  | None
  | TwoDimensional
  | ThreeDimensional
  | DGPS
  | PPS
  | Other (s : String)
deriving DecidableEq, Repr

/-- `GpxCopyright` from `src/types.rs`. -/
structure GpxCopyright where
  author : Option String
  year : Option Int
  license : Option String
deriving DecidableEq, Repr

/-- `Default::default()` for `GpxCopyright`. -/
def GpxCopyright.default : GpxCopyright := ⟨none, none, none⟩

/-- The instant stored for `<time>` elements.  The crate delegates parsing
and printing to the external `time` crate (`Iso8601`), normalising to UTC
on read; the model carries the civil UTC fields directly. -/
structure Time where
  year : Nat
  month : Nat
  day : Nat
  hour : Nat
  minute : Nat
  second : Nat
deriving DecidableEq, Repr

/-- `Metadata` from `src/types.rs`. -/
structure Metadata where
  name : Option String
  description : Option String
  author : Option Person
  links : List Link
  time : Option Time
  keywords : Option String
  copyright : Option GpxCopyright
  bounds : Option Rect
deriving DecidableEq, Repr

/-- `Default::default()` for `Metadata`. -/
def Metadata.default : Metadata := ⟨none, none, none, [], none, none, none, none⟩

/-- `Waypoint` from `src/types.rs` (the deprecated `age` field included). -/
structure Waypoint where
  point : Point
  elevation : Option ℚ
  speed : Option ℚ
  time : Option Time
  name : Option String
  comment : Option String
  description : Option String
  source : Option String
  links : List Link
  symbol : Option String
  _type : Option String
  geoidheight : Option ℚ
  fix : Option Fix
  sat : Option Nat
  hdop : Option ℚ
  vdop : Option ℚ
  pdop : Option ℚ
  age : Option ℚ
  dgps_age : Option ℚ
  dgpsid : Option Nat
deriving DecidableEq, Repr

/-- `Waypoint::new(point)`: every optional field absent. -/
def Waypoint.new (p : Point) : Waypoint :=
  ⟨p, none, none, none, none, none, none, none, [], none, none, none, none,
   none, none, none, none, none, none, none⟩

/-- `TrackSegment` from `src/types.rs`. -/
structure TrackSegment where
  points : List Waypoint
deriving DecidableEq, Repr

/-- `Track` from `src/types.rs`. -/
structure Track where
  name : Option String
  comment : Option String
  description : Option String
  source : Option String
  links : List Link
  _type : Option String
  segments : List TrackSegment
deriving DecidableEq, Repr

/-- `Default::default()` for `Track`. -/
def Track.default : Track := ⟨none, none, none, none, [], none, []⟩

/-- `Route` from `src/types.rs`. -/
structure Route where
  name : Option String
  comment : Option String
  description : Option String
  source : Option String
  links : List Link
  number : Option Nat
  _type : Option String
  points : List Waypoint
deriving DecidableEq, Repr

/-- `Default::default()` for `Route`. -/
def Route.default : Route := ⟨none, none, none, none, [], none, none, []⟩

/-- `Gpx` from `src/types.rs`: the root document. -/
structure Gpx where
  version : GpxVersion
  creator : Option String
  metadata : Option Metadata
  waypoints : List Waypoint
  tracks : List Track
  routes : List Route
deriving DecidableEq, Repr

/-- `Default::default()` for `Gpx` (`GpxVersion` defaults to `Unknown`). -/
def Gpx.default : Gpx := ⟨.Unknown, none, none, [], [], []⟩

/-! ## Parse-context primitives (`src/parser/mod.rs`) -/

/-- `attributes.iter().find(|attr| attr.name.local_name == n)`. -/
def findAttr (attrs : List Attr) (n : String) : Option Attr :=
  attrs.find? (fun a => a.name = n)

/-- `verify_starting_tag` from `src/parser/mod.rs`: consumes events until
the expected opening tag, skipping non-structural events; an opening tag
with another name, a closing tag or text is an `InvalidChildElement`
error, an exhausted stream a `MissingOpeningTag` error. -/
def verifyStartingTag (tag : String) : List XmlEvent → Except Err (List Attr × List XmlEvent)
  | [] => .error (.missingOpeningTag tag)
  | .startElement n attrs :: rest =>
    if n = tag then .ok (attrs, rest) else .error (.invalidChildElement n tag)
  | .endElement n :: _ => .error (.invalidChildElement n tag)
  | .characters s :: _ => .error (.invalidChildElement s tag)
  | .misc :: rest => verifyStartingTag tag rest

/-! ## String consumer (`src/parser/string.rs`) -/

/-- The child-event loop of `string::consume`: a nested opening tag is an
`InvalidChildElement` error, a text event replaces the running value, the
matching closing tag ends the loop (returning the value unless it is empty
and `allowEmpty` is false), a foreign closing tag is an `InvalidClosingTag`
error. -/
def stringLoop (tag : String) (allowEmpty : Bool) (acc : String) :
    List XmlEvent → Except Err (String × List XmlEvent)
  | [] => .error (.missingClosingTag tag)
  | .startElement n _ :: _ => .error (.invalidChildElement n tag)
  | .characters c :: rest => stringLoop tag allowEmpty c rest
  | .endElement n :: rest =>
    if n = tag then
      if allowEmpty || acc ≠ "" then .ok (acc, rest)
      else .error (.stringError "no content inside string")
    else .error (.invalidClosingTag n tag)
  | .misc :: rest => stringLoop tag allowEmpty acc rest

/-- `string::consume` from `src/parser/string.rs`. -/
def stringConsume (tag : String) (allowEmpty : Bool) (events : List XmlEvent) :
    Except Err (String × List XmlEvent) := do
  let (_, rest) ← verifyStartingTag tag events
  stringLoop tag allowEmpty "" rest

/-! ## Fix consumer (`src/parser/fix.rs`) and its writer half -/

/-- The token-to-variant mapping of `fix::consume`. -/
def fixOfString (s : String) : Fix :=
  match s with
  | "none" => .None
  | "2d" => .TwoDimensional
  | "3d" => .ThreeDimensional
  | "dgps" => .DGPS
  | "pps" => .PPS
  | _ => .Other s

/-- `fix::consume`: delegates to the string consumer (non-empty content
required) and classifies the token. -/
def fixConsume (events : List XmlEvent) : Except Err (Fix × List XmlEvent) :=
  (stringConsume "fix" false events).map (fun r => (fixOfString r.1, r.2))

/-- The variant-to-text rendering inside `write_fix_if_exists`
(`src/writer.rs`). -/
def fixToString : Fix → String
  | .None => "none"
  | .TwoDimensional => "2d"
  | .ThreeDimensional => "3d"
  | .DGPS => "dgps"
  | .PPS => "pps"
  | .Other s => s

/-! ## Email consumer (`src/parser/email.rs`) -/

/-- The event loop of `email::consume`: an `email` opening tag contributes
`id@domain` assembled from its two required attributes, any other opening
tag is an `InvalidChildElement` error, and the first closing tag returns
the assembled address (`unwrap` panics when no `email` tag was seen). -/
def emailLoop (acc : Option String) : List XmlEvent → Except Err (String × List XmlEvent)
  | [] => .error (.panicked "should return by now")
  | .startElement n attrs :: rest =>
    if n = "email" then
      match findAttr attrs "id" with
      | none => .error (.invalidElementLacksAttribute "id" "email")
      | some idA =>
        match findAttr attrs "domain" with
        | none => .error (.invalidElementLacksAttribute "domain" "email")
        | some domA => emailLoop (some (idA.value ++ "@" ++ domA.value)) rest
    else .error (.invalidChildElement n "email")
  | .endElement _ :: rest =>
    match acc with
    | some e => .ok (e, rest)
    | none => .error (.panicked "email unwrap on None")
  | _ :: rest => emailLoop acc rest

/-- `email::consume` from `src/parser/email.rs`. -/
def emailConsume (events : List XmlEvent) : Except Err (String × List XmlEvent) :=
  emailLoop none events

/-! ## Bounds consumer (`src/parser/bounds.rs`) -/

/-- The closing loop of `bounds::consume`: any child element is an
`InvalidChildElement` error; the matching closing tag returns the rect. -/
def boundsLoop (r : Rect) : List XmlEvent → Except Err (Rect × List XmlEvent)
  | [] => .error (.missingClosingTag "bounds")
  | .startElement n _ :: _ => .error (.invalidChildElement n "bounds")
  | .endElement n :: rest =>
    if n = "bounds" then .ok (r, rest) else .error (.invalidClosingTag n "bounds")
  | _ :: rest => boundsLoop r rest

/-- Requires attribute `n`, else an `InvalidElementLacksAttribute` error
naming it and the parent element. -/
def attrOr (attrs : List Attr) (n parent : String) : Except Err Attr :=
  (findAttr attrs n).elim (.error (.invalidElementLacksAttribute n parent)) .ok

/-- Requires `a`'s value to parse as a float, else a casting error with
message `msg` (the `error_chain` style of `bounds.rs`). -/
def floatOrMsg (a : Attr) (msg : String) : Except Err ℚ :=
  (parseFloat a.value).elim (.error (.stringError msg)) .ok

/-- Requires `a`'s value to parse as a float, else the `ParseFloatError`
variant. -/
def floatOrErr (a : Attr) : Except Err ℚ :=
  (parseFloat a.value).elim (.error .parseFloatError) .ok

/-- The attribute-reading body of `bounds::consume`: reads the four
required float attributes (finding `minlat`/`maxlat` before parsing them,
then `minlon`/`maxlon`), rejects `min > max` on either axis before
constructing the `Rect`, then requires an immediate matching close. -/
def boundsBody (attrs : List Attr) (rest : List XmlEvent) :
    Except Err (Rect × List XmlEvent) := do
  let minlatA ← attrOr attrs "minlat" "bounds"
  let maxlatA ← attrOr attrs "maxlat" "bounds"
  let minlat ← floatOrMsg minlatA "error while casting min latitude to f64"
  let maxlat ← floatOrMsg maxlatA "error while casting max latitude to f64"
  let minlonA ← attrOr attrs "minlon" "bounds"
  let maxlonA ← attrOr attrs "maxlon" "bounds"
  let minlon ← floatOrMsg minlonA "error while casting min longitude to f64"
  let maxlon ← floatOrMsg maxlonA "error while casting max longitude to f64"
  if minlon > maxlon then
    .error (.stringError "Minimum longitude larger than maximum longitude")
  else if minlat > maxlat then
    .error (.stringError "Minimum latitude larger than maximum latitude")
  else
    boundsLoop ⟨⟨minlon, minlat⟩, ⟨maxlon, maxlat⟩⟩ rest

/-- `bounds::consume` from `src/parser/bounds.rs`. -/
def boundsConsume (events : List XmlEvent) : Except Err (Rect × List XmlEvent) := do
  let (attrs, rest) ← verifyStartingTag "bounds" events
  boundsBody attrs rest

/-! ## Extensions consumer (`src/parser/extensions.rs`) -/

/-- The depth-tracking loop of `extensions::consume`, with its explicit
stack of open inner tag names: every opening tag is pushed; a closing tag
must match the top of the stack (else an `InvalidClosingTag` error naming
the inner-extensions-tag context); with an empty stack only the
`extensions` closing tag ends the consumer successfully. -/
def extensionsLoop (stack : List String) : List XmlEvent → Except Err (Unit × List XmlEvent)
  | [] => .error (.missingClosingTag "extensions")
  | .startElement n _ :: rest => extensionsLoop (n :: stack) rest
  | .endElement n :: rest =>
    match stack with
    | top :: stack2 =>
      if n = top then extensionsLoop stack2 rest
      else .error (.invalidClosingTag n "inner-extensions-tag")
    | [] =>
      if n = "extensions" then .ok ((), rest)
      else .error (.invalidClosingTag n "extensions")
  | _ :: rest => extensionsLoop stack rest

/-- `extensions::consume` from `src/parser/extensions.rs`. -/
def extensionsConsume (events : List XmlEvent) : Except Err (Unit × List XmlEvent) := do
  let (_, rest) ← verifyStartingTag "extensions" events
  extensionsLoop [] rest

/-! ## Time consumer (`src/parser/time.rs`)

The textual instant format is delegated by the crate to the external `time`
crate (an out-of-scope collaborator per the specification); the model
implements one canonical ISO-8601 UTC shape, `year-month-dayThour:minute:secondZ`
with flexible-width digit runs, for both directions. -/

/-- Longest prefix of decimal digits, and the remainder. -/
def spanDigits : List Char → List Char × List Char
  | [] => ([], [])
  | c :: cs =>
    if c.isDigit then
      let r := spanDigits cs
      (c :: r.1, r.2)
    else ([], c :: cs)

/-- Reads a non-empty digit run followed by the separator `sep`. -/
def takeField (sep : Char) (l : List Char) : Option (Nat × List Char) :=
  let r := spanDigits l
  match r.2 with
  | c :: rest => if c = sep ∧ r.1 ≠ [] then some (digitsVal r.1, rest) else none
  | [] => none

/-- Modelled from the spec: the ISO-8601 parse of the external `time` crate
(the `OffsetDateTime::parse` call in `time::consume`), restricted to the
canonical UTC shape the model's formatter produces. -/
def timeParse (s : String) : Option Time := do
  let (y, r1) ← takeField '-' s.data
  let (mo, r2) ← takeField '-' r1
  let (d, r3) ← takeField 'T' r2
  let (h, r4) ← takeField ':' r3
  let (mi, r5) ← takeField ':' r4
  let (sec, r6) ← takeField 'Z' r5
  if r6 = [] then some ⟨y, mo, d, h, mi, sec⟩ else none

/-- Zero-padded digit rendering of width (at least) `w`. -/
def padNat (w n : Nat) : List Char := padChars w (natChars n)

/-- Modelled from the spec: the ISO-8601 rendering of the external `time`
crate (the `Time::format` method in `src/parser/time.rs`). -/
def timeFormat (t : Time) : String :=
  String.mk (padNat 4 t.year ++ '-' :: padNat 2 t.month ++ '-' :: padNat 2 t.day
    ++ 'T' :: padNat 2 t.hour ++ ':' :: padNat 2 t.minute ++ ':' :: padNat 2 t.second
    ++ ['Z'])

/-- `time::consume` from `src/parser/time.rs`: the string consumer on
`time` (non-empty), then the instant parse; a malformed instant is an
RFC3339 parse error. -/
def timeConsume (events : List XmlEvent) : Except Err (Time × List XmlEvent) := do
  let (s, rest) ← stringConsume "time" false events
  match timeParse s with
  | some t => .ok (t, rest)
  | none => .error .rfc3339Error

/-! ## Link consumer (`src/parser/link.rs`) -/

/-- The child loop of `link::consume`: `text` and `type` children set the
corresponding fields, anything else is an `InvalidChildElement` error; the
matching closing tag returns the link. -/
def linkLoop (fuel : Nat) (acc : Link) (events : List XmlEvent) :
    Except Err (Link × List XmlEvent) :=
  match fuel with
  | 0 => .error (.eventParsingError "Expecting an event")
  | fuel + 1 =>
    match events with
    | [] => .error (.missingClosingTag "link")
    | .startElement n _ :: _ =>
      if n = "text" then
        match stringConsume "text" false events with
        | .ok (s, rest) => linkLoop fuel { acc with text := some s } rest
        | .error e => .error e
      else if n = "type" then
        match stringConsume "type" false events with
        | .ok (s, rest) => linkLoop fuel { acc with _type := some s } rest
        | .error e => .error e
      else .error (.invalidChildElement n "link")
    | .endElement n :: rest =>
      if n = "link" then .ok (acc, rest)
      else .error (.invalidClosingTag n "link")
    | _ :: rest => linkLoop fuel acc rest

/-- `link::consume` from `src/parser/link.rs`: verifies the opening tag,
requires the `href` attribute, then loops over children. -/
def linkConsume (events : List XmlEvent) : Except Err (Link × List XmlEvent) := do
  let (attrs, rest) ← verifyStartingTag "link" events
  let hrefA ← attrOr attrs "href" "link"
  linkLoop (rest.length + 1) ⟨hrefA.value, none, none⟩ rest

/-! ## Copyright consumer (`src/parser/copyright.rs`) -/

/-- The child loop of `copyright::consume`: a `license` child sets the
license, a `year` child stores `parse::<i32>().ok()` — silently discarding
an unparsable year —, anything else is an `InvalidChildElement` error. -/
def copyrightLoop (fuel : Nat) (acc : GpxCopyright) (events : List XmlEvent) :
    Except Err (GpxCopyright × List XmlEvent) :=
  match fuel with
  | 0 => .error (.eventParsingError "Expecting an event")
  | fuel + 1 =>
    match events with
    | [] => .error (.missingClosingTag "copyright")
    | .startElement n _ :: _ =>
      if n = "license" then
        match stringConsume "license" false events with
        | .ok (s, rest) => copyrightLoop fuel { acc with license := some s } rest
        | .error e => .error e
      else if n = "year" then
        match stringConsume "year" false events with
        | .ok (s, rest) => copyrightLoop fuel { acc with year := parseI32 s } rest
        | .error e => .error e
      else .error (.invalidChildElement n "copyright")
    | .endElement n :: rest =>
      if n = "copyright" then .ok (acc, rest)
      else .error (.invalidClosingTag n "copyright")
    | _ :: rest => copyrightLoop fuel acc rest

/-- `copyright::consume` from `src/parser/copyright.rs`: verifies the
opening tag, takes the optional `author` attribute, then loops. -/
def copyrightConsume (events : List XmlEvent) : Except Err (GpxCopyright × List XmlEvent) := do
  let (attrs, rest) ← verifyStartingTag "copyright" events
  let author := (findAttr attrs "author").map (fun a => a.value)
  copyrightLoop (rest.length + 1) ⟨author, none, none⟩ rest

/-! ## Person consumer

`src/parser/person.rs` in the tree is a stale pre-refactor revision (its
`consume` takes no tag name and calls a one-argument string consumer that no
longer exists); the current compound consumer is modelled from the spec. -/

/-- Modelled from the spec: the child loop of the person consumer (§4.4) —
`name`, `email` and `link` children dispatch to their consumers, any other
child is an `InvalidChildElement` error, and the matching closing tag
(`tag`, which is `author` when invoked from metadata) returns the value. -/
def personLoop (fuel : Nat) (tag : String) (acc : Person) (events : List XmlEvent) :
    Except Err (Person × List XmlEvent) :=
  match fuel with
  | 0 => .error (.eventParsingError "Expecting an event")
  | fuel + 1 =>
    match events with
    | [] => .error (.missingClosingTag "person")
    | .startElement n _ :: _ =>
      if n = "name" then
        match stringConsume "name" false events with
        | .ok (s, rest) => personLoop fuel tag { acc with name := some s } rest
        | .error e => .error e
      else if n = "email" then
        match emailConsume events with
        | .ok (s, rest) => personLoop fuel tag { acc with email := some s } rest
        | .error e => .error e
      else if n = "link" then
        match linkConsume events with
        | .ok (l, rest) => personLoop fuel tag { acc with link := some l } rest
        | .error e => .error e
      else .error (.invalidChildElement n "person")
    | .endElement n :: rest =>
      if n = tag then .ok (acc, rest)
      else .error (.invalidClosingTag n "person")
    | _ :: rest => personLoop fuel tag acc rest

/-- Modelled from the spec: the person consumer (§4.4), reading one
`tag`-named element (no attributes) containing optional `name`, `email`
and `link` children. -/
def personConsume (tag : String) (events : List XmlEvent) :
    Except Err (Person × List XmlEvent) := do
  let (_, rest) ← verifyStartingTag tag events
  personLoop (rest.length + 1) tag Person.default rest

/-! ## Waypoint consumer

`src/parser/waypoint.rs` in the tree is likewise a stale revision (one
argument, `error_chain` errors, no latitude/longitude range check even
though `src/errors.rs` declares `LonLatOutOfBoundsError` and `gpx.rs`
calls `waypoint::consume(context, "wpt")`); the current consumer is
modelled from the spec. -/

/-- Modelled from the spec: extraction of the required `lat`/`lon`
attributes with the range check latitude ∈ [-90, 90] and longitude ∈
[-180, 180) applied when the point is constructed (the
`LonLatOutOfBoundsError` declared in `src/errors.rs`). -/
def waypointPoint (tag : String) (attrs : List Attr) : Except Err Point := do
  let latA ← attrOr attrs "lat" tag
  let lat ← floatOrErr latA
  if lat < -90 ∨ 90 < lat then
    .error (.lonLatOutOfBoundsError "latitude" "-90 and 90" lat)
  else do
    let lonA ← attrOr attrs "lon" tag
    let lon ← floatOrErr lonA
    if lon < -180 ∨ 180 ≤ lon then
      .error (.lonLatOutOfBoundsError "longitude" "-180 and 180" lon)
    else .ok ⟨lon, lat⟩

/-- Parses the text of a float-valued child element. -/
def floatChild (tag : String) (events : List XmlEvent) : Except Err (ℚ × List XmlEvent) := do
  let (s, rest) ← stringConsume tag false events
  let some q := parseFloat s
    | .error .parseFloatError
  .ok (q, rest)

/-- Parses the text of an unsigned-integer child element with overflow
bound `maxVal`. -/
def natChild (tag : String) (maxVal : Nat) (events : List XmlEvent) :
    Except Err (Nat × List XmlEvent) := do
  let (s, rest) ← stringConsume tag false events
  let some n := parseNatLe maxVal s
    | .error .parseIntegerError
  .ok (n, rest)

/-- `u64::MAX`. -/
def u64Max : Nat := 2 ^ 64 - 1

/-- `u32::MAX`. -/
def u32Max : Nat := 2 ^ 32 - 1

/-- `u16::MAX`. -/
def u16Max : Nat := 2 ^ 16 - 1

/-- Modelled from the spec: the child loop of the waypoint consumer —
elevation, GPX-1.0-only speed, time, the descriptive strings, links,
symbol, type, fix and the accuracy fields, with `extensions` consumed and
discarded; any other child is an `InvalidChildElement` error. -/
def waypointLoop (fuel : Nat) (version : GpxVersion) (tag : String) (acc : Waypoint)
    (events : List XmlEvent) : Except Err (Waypoint × List XmlEvent) :=
  match fuel with
  | 0 => .error (.eventParsingError "Expecting an event")
  | fuel + 1 =>
    match events with
    | [] => .error (.missingClosingTag tag)
    | .startElement n _ :: _ =>
      if n = "ele" then
        match floatChild "ele" events with
        | .ok (q, rest) => waypointLoop fuel version tag { acc with elevation := some q } rest
        | .error e => .error e
      else if n = "speed" ∧ version = .Gpx10 then
        match floatChild "speed" events with
        | .ok (q, rest) => waypointLoop fuel version tag { acc with speed := some q } rest
        | .error e => .error e
      else if n = "time" then
        match timeConsume events with
        | .ok (t, rest) => waypointLoop fuel version tag { acc with time := some t } rest
        | .error e => .error e
      else if n = "name" then
        match stringConsume "name" false events with
        | .ok (s, rest) => waypointLoop fuel version tag { acc with name := some s } rest
        | .error e => .error e
      else if n = "cmt" then
        match stringConsume "cmt" false events with
        | .ok (s, rest) => waypointLoop fuel version tag { acc with comment := some s } rest
        | .error e => .error e
      else if n = "desc" then
        match stringConsume "desc" false events with
        | .ok (s, rest) => waypointLoop fuel version tag { acc with description := some s } rest
        | .error e => .error e
      else if n = "src" then
        match stringConsume "src" false events with
        | .ok (s, rest) => waypointLoop fuel version tag { acc with source := some s } rest
        | .error e => .error e
      else if n = "link" then
        match linkConsume events with
        | .ok (l, rest) => waypointLoop fuel version tag { acc with links := acc.links ++ [l] } rest
        | .error e => .error e
      else if n = "sym" then
        match stringConsume "sym" false events with
        | .ok (s, rest) => waypointLoop fuel version tag { acc with symbol := some s } rest
        | .error e => .error e
      else if n = "type" then
        match stringConsume "type" false events with
        | .ok (s, rest) => waypointLoop fuel version tag { acc with _type := some s } rest
        | .error e => .error e
      else if n = "fix" then
        match fixConsume events with
        | .ok (f, rest) => waypointLoop fuel version tag { acc with fix := some f } rest
        | .error e => .error e
      else if n = "sat" then
        match natChild "sat" u64Max events with
        | .ok (v, rest) => waypointLoop fuel version tag { acc with sat := some v } rest
        | .error e => .error e
      else if n = "hdop" then
        match floatChild "hdop" events with
        | .ok (q, rest) => waypointLoop fuel version tag { acc with hdop := some q } rest
        | .error e => .error e
      else if n = "vdop" then
        match floatChild "vdop" events with
        | .ok (q, rest) => waypointLoop fuel version tag { acc with vdop := some q } rest
        | .error e => .error e
      else if n = "pdop" then
        match floatChild "pdop" events with
        | .ok (q, rest) => waypointLoop fuel version tag { acc with pdop := some q } rest
        | .error e => .error e
      else if n = "ageofdgpsdata" then
        match floatChild "ageofdgpsdata" events with
        | .ok (q, rest) => waypointLoop fuel version tag { acc with dgps_age := some q } rest
        | .error e => .error e
      else if n = "dgpsid" then
        match natChild "dgpsid" u16Max events with
        | .ok (v, rest) => waypointLoop fuel version tag { acc with dgpsid := some v } rest
        | .error e => .error e
      else if n = "extensions" then
        match extensionsConsume events with
        | .ok (_, rest) => waypointLoop fuel version tag acc rest
        | .error e => .error e
      else .error (.invalidChildElement n "waypoint")
    | .endElement n :: rest =>
      if n = tag then .ok (acc, rest)
      else .error (.invalidClosingTag n "waypoint")
    | _ :: rest => waypointLoop fuel version tag acc rest

/-- Modelled from the spec: the waypoint consumer, invoked with the tag
name that opens the point (`wpt`, `trkpt`, `rtept`). -/
def waypointConsume (version : GpxVersion) (tag : String) (events : List XmlEvent) :
    Except Err (Waypoint × List XmlEvent) := do
  let (attrs, rest) ← verifyStartingTag tag events
  let p ← waypointPoint tag attrs
  waypointLoop (rest.length + 1) version tag (Waypoint.new p) rest

/-! ## Metadata consumer

`src/parser/metadata.rs` in the tree is a stale revision (one-argument
string consumer, no `copyright`/`desc` handling); the current container
consumer is modelled from the spec: its tag set mirrors the metadata
writer (`write_gpx11_metadata`) plus the `copyright` compound consumer. -/

/-- Modelled from the spec: the child loop of the metadata consumer (§4.5)
— `name`, `desc`, `author` (person), `keywords`, `time`, `link` (repeated),
`copyright` and `bounds` dispatch to their consumers; any other child is
an `InvalidChildElement` error. -/
def metadataLoop (fuel : Nat) (acc : Metadata) (events : List XmlEvent) :
    Except Err (Metadata × List XmlEvent) :=
  match fuel with
  | 0 => .error (.eventParsingError "Expecting an event")
  | fuel + 1 =>
    match events with
    | [] => .error (.missingClosingTag "metadata")
    | .startElement n _ :: _ =>
      if n = "name" then
        match stringConsume "name" false events with
        | .ok (s, rest) => metadataLoop fuel { acc with name := some s } rest
        | .error e => .error e
      else if n = "desc" then
        match stringConsume "desc" false events with
        | .ok (s, rest) => metadataLoop fuel { acc with description := some s } rest
        | .error e => .error e
      else if n = "author" then
        match personConsume "author" events with
        | .ok (p, rest) => metadataLoop fuel { acc with author := some p } rest
        | .error e => .error e
      else if n = "keywords" then
        match stringConsume "keywords" false events with
        | .ok (s, rest) => metadataLoop fuel { acc with keywords := some s } rest
        | .error e => .error e
      else if n = "time" then
        match timeConsume events with
        | .ok (t, rest) => metadataLoop fuel { acc with time := some t } rest
        | .error e => .error e
      else if n = "link" then
        match linkConsume events with
        | .ok (l, rest) => metadataLoop fuel { acc with links := acc.links ++ [l] } rest
        | .error e => .error e
      else if n = "copyright" then
        match copyrightConsume events with
        | .ok (c, rest) => metadataLoop fuel { acc with copyright := some c } rest
        | .error e => .error e
      else if n = "bounds" then
        match boundsConsume events with
        | .ok (b, rest) => metadataLoop fuel { acc with bounds := some b } rest
        | .error e => .error e
      else .error (.invalidChildElement n "metadata")
    | .endElement n :: rest =>
      if n = "metadata" then .ok (acc, rest)
      else .error (.invalidClosingTag n "metadata")
    | _ :: rest => metadataLoop fuel acc rest

/-- Modelled from the spec: the metadata consumer (§4.5). -/
def metadataConsume (events : List XmlEvent) : Except Err (Metadata × List XmlEvent) := do
  let (_, rest) ← verifyStartingTag "metadata" events
  metadataLoop (rest.length + 1) Metadata.default rest

/-! ## Track segment, track and route consumers

`src/parser/tracksegment.rs`, `track.rs` and `route.rs` in the tree are
stale revisions (they still define their own data types and take a bare
event reader); the current container consumers are modelled from the spec
(§4.5), their tag sets mirroring the corresponding writers. -/

/-- Modelled from the spec: the track-segment consumer — only `trkpt`
children, dispatched to the waypoint consumer. -/
def trackSegmentLoop (fuel : Nat) (version : GpxVersion) (acc : TrackSegment)
    (events : List XmlEvent) : Except Err (TrackSegment × List XmlEvent) :=
  match fuel with
  | 0 => .error (.eventParsingError "Expecting an event")
  | fuel + 1 =>
    match events with
    | [] => .error (.missingClosingTag "trkseg")
    | .startElement n _ :: _ =>
      if n = "trkpt" then
        match waypointConsume version "trkpt" events with
        | .ok (w, rest) => trackSegmentLoop fuel version ⟨acc.points ++ [w]⟩ rest
        | .error e => .error e
      else .error (.invalidChildElement n "tracksegment")
    | .endElement n :: rest =>
      if n = "trkseg" then .ok (acc, rest)
      else .error (.invalidClosingTag n "tracksegment")
    | _ :: rest => trackSegmentLoop fuel version acc rest

/-- Modelled from the spec: the track-segment consumer entry point. -/
def trackSegmentConsume (version : GpxVersion) (events : List XmlEvent) :
    Except Err (TrackSegment × List XmlEvent) := do
  let (_, rest) ← verifyStartingTag "trkseg" events
  trackSegmentLoop (rest.length + 1) version ⟨[]⟩ rest

/-- Modelled from the spec: the child loop of the track consumer —
descriptive strings, repeated links, the type string and repeated
`trkseg` children. -/
def trackLoop (fuel : Nat) (version : GpxVersion) (acc : Track) (events : List XmlEvent) :
    Except Err (Track × List XmlEvent) :=
  match fuel with
  | 0 => .error (.eventParsingError "Expecting an event")
  | fuel + 1 =>
    match events with
    | [] => .error (.missingClosingTag "trk")
    | .startElement n _ :: _ =>
      if n = "name" then
        match stringConsume "name" false events with
        | .ok (s, rest) => trackLoop fuel version { acc with name := some s } rest
        | .error e => .error e
      else if n = "cmt" then
        match stringConsume "cmt" false events with
        | .ok (s, rest) => trackLoop fuel version { acc with comment := some s } rest
        | .error e => .error e
      else if n = "desc" then
        match stringConsume "desc" false events with
        | .ok (s, rest) => trackLoop fuel version { acc with description := some s } rest
        | .error e => .error e
      else if n = "src" then
        match stringConsume "src" false events with
        | .ok (s, rest) => trackLoop fuel version { acc with source := some s } rest
        | .error e => .error e
      else if n = "link" then
        match linkConsume events with
        | .ok (l, rest) => trackLoop fuel version { acc with links := acc.links ++ [l] } rest
        | .error e => .error e
      else if n = "type" then
        match stringConsume "type" false events with
        | .ok (s, rest) => trackLoop fuel version { acc with _type := some s } rest
        | .error e => .error e
      else if n = "trkseg" then
        match trackSegmentConsume version events with
        | .ok (sg, rest) => trackLoop fuel version { acc with segments := acc.segments ++ [sg] } rest
        | .error e => .error e
      else .error (.invalidChildElement n "track")
    | .endElement n :: rest =>
      if n = "trk" then .ok (acc, rest)
      else .error (.invalidClosingTag n "track")
    | _ :: rest => trackLoop fuel version acc rest

/-- Modelled from the spec: the track consumer entry point. -/
def trackConsume (version : GpxVersion) (events : List XmlEvent) :
    Except Err (Track × List XmlEvent) := do
  let (_, rest) ← verifyStartingTag "trk" events
  trackLoop (rest.length + 1) version Track.default rest

/-- The child loop of `route::consume` from `src/parser/route.rs`:
`name`, `number` and `type` read non-empty strings, `cmt`, `desc` and
`src` tolerate empty content (`allow_empty = true`), `rtept` waypoints
and `link` children accumulate, `extensions` is consumed and discarded;
any other child is an `InvalidChildElement` error, and end-of-stream is
the `MissingClosingTag("route")` error. -/
def routeLoop (fuel : Nat) (version : GpxVersion) (acc : Route) (events : List XmlEvent) :
    Except Err (Route × List XmlEvent) :=
  match fuel with
  | 0 => .error (.eventParsingError "Expecting an event")
  | fuel + 1 =>
    match events with
    | [] => .error (.missingClosingTag "route")
    | .startElement n _ :: _ =>
      if n = "name" then
        match stringConsume "name" false events with
        | .ok (s, rest) => routeLoop fuel version { acc with name := some s } rest
        | .error e => .error e
      else if n = "cmt" then
        match stringConsume "cmt" true events with
        | .ok (s, rest) => routeLoop fuel version { acc with comment := some s } rest
        | .error e => .error e
      else if n = "desc" then
        match stringConsume "desc" true events with
        | .ok (s, rest) => routeLoop fuel version { acc with description := some s } rest
        | .error e => .error e
      else if n = "src" then
        match stringConsume "src" true events with
        | .ok (s, rest) => routeLoop fuel version { acc with source := some s } rest
        | .error e => .error e
      else if n = "number" then
        match natChild "number" u32Max events with
        | .ok (v, rest) => routeLoop fuel version { acc with number := some v } rest
        | .error e => .error e
      else if n = "type" then
        match stringConsume "type" false events with
        | .ok (s, rest) => routeLoop fuel version { acc with _type := some s } rest
        | .error e => .error e
      else if n = "rtept" then
        match waypointConsume version "rtept" events with
        | .ok (w, rest) => routeLoop fuel version { acc with points := acc.points ++ [w] } rest
        | .error e => .error e
      else if n = "link" then
        match linkConsume events with
        | .ok (l, rest) => routeLoop fuel version { acc with links := acc.links ++ [l] } rest
        | .error e => .error e
      else if n = "extensions" then
        match extensionsConsume events with
        | .ok (_, rest) => routeLoop fuel version acc rest
        | .error e => .error e
      else .error (.invalidChildElement n "route")
    | .endElement n :: rest =>
      if n = "rte" then .ok (acc, rest)
      else .error (.invalidClosingTag n "route")
    | _ :: rest => routeLoop fuel version acc rest

/-- `route::consume` from `src/parser/route.rs`: verifies the `rte`
opening tag, then loops over children into a `Default::default()`
route. -/
def routeConsume (version : GpxVersion) (events : List XmlEvent) :
    Except Err (Route × List XmlEvent) := do
  let (_, rest) ← verifyStartingTag "rte" events
  routeLoop (rest.length + 1) version Route.default rest

/-! ## Root consumer (`src/parser/gpx.rs`) -/

/-- `version_string_to_version` from `src/parser/gpx.rs`. -/
def versionStringToVersion (s : String) : Except Err GpxVersion :=
  match s with
  | "1.0" => .ok .Gpx10
  | "1.1" => .ok .Gpx11
  | _ => .error (.unknownVersionError .Unknown)

/-- The scratch locals of `gpx::consume` that hold flattened GPX-1.0
top-level fields until the closing tag. -/
structure GpxScratch where
  author : Option String
  url : Option String
  urlname : Option String
  email : Option String
  time : Option Time
  bounds : Option Rect
  gpx_name : Option String
  description : Option String
  keywords : Option String
deriving DecidableEq, Repr

/-- The initial (all-`None`) scratch state. -/
def GpxScratch.empty : GpxScratch := ⟨none, none, none, none, none, none, none, none, none⟩

/-- The GPX-1.0 metadata synthesis performed at the root's closing tag
(`src/parser/gpx.rs`, the `EndElement` arm): a `Link` from `url`/`urlname`,
a `Person` from `author`/`email`/link attached only when it differs from
the all-default `Person`, and the synthesized `Metadata` attached only
when it differs from the all-default `Metadata`. -/
def finishGpx10 (g : Gpx) (scr : GpxScratch) : Gpx :=
  let link := scr.url.map (fun url => { Link.default with href := url, text := scr.urlname })
  let person : Person := ⟨scr.author, scr.email, link⟩
  let author := if person ≠ Person.default then some person else none
  let metadata : Metadata :=
    { Metadata.default with
      name := scr.gpx_name
      time := scr.time
      bounds := scr.bounds
      keywords := scr.keywords
      description := scr.description
      author := author }
  if metadata ≠ Metadata.default then { g with metadata := some metadata } else g

/-- The child loop of `gpx::consume`: version-independent tags (`trk`,
`rte`, `wpt`, `extensions`) always dispatch; `metadata` dispatches only
when the detected version is not 1.0; the flattened 1.0-only tags are
captured into the scratch locals only under version 1.0 (under any other
version they fall through to the `InvalidChildElement` arm, as in the Rust
`match` with guards); the `gpx` closing tag triggers the 1.0 synthesis and
returns the document. -/
def gpxLoop (fuel : Nat) (g : Gpx) (scr : GpxScratch) (events : List XmlEvent) :
    Except Err (Gpx × List XmlEvent) :=
  match fuel with
  | 0 => .error (.eventParsingError "Expecting an event")
  | fuel + 1 =>
    match events with
    | [] => .error (.missingClosingTag "gpx")
    | .startElement n _ :: _ =>
      if n = "metadata" ∧ g.version ≠ .Gpx10 then
        match metadataConsume events with
        | .ok (m, rest) => gpxLoop fuel { g with metadata := some m } scr rest
        | .error e => .error e
      else if n = "trk" then
        match trackConsume g.version events with
        | .ok (t, rest) => gpxLoop fuel { g with tracks := g.tracks ++ [t] } scr rest
        | .error e => .error e
      else if n = "rte" then
        match routeConsume g.version events with
        | .ok (r, rest) => gpxLoop fuel { g with routes := g.routes ++ [r] } scr rest
        | .error e => .error e
      else if n = "wpt" then
        match waypointConsume g.version "wpt" events with
        | .ok (w, rest) => gpxLoop fuel { g with waypoints := g.waypoints ++ [w] } scr rest
        | .error e => .error e
      else if n = "time" ∧ g.version = .Gpx10 then
        match timeConsume events with
        | .ok (t, rest) => gpxLoop fuel g { scr with time := some t } rest
        | .error e => .error e
      else if n = "bounds" ∧ g.version = .Gpx10 then
        match boundsConsume events with
        | .ok (b, rest) => gpxLoop fuel g { scr with bounds := some b } rest
        | .error e => .error e
      else if n = "author" ∧ g.version = .Gpx10 then
        match stringConsume "author" false events with
        | .ok (s, rest) => gpxLoop fuel g { scr with author := some s } rest
        | .error e => .error e
      else if n = "email" ∧ g.version = .Gpx10 then
        match stringConsume "email" false events with
        | .ok (s, rest) => gpxLoop fuel g { scr with email := some s } rest
        | .error e => .error e
      else if n = "url" ∧ g.version = .Gpx10 then
        match stringConsume "url" false events with
        | .ok (s, rest) => gpxLoop fuel g { scr with url := some s } rest
        | .error e => .error e
      else if n = "urlname" ∧ g.version = .Gpx10 then
        match stringConsume "urlname" false events with
        | .ok (s, rest) => gpxLoop fuel g { scr with urlname := some s } rest
        | .error e => .error e
      else if n = "name" ∧ g.version = .Gpx10 then
        match stringConsume "name" false events with
        | .ok (s, rest) => gpxLoop fuel g { scr with gpx_name := some s } rest
        | .error e => .error e
      else if n = "desc" ∧ g.version = .Gpx10 then
        match stringConsume "desc" true events with
        | .ok (s, rest) => gpxLoop fuel g { scr with description := some s } rest
        | .error e => .error e
      else if n = "keywords" ∧ g.version = .Gpx10 then
        match stringConsume "keywords" true events with
        | .ok (s, rest) => gpxLoop fuel g { scr with keywords := some s } rest
        | .error e => .error e
      else if n = "extensions" then
        match extensionsConsume events with
        | .ok (_, rest) => gpxLoop fuel g scr rest
        | .error e => .error e
      else .error (.invalidChildElement n "gpx")
    | .endElement n :: rest =>
      if n ≠ "gpx" then .error (.invalidClosingTag n "gpx")
      else if g.version = .Gpx10 then .ok (finishGpx10 g scr, rest)
      else .ok (g, rest)
    | _ :: rest => gpxLoop fuel g scr rest

/-- `gpx::consume` from `src/parser/gpx.rs`: verifies the `gpx` opening
tag, requires the `version` attribute (an unrecognised value is an
unknown-version error), takes the optional `creator` attribute, and loops
over children. -/
def gpxConsume (events : List XmlEvent) : Except Err (Gpx × List XmlEvent) := do
  let (attrs, rest) ← verifyStartingTag "gpx" events
  let versionA ← attrOr attrs "version" "gpx"
  let version ← versionStringToVersion versionA.value
  let creator := (findAttr attrs "creator").map (fun a => a.value)
  gpxLoop (rest.length + 1)
    { Gpx.default with version := version, creator := creator } GpxScratch.empty rest

/-! ## Writer (`src/writer.rs`)

Each writer function produces the sequence of XML events it hands to the
`xml-rs` event emitter.  `XmlEvent::end_element()` closes the currently
open element, so the model emits the matching `endElement` name. -/

/-- `version_to_version_string` from `src/writer.rs`. -/
def versionToVersionString : GpxVersion → Except Err String
  | .Gpx10 => .ok "1.0"
  | .Gpx11 => .ok "1.1"
  | v => .error (.unknownVersionError v)

/-- `version_to_xml_url` from `src/writer.rs`. -/
def versionToXmlUrl : GpxVersion → Except Err String
  | .Gpx10 => .ok "http://www.topografix.com/GPX/1/0"
  | .Gpx11 => .ok "http://www.topografix.com/GPX/1/1"
  | v => .error (.unknownVersionError v)

/-- `write_string`. -/
def writeString (key value : String) : List XmlEvent :=
  [.startElement key [], .characters value, .endElement key]

/-- `write_string_if_exists`. -/
def writeStringIfExists (key : String) : Option String → List XmlEvent
  | none => []
  | some v => writeString key v

/-- `write_value_if_exists` instantiated at the `f64` `ToString`. -/
def writeFloatIfExists (key : String) : Option ℚ → List XmlEvent
  | none => []
  | some v => writeString key (printFloat v)

/-- `write_value_if_exists` instantiated at the unsigned-integer
`ToString`s. -/
def writeNatIfExists (key : String) : Option Nat → List XmlEvent
  | none => []
  | some v => writeString key (printNat v)

/-- Model of Rust `str::split(sep)`: the list of separator-free chunks
(never empty; `""` yields `[""]`). -/
def splitChar (sep : Char) : List Char → List (List Char)
  | [] => [[]]
  | c :: cs =>
    if c = sep then [] :: splitChar sep cs
    else
      match splitChar sep cs with
      | p :: ps => (c :: p) :: ps
      | [] => [[c]]

/-- The body of `write_email_if_exists` for a present address: splits it
on `'@'`; a missing domain part is a `MissingEmailPartError`, a third
part a `TooManyAtsError`; otherwise an `email` element with `id` and
`domain` attributes is emitted. -/
def emailEvents (email : String) : Except Err (List XmlEvent) :=
  match splitChar '@' email.data with
  | [] => .error (.missingEmailPartError "id")
  | [_] => .error (.missingEmailPartError "domain")
  | [i, d] =>
    .ok [.startElement "email" [⟨"id", String.mk i⟩, ⟨"domain", String.mk d⟩],
      .endElement "email"]
  | _ => .error .tooManyAtsError

/-- `write_email_if_exists`. -/
def writeEmailIfExists : Option String → Except Err (List XmlEvent)
  | none => .ok []
  | some email => emailEvents email

/-- `write_link`. -/
def writeLink (l : Link) : List XmlEvent :=
  [.startElement "link" [⟨"href", l.href⟩]]
    ++ writeStringIfExists "text" l.text
    ++ writeStringIfExists "type" l._type
    ++ [.endElement "link"]

/-- `write_link_if_exists`. -/
def writeLinkIfExists : Option Link → List XmlEvent
  | none => []
  | some l => writeLink l

/-- `write_person_if_exists`. -/
def writePersonIfExists (key : String) : Option Person → Except Err (List XmlEvent)
  | none => .ok []
  | some p => do
    let emailEvents ← writeEmailIfExists p.email
    .ok ([.startElement key []] ++ writeStringIfExists "name" p.name ++ emailEvents
      ++ writeLinkIfExists p.link ++ [.endElement key])

/-- `write_time_if_exists` (rendering via the external `time` crate's
ISO-8601 formatter, modelled by `timeFormat`). -/
def writeTimeIfExists : Option Time → List XmlEvent
  | none => []
  | some t => [.startElement "time" [], .characters (timeFormat t), .endElement "time"]

/-- `write_bounds_if_exists`. -/
def writeBoundsIfExists : Option Rect → List XmlEvent
  | none => []
  | some b =>
    [.startElement "bounds"
      [⟨"minlat", printFloat b.min.y⟩, ⟨"maxlat", printFloat b.max.y⟩,
       ⟨"minlon", printFloat b.min.x⟩, ⟨"maxlon", printFloat b.max.x⟩],
     .endElement "bounds"]

/-- `write_fix_if_exists`. -/
def writeFixIfExists : Option Fix → List XmlEvent
  | none => []
  | some f => [.startElement "fix" [], .characters (fixToString f), .endElement "fix"]

/-- `write_waypoint`: the opening tag with `lat`/`lon` attributes followed
by the optional children in the writer's fixed order.  GPX-1.0 `speed` is
not emitted (the `TODO` in `src/writer.rs`), and neither is the deprecated
`age` field. -/
def writeWaypoint (tag : String) (w : Waypoint) : List XmlEvent :=
  [.startElement tag [⟨"lat", printFloat w.point.y⟩, ⟨"lon", printFloat w.point.x⟩]]
    ++ writeFloatIfExists "ele" w.elevation
    ++ writeTimeIfExists w.time
    ++ writeFloatIfExists "geoidheight" w.geoidheight
    ++ writeStringIfExists "name" w.name
    ++ writeStringIfExists "cmt" w.comment
    ++ writeStringIfExists "desc" w.description
    ++ writeStringIfExists "src" w.source
    ++ (w.links.map writeLink).flatten
    ++ writeStringIfExists "sym" w.symbol
    ++ writeStringIfExists "type" w._type
    ++ writeFixIfExists w.fix
    ++ writeNatIfExists "sat" w.sat
    ++ writeFloatIfExists "hdop" w.hdop
    ++ writeFloatIfExists "vdop" w.vdop
    ++ writeFloatIfExists "pdop" w.pdop
    ++ writeFloatIfExists "ageofdgpsdata" w.dgps_age
    ++ writeNatIfExists "dgpsid" w.dgpsid
    ++ [.endElement tag]

/-- `write_track_segment`. -/
def writeTrackSegment (s : TrackSegment) : List XmlEvent :=
  [.startElement "trkseg" []]
    ++ (s.points.map (writeWaypoint "trkpt")).flatten
    ++ [.endElement "trkseg"]

/-- `write_track`. -/
def writeTrack (t : Track) : List XmlEvent :=
  [.startElement "trk" []]
    ++ writeStringIfExists "name" t.name
    ++ writeStringIfExists "cmt" t.comment
    ++ writeStringIfExists "desc" t.description
    ++ writeStringIfExists "src" t.source
    ++ (t.links.map writeLink).flatten
    ++ writeStringIfExists "type" t._type
    ++ (t.segments.map writeTrackSegment).flatten
    ++ [.endElement "trk"]

/-- `write_route`. -/
def writeRoute (r : Route) : List XmlEvent :=
  [.startElement "rte" []]
    ++ writeStringIfExists "name" r.name
    ++ writeStringIfExists "cmt" r.comment
    ++ writeStringIfExists "desc" r.description
    ++ writeStringIfExists "src" r.source
    ++ (r.links.map writeLink).flatten
    ++ writeNatIfExists "number" r.number
    ++ writeStringIfExists "type" r._type
    ++ (r.points.map (writeWaypoint "rtept")).flatten
    ++ [.endElement "rte"]

/-- `write_gpx10_metadata`: flattens the metadata back out as GPX-1.0
top-level elements; the author's email is emitted in attribute form by
`write_email_if_exists`, the author's link as `url`/`urlname`; metadata
links and copyright are not emitted. -/
def writeGpx10Metadata : Option Metadata → Except Err (List XmlEvent)
  | none => .ok []
  | some m => do
    let authorEvents ←
      match m.author with
      | none => pure []
      | some a => do
        let emailEvents ← writeEmailIfExists a.email
        let linkEvents :=
          match a.link with
          | none => []
          | some l => writeString "url" l.href ++ writeStringIfExists "urlname" l.text
        pure (writeStringIfExists "author" a.name ++ emailEvents ++ linkEvents)
    .ok (writeStringIfExists "name" m.name
      ++ writeStringIfExists "desc" m.description
      ++ authorEvents
      ++ writeStringIfExists "keywords" m.keywords
      ++ writeTimeIfExists m.time
      ++ writeBoundsIfExists m.bounds)

/-- `write_gpx11_metadata`: a nested `metadata` element. -/
def writeGpx11Metadata : Option Metadata → Except Err (List XmlEvent)
  | none => .ok []
  | some m => do
    let personEvents ← writePersonIfExists "author" m.author
    .ok ([.startElement "metadata" []]
      ++ writeStringIfExists "name" m.name
      ++ writeStringIfExists "desc" m.description
      ++ personEvents
      ++ writeStringIfExists "keywords" m.keywords
      ++ writeTimeIfExists m.time
      ++ (m.links.map writeLink).flatten
      ++ writeBoundsIfExists m.bounds
      ++ [.endElement "metadata"])

/-- `write_metadata`: dispatches on the document version. -/
def writeMetadata (g : Gpx) : Except Err (List XmlEvent) :=
  match g.version with
  | .Gpx10 => writeGpx10Metadata g.metadata
  | .Gpx11 => writeGpx11Metadata g.metadata
  | v => .error (.unknownVersionError v)

/-- `write_with_event_writer` from `src/writer.rs`: the root opening tag
with `version`, `xmlns` and `creator` attributes — a missing creator
defaults to the library URL —, then metadata, waypoints, tracks and
routes. -/
def writeGpx (g : Gpx) : Except Err (List XmlEvent) := do
  let creator := g.creator.getD "https://github.com/georust/gpx"
  let versionStr ← versionToVersionString g.version
  let xmlnsStr ← versionToXmlUrl g.version
  let metadataEvents ← writeMetadata g
  .ok ([.startElement "gpx"
      [⟨"version", versionStr⟩, ⟨"xmlns", xmlnsStr⟩, ⟨"creator", creator⟩]]
    ++ metadataEvents
    ++ (g.waypoints.map (writeWaypoint "wpt")).flatten
    ++ (g.tracks.map writeTrack).flatten
    ++ (g.routes.map writeRoute).flatten
    ++ [.endElement "gpx"])

/-! ## Round-trip infrastructure: step counts and well-formedness

The loop consumers above are fuel-indexed; each loop iteration consumes
one unit of fuel, so the fuel needed to consume a written child list is
the number of children.  The `Wf` predicates carve out the documents on
which the writer emits exactly what the corresponding consumer reads
back: they exclude the fields the writer drops (`speed`, `age`,
`geoidheight`, metadata `copyright`), require the text fields to be
non-empty (the string consumer rejects empty content), the rationals to
be decimal-representable, the coordinates in range, and emails to split
on a single `'@'`. -/

/-- One loop iteration per present optional child. -/
def optSteps {α : Type} : Option α → Nat
  | none => 0
  | some _ => 1

/-- The `id`/`domain` split of an email address performed by the writer,
when the address has exactly one `'@'`. -/
def emailParts (e : String) : Option (String × String) :=
  match splitChar '@' e.data with
  | [i, d] => some (String.mk i, String.mk d)
  | _ => none

/-- Well-formedness of an optional value. -/
def WfOpt {α : Type} (P : α → Prop) : Option α → Prop
  | none => True
  | some x => P x

instance instDecWfOpt {α : Type} {P : α → Prop} [DecidablePred P] :
    ∀ o : Option α, Decidable (WfOpt P o)
  | none => .isTrue True.intro
  | some x => if h : P x then .isTrue h else .isFalse h

/-- An email the writer can split and the parser reassembles to the same
address: it has exactly one `'@'` and the `id`/`domain` parts rejoin to
it. -/
def WfEmail (e : String) : Prop :=
  (emailParts e).map (fun pr => pr.1 ++ "@" ++ pr.2) = some e

instance : DecidablePred WfEmail := fun e =>
  inferInstanceAs (Decidable ((emailParts e).map (fun pr => pr.1 ++ "@" ++ pr.2) = some e))

/-- A rational exactly representable by the decimal grammar. -/
def WfQ (q : ℚ) : Prop := q.den ∣ 10 ^ q.den

instance : DecidablePred WfQ := fun q => inferInstanceAs (Decidable (q.den ∣ 10 ^ q.den))

/-- A fix value whose rendered token classifies back to it and is
non-empty (excludes `Other` carrying a canonical token or the empty
string). -/
def WfFix (f : Fix) : Prop := fixOfString (fixToString f) = f ∧ fixToString f ≠ ""

instance : DecidablePred WfFix := fun f =>
  inferInstanceAs (Decidable (fixOfString (fixToString f) = f ∧ fixToString f ≠ ""))

/-- A link whose optional text fields are non-empty. -/
def WfLink (l : Link) : Prop :=
  WfOpt (fun s : String => s ≠ "") l.text ∧ WfOpt (fun s : String => s ≠ "") l._type

instance : DecidablePred WfLink := fun l =>
  inferInstanceAs (Decidable (WfOpt (fun s : String => s ≠ "") l.text
    ∧ WfOpt (fun s : String => s ≠ "") l._type))

/-- A person with non-empty name, splittable email and well-formed link. -/
def WfPerson (p : Person) : Prop :=
  WfOpt (fun s : String => s ≠ "") p.name ∧ WfOpt WfEmail p.email ∧ WfOpt WfLink p.link

instance : DecidablePred WfPerson := fun p =>
  inferInstanceAs (Decidable (WfOpt (fun s : String => s ≠ "") p.name
    ∧ WfOpt WfEmail p.email ∧ WfOpt WfLink p.link))

/-- A point with decimal-representable coordinates inside the waypoint
range invariant. -/
def WfPoint (pt : Point) : Prop :=
  WfQ pt.x ∧ WfQ pt.y ∧ -90 ≤ pt.y ∧ pt.y ≤ 90 ∧ -180 ≤ pt.x ∧ pt.x < 180

instance : DecidablePred WfPoint := fun pt =>
  inferInstanceAs (Decidable (WfQ pt.x ∧ WfQ pt.y ∧ -90 ≤ pt.y ∧ pt.y ≤ 90
    ∧ -180 ≤ pt.x ∧ pt.x < 180))

/-- A rect with decimal-representable, well-ordered corners. -/
def WfRect (r : Rect) : Prop :=
  WfQ r.min.x ∧ WfQ r.min.y ∧ WfQ r.max.x ∧ WfQ r.max.y
    ∧ r.min.x ≤ r.max.x ∧ r.min.y ≤ r.max.y

instance : DecidablePred WfRect := fun r =>
  inferInstanceAs (Decidable (WfQ r.min.x ∧ WfQ r.min.y ∧ WfQ r.max.x ∧ WfQ r.max.y
    ∧ r.min.x ≤ r.max.x ∧ r.min.y ≤ r.max.y))

/-- A waypoint the writer serializes losslessly: the fields the writer
never emits (`speed`, `geoidheight`, deprecated `age`) are absent, all
text fields non-empty, all rationals decimal-representable, the integer
fields within their parse bounds, the fix token classifying back. -/
def WfWaypoint (w : Waypoint) : Prop :=
  WfPoint w.point ∧ WfOpt WfQ w.elevation ∧ w.speed = none
    ∧ WfOpt (fun s : String => s ≠ "") w.name
    ∧ WfOpt (fun s : String => s ≠ "") w.comment
    ∧ WfOpt (fun s : String => s ≠ "") w.description
    ∧ WfOpt (fun s : String => s ≠ "") w.source
    ∧ (∀ l ∈ w.links, WfLink l)
    ∧ WfOpt (fun s : String => s ≠ "") w.symbol
    ∧ WfOpt (fun s : String => s ≠ "") w._type
    ∧ w.geoidheight = none ∧ WfOpt WfFix w.fix
    ∧ WfOpt (fun n => n ≤ u64Max) w.sat
    ∧ WfOpt WfQ w.hdop ∧ WfOpt WfQ w.vdop ∧ WfOpt WfQ w.pdop
    ∧ w.age = none ∧ WfOpt WfQ w.dgps_age
    ∧ WfOpt (fun n => n ≤ u16Max) w.dgpsid

instance : DecidablePred WfWaypoint := fun w =>
  inferInstanceAs (Decidable (WfPoint w.point ∧ WfOpt WfQ w.elevation ∧ w.speed = none
    ∧ WfOpt (fun s : String => s ≠ "") w.name
    ∧ WfOpt (fun s : String => s ≠ "") w.comment
    ∧ WfOpt (fun s : String => s ≠ "") w.description
    ∧ WfOpt (fun s : String => s ≠ "") w.source
    ∧ (∀ l ∈ w.links, WfLink l)
    ∧ WfOpt (fun s : String => s ≠ "") w.symbol
    ∧ WfOpt (fun s : String => s ≠ "") w._type
    ∧ w.geoidheight = none ∧ WfOpt WfFix w.fix
    ∧ WfOpt (fun n => n ≤ u64Max) w.sat
    ∧ WfOpt WfQ w.hdop ∧ WfOpt WfQ w.vdop ∧ WfOpt WfQ w.pdop
    ∧ w.age = none ∧ WfOpt WfQ w.dgps_age
    ∧ WfOpt (fun n => n ≤ u16Max) w.dgpsid))

/-- A track whose strings, links and segment points are well-formed. -/
def WfTrack (t : Track) : Prop :=
  WfOpt (fun s : String => s ≠ "") t.name
    ∧ WfOpt (fun s : String => s ≠ "") t.comment
    ∧ WfOpt (fun s : String => s ≠ "") t.description
    ∧ WfOpt (fun s : String => s ≠ "") t.source
    ∧ (∀ l ∈ t.links, WfLink l)
    ∧ WfOpt (fun s : String => s ≠ "") t._type
    ∧ (∀ sg ∈ t.segments, ∀ w ∈ sg.points, WfWaypoint w)

instance : DecidablePred WfTrack := fun t =>
  inferInstanceAs (Decidable (WfOpt (fun s : String => s ≠ "") t.name
    ∧ WfOpt (fun s : String => s ≠ "") t.comment
    ∧ WfOpt (fun s : String => s ≠ "") t.description
    ∧ WfOpt (fun s : String => s ≠ "") t.source
    ∧ (∀ l ∈ t.links, WfLink l)
    ∧ WfOpt (fun s : String => s ≠ "") t._type
    ∧ (∀ sg ∈ t.segments, ∀ w ∈ sg.points, WfWaypoint w)))

/-- A route whose name, type, links, number and points are well-formed
(`cmt`, `desc` and `src` are unconstrained: the route consumer reads
them with `allow_empty = true`). -/
def WfRoute (r : Route) : Prop :=
  WfOpt (fun s : String => s ≠ "") r.name
    ∧ (∀ l ∈ r.links, WfLink l)
    ∧ WfOpt (fun n => n ≤ u32Max) r.number
    ∧ WfOpt (fun s : String => s ≠ "") r._type
    ∧ (∀ w ∈ r.points, WfWaypoint w)

instance : DecidablePred WfRoute := fun r =>
  inferInstanceAs (Decidable (WfOpt (fun s : String => s ≠ "") r.name
    ∧ (∀ l ∈ r.links, WfLink l)
    ∧ WfOpt (fun n => n ≤ u32Max) r.number
    ∧ WfOpt (fun s : String => s ≠ "") r._type
    ∧ (∀ w ∈ r.points, WfWaypoint w)))

/-- Metadata the GPX-1.1 writer serializes losslessly: no copyright (the
writer never emits one), non-empty strings, well-formed author, links and
bounds. -/
def WfMetadata (m : Metadata) : Prop :=
  WfOpt (fun s : String => s ≠ "") m.name
    ∧ WfOpt (fun s : String => s ≠ "") m.description
    ∧ WfOpt WfPerson m.author
    ∧ (∀ l ∈ m.links, WfLink l)
    ∧ WfOpt (fun s : String => s ≠ "") m.keywords
    ∧ m.copyright = none
    ∧ WfOpt WfRect m.bounds

instance : DecidablePred WfMetadata := fun m =>
  inferInstanceAs (Decidable (WfOpt (fun s : String => s ≠ "") m.name
    ∧ WfOpt (fun s : String => s ≠ "") m.description
    ∧ WfOpt WfPerson m.author
    ∧ (∀ l ∈ m.links, WfLink l)
    ∧ WfOpt (fun s : String => s ≠ "") m.keywords
    ∧ m.copyright = none
    ∧ WfOpt WfRect m.bounds))

/-- A document body the writer serializes losslessly. -/
def WfGpx (g : Gpx) : Prop :=
  WfOpt WfMetadata g.metadata
    ∧ (∀ w ∈ g.waypoints, WfWaypoint w)
    ∧ (∀ t ∈ g.tracks, WfTrack t)
    ∧ (∀ r ∈ g.routes, WfRoute r)

instance : DecidablePred WfGpx := fun g =>
  inferInstanceAs (Decidable (WfOpt WfMetadata g.metadata
    ∧ (∀ w ∈ g.waypoints, WfWaypoint w)
    ∧ (∀ t ∈ g.tracks, WfTrack t)
    ∧ (∀ r ∈ g.routes, WfRoute r)))

/-- Loop iterations needed for the children of a written waypoint, in
reverse writer order (the writer emits no `speed`, `geoidheight` or `age`
children on well-formed waypoints). -/
def wpSteps (w : Waypoint) : Nat :=
  optSteps w.dgpsid + optSteps w.dgps_age + optSteps w.pdop + optSteps w.vdop
    + optSteps w.hdop + optSteps w.sat + optSteps w.fix + optSteps w._type
    + optSteps w.symbol + w.links.length + optSteps w.source + optSteps w.description
    + optSteps w.comment + optSteps w.name + optSteps w.time + optSteps w.elevation

/-- Loop iterations needed for the children of a written track. -/
def trackSteps (t : Track) : Nat :=
  t.segments.length + optSteps t._type + t.links.length + optSteps t.source
    + optSteps t.description + optSteps t.comment + optSteps t.name

/-- Loop iterations needed for the children of a written route. -/
def routeSteps (r : Route) : Nat :=
  r.points.length + optSteps r._type + optSteps r.number + r.links.length
    + optSteps r.source + optSteps r.description + optSteps r.comment + optSteps r.name

/-- Loop iterations needed for the children of a written person element. -/
def personSteps (p : Person) : Nat :=
  optSteps p.link + optSteps p.email + optSteps p.name

/-- Loop iterations needed for the children of a written metadata element. -/
def mdSteps (m : Metadata) : Nat :=
  optSteps m.bounds + m.links.length + optSteps m.time + optSteps m.keywords
    + optSteps m.author + optSteps m.description + optSteps m.name

/-- Loop iterations needed for the children of a written document root. -/
def gpxSteps (g : Gpx) : Nat :=
  g.routes.length + g.tracks.length + g.waypoints.length + optSteps g.metadata

/-- Interior events a string element may contain before its closing tag:
text and miscellaneous events only. -/
def FlatEvents : List XmlEvent → Prop :=
  fun l => ∀ e ∈ l, (∃ s, e = .characters s) ∨ e = .misc

/-- The text value the string consumer accumulates over a flat event
prefix: the last text content, or the initial accumulator. -/
def lastText (acc : String) : List XmlEvent → String
  | [] => acc
  | .characters s :: rest => lastText s rest
  | _ :: rest => lastText acc rest

/-- Well-nested event sequences: the interior content an `extensions`
block may contain. -/
inductive Balanced : List XmlEvent → Prop
  | nil : Balanced []
  | text (s : String) (rest : List XmlEvent) : Balanced rest →
      Balanced (.characters s :: rest)
  | misc (rest : List XmlEvent) : Balanced rest → Balanced (.misc :: rest)
  | elem (n : String) (attrs : List Attr) (inner rest : List XmlEvent) :
      Balanced inner → Balanced rest →
      Balanced (.startElement n attrs :: inner ++ .endElement n :: rest)

/-! ## Lemmas about the decimal codec -/

theorem digitVal_digitChar (d : Nat) (h : d < 10) : digitVal (digitChar d) = d := by
  interval_cases d <;> decide

theorem isDigit_digitChar (d : Nat) (h : d < 10) : (digitChar d).isDigit = true := by
  interval_cases d <;> decide

theorem digitsVal_go (l : List Char) (a : Nat) :
    l.foldl (fun a c => a * 10 + digitVal c) a = a * 10 ^ l.length + digitsVal l := by
  induction l generalizing a with
  | nil => simp [digitsVal]
  | cons c t ih =>
    simp only [List.foldl_cons, List.length_cons, digitsVal]
    rw [ih, ih (0 * 10 + digitVal c)]
    ring

theorem digitsVal_append (l1 l2 : List Char) :
    digitsVal (l1 ++ l2) = digitsVal l1 * 10 ^ l2.length + digitsVal l2 := by
  simp only [digitsVal, List.foldl_append]
  rw [show (List.foldl (fun a c => a * 10 + digitVal c) 0 l1) = digitsVal l1 from rfl,
    digitsVal_go]
  rfl

theorem digitsVal_replicate_zero (k : Nat) :
    digitsVal (List.replicate k '0') = 0 := by
  induction k with
  | zero => rfl
  | succ k ih =>
    have : List.replicate (k + 1) '0' = List.replicate k '0' ++ ['0'] := by
      rw [List.replicate_succ']
    rw [this, digitsVal_append, ih]
    decide

theorem digitsVal_pad (w : Nat) (l : List Char) :
    digitsVal (padChars w l) = digitsVal l := by
  unfold padChars
  rw [digitsVal_append, digitsVal_replicate_zero]
  simp

theorem digitsVal_rev_map (ds : List Nat) (h : ∀ d ∈ ds, d < 10) :
    digitsVal ((ds.map digitChar).reverse) = Nat.ofDigits 10 ds := by
  induction ds with
  | nil => simp [digitsVal, Nat.ofDigits]
  | cons d t ih =>
    rw [List.map_cons, List.reverse_cons, digitsVal_append, Nat.ofDigits_cons,
      ih (fun x hx => h x (List.mem_cons_of_mem _ hx))]
    have hd : digitsVal [digitChar d] = d := by
      show 0 * 10 + digitVal (digitChar d) = d
      rw [digitVal_digitChar d (h d (List.mem_cons_self _ _))]
      ring
    rw [hd]
    simp only [List.length_cons, List.length_nil]
    ring

theorem digitsVal_natChars (n : Nat) : digitsVal (natChars n) = n := by
  by_cases hn : n = 0
  · subst hn; decide
  · unfold natChars
    rw [if_neg hn, digitsVal_rev_map _ (fun d hd => Nat.digits_lt_base (by norm_num) hd),
      Nat.ofDigits_digits]

theorem mem_natChars_isDigit (n : Nat) (c : Char) (h : c ∈ natChars n) : c.isDigit = true := by
  unfold natChars at h
  by_cases hn : n = 0
  · rw [if_pos hn] at h
    simp at h
    subst h
    decide
  · rw [if_neg hn] at h
    rw [List.mem_reverse] at h
    obtain ⟨d, hd, rfl⟩ := List.mem_map.mp h
    exact isDigit_digitChar d (Nat.digits_lt_base (by norm_num) hd)

theorem allDigits_natChars (n : Nat) : allDigits (natChars n) = true := by
  unfold allDigits
  rw [List.all_eq_true]
  intro c hc
  simpa using mem_natChars_isDigit n c hc

theorem allDigits_pad (w : Nat) (l : List Char) (h : allDigits l = true) :
    allDigits (padChars w l) = true := by
  unfold allDigits padChars at *
  rw [List.all_append]
  rw [h]
  simp only [Bool.and_true]
  rw [List.all_eq_true]
  intro c hc
  rw [List.eq_of_mem_replicate hc]
  decide

theorem natChars_ne_nil (n : Nat) : natChars n ≠ [] := by
  unfold natChars
  by_cases hn : n = 0
  · rw [if_pos hn]; simp
  · rw [if_neg hn]
    simp only [ne_eq, List.reverse_eq_nil_iff, List.map_eq_nil_iff]
    exact Nat.digits_ne_nil_iff_ne_zero.mpr hn

theorem natChars_length_le (n k : Nat) (hk : 1 ≤ k) (h : n < 10 ^ k) :
    (natChars n).length ≤ k := by
  unfold natChars
  by_cases hn : n = 0
  · rw [if_pos hn]; simpa using hk
  · rw [if_neg hn]
    simp only [List.length_reverse, List.length_map]
    rw [Nat.digits_len 10 n (by norm_num) hn]
    have := (Nat.lt_pow_iff_log_lt (b := 10) (by norm_num) hn).mp h
    omega

theorem isDigit_ne_dash (c : Char) (h : c.isDigit = true) : c ≠ '-' := by
  intro hc; subst hc; simp [Char.isDigit] at h

theorem isDigit_ne_plus (c : Char) (h : c.isDigit = true) : c ≠ '+' := by
  intro hc; subst hc; simp [Char.isDigit] at h

theorem isDigit_ne_dot (c : Char) (h : c.isDigit = true) : c ≠ '.' := by
  intro hc; subst hc; simp [Char.isDigit] at h

theorem natChars_head_not_sign (n : Nat) (c : Char) (h : (natChars n).head? = some c) :
    ¬(c = '-' ∨ c = '+') := by
  have hc : c ∈ natChars n := by
    cases hnc : natChars n with
    | nil => rw [hnc] at h; simp at h
    | cons a t =>
      rw [hnc] at h
      simp at h
      subst h
      exact List.mem_cons_self _ _
  have := mem_natChars_isDigit n c hc
  rintro (rfl | rfl) <;> simp [Char.isDigit] at this

theorem stripPlus_natChars (n : Nat) : stripPlus (natChars n) = natChars n := by
  unfold stripPlus
  rw [if_neg]
  intro hp
  exact natChars_head_not_sign n '+' hp (Or.inr rfl)

theorem parseNatLe_printNat (maxVal n : Nat) (h : n ≤ maxVal) :
    parseNatLe maxVal (printNat n) = some n := by
  unfold printNat parseNatLe
  show (if allDigits (stripPlus (natChars n)) = true ∧ stripPlus (natChars n) ≠ []
      ∧ digitsVal (stripPlus (natChars n)) ≤ maxVal then
    some (digitsVal (stripPlus (natChars n))) else none) = some n
  rw [stripPlus_natChars]
  rw [if_pos ⟨allDigits_natChars n, natChars_ne_nil n,
    by rw [digitsVal_natChars]; exact h⟩, digitsVal_natChars]

theorem breakAtDot_append (l1 l2 : List Char) (h : '.' ∉ l1) :
    breakAtDot (l1 ++ '.' :: l2) = (l1, some l2) := by
  induction l1 with
  | nil => simp [breakAtDot]
  | cons c t ih =>
    have hc : ¬(c = '.') := by
      intro hc; exact h (by rw [hc]; exact List.mem_cons_self _ _)
    have ht : '.' ∉ t := fun hm => h (List.mem_cons_of_mem _ hm)
    simp only [List.cons_append, breakAtDot, if_neg hc, List.append_eq, ih ht]

theorem natChars_no_dot (n : Nat) : '.' ∉ natChars n := by
  intro hm
  have := mem_natChars_isDigit n '.' hm
  simp [Char.isDigit] at this

theorem pad_natChars_length (e n : Nat) (he : 1 ≤ e) (h : n < 10 ^ e) :
    (padChars e (natChars n)).length = e := by
  unfold padChars
  have := natChars_length_le n e he h
  simp only [List.length_append, List.length_replicate]
  omega

/-- The unsigned decimal of an integer/fraction digit pair re-parses to its
value. -/
theorem parseUnsignedFloat_body (hi lo e : Nat) (he : 1 ≤ e) (hlo : lo < 10 ^ e) :
    parseUnsignedFloat (natChars hi ++ '.' :: padChars e (natChars lo))
      = some ((hi : ℚ) + (lo : ℚ) / 10 ^ e) := by
  unfold parseUnsignedFloat
  rw [breakAtDot_append _ _ (natChars_no_dot hi)]
  simp only [Option.elim]
  rw [if_pos ⟨allDigits_natChars hi, allDigits_pad e _ (allDigits_natChars lo),
    Or.inl (natChars_ne_nil hi)⟩]
  unfold decimalVal
  rw [digitsVal_natChars, digitsVal_pad, digitsVal_natChars,
    pad_natChars_length e lo he hlo]

/-- If a natural number divides a power of ten, it divides the power of
ten with its own exponent. -/
theorem dvd_ten_pow_self (d k : Nat) (h : d ∣ 10 ^ k) : d ∣ 10 ^ d := by
  have hd0 : d ≠ 0 := by
    intro h0
    subst h0
    have := Nat.eq_zero_of_zero_dvd h
    exact absurd this (pow_ne_zero k (by norm_num))
  rw [← Nat.factorization_le_iff_dvd hd0 (pow_ne_zero d (by norm_num))]
  have hle := (Nat.factorization_le_iff_dvd hd0 (pow_ne_zero k (by norm_num))).mpr h
  intro p
  have hp := hle p
  rw [Nat.factorization_pow] at hp ⊢
  simp only [Finsupp.smul_apply, smul_eq_mul] at hp ⊢
  by_cases h10 : (Nat.factorization 10) p = 0
  · rw [h10] at hp ⊢
    omega
  · have hfd : d.factorization p < d := Nat.factorization_lt p hd0
    have : 1 ≤ (Nat.factorization 10) p := Nat.one_le_iff_ne_zero.mpr h10
    calc d.factorization p ≤ d := le_of_lt hfd
    _ = d * 1 := (mul_one d).symm
    _ ≤ d * (Nat.factorization 10) p := Nat.mul_le_mul_left d this

/-- Every rational produced by `parseFloat` has a denominator dividing a
power of ten. -/
theorem den_dvd_pow_of_decimal (a b k : Nat) (q : ℚ)
    (hq : q = (a : ℚ) + (b : ℚ) / 10 ^ k) : q.den ∣ 10 ^ k := by
  have hq2 : q = ((a * 10 ^ k + b : ℤ) : ℚ) / ((10 ^ k : ℤ) : ℚ) := by
    rw [hq]
    have hpow : ((10 : ℚ) ^ k) ≠ 0 := by positivity
    push_cast
    field_simp
  rw [hq2, ← Rat.divInt_eq_div]
  have hdvd := Rat.den_dvd (a * 10 ^ k + b : ℤ) ((10 : ℤ) ^ k)
  have h2 : (((Rat.divInt (a * 10 ^ k + b : ℤ) ((10 : ℤ) ^ k)).den : ℤ))
        ∣ ((10 ^ k : ℕ) : ℤ) := by
    push_cast
    exact hdvd
  exact_mod_cast h2

theorem parseUnsignedFloat_dvd (l : List Char) (q : ℚ)
    (h : parseUnsignedFloat l = some q) : ∃ k, q.den ∣ 10 ^ k := by
  unfold parseUnsignedFloat at h
  rcases hbd : (breakAtDot l).2 with - | fp
  · rw [hbd] at h
    simp only [Option.elim] at h
    split at h
    · refine ⟨0, ?_⟩
      have hqv : q = (digitsVal l : ℚ) := by
        injection h with h2
        exact h2.symm
      rw [hqv]
      simp [Rat.den_natCast]
    · exact absurd h (by simp)
  · rw [hbd] at h
    simp only [Option.elim] at h
    split at h
    · refine ⟨fp.length, ?_⟩
      apply den_dvd_pow_of_decimal (digitsVal (breakAtDot l).1) (digitsVal fp) fp.length
      injection h with h2
      exact h2.symm
    · exact absurd h (by simp)

theorem parseUnsignedFloat_floatBody (q : ℚ) (hq : q.den ∣ 10 ^ q.den) :
    parseUnsignedFloat (floatBody q) = some ((q.num.natAbs : ℚ) / (q.den : ℚ)) := by
  have hden : q.den ≠ 0 := q.den_nz
  have hpow : (0 : Nat) < 10 ^ q.den := pow_pos (by norm_num) _
  unfold floatBody
  rw [parseUnsignedFloat_body _ _ _ (Nat.one_le_iff_ne_zero.mpr hden) (Nat.mod_lt _ hpow)]
  congr 1
  have h10 : ((10 : ℚ) ^ q.den) ≠ 0 := by positivity
  have hdenQ : ((q.den : ℚ)) ≠ 0 := by exact_mod_cast hden
  have hdvd : q.den ∣ q.num.natAbs * 10 ^ q.den := Dvd.dvd.mul_left hq _
  have hscaled : ((floatScaled q : ℚ)) * (q.den : ℚ) = (q.num.natAbs : ℚ) * 10 ^ q.den := by
    unfold floatScaled
    rw [Nat.cast_div hdvd hdenQ]
    field_simp
  have hmod := Nat.div_add_mod (floatScaled q) (10 ^ q.den)
  have hmodQ : (10 : ℚ) ^ q.den * ((floatScaled q / 10 ^ q.den : Nat) : ℚ)
      + ((floatScaled q % 10 ^ q.den : Nat) : ℚ) = ((floatScaled q : Nat) : ℚ) := by
    exact_mod_cast hmod
  field_simp
  linear_combination (q.den : ℚ) * hmodQ + hscaled

theorem natAbs_div_den_abs (q : ℚ) : (q.num.natAbs : ℚ) / (q.den : ℚ) = |q| := by
  have hden : (0 : ℚ) < (q.den : ℚ) := by exact_mod_cast q.pos
  rw [Int.cast_natAbs, Int.cast_abs, ← abs_of_pos hden, ← abs_div, Rat.num_div_den]

theorem floatBody_head (q : ℚ) (c : Char) (h : (floatBody q).head? = some c) :
    c.isDigit = true := by
  unfold floatBody at h
  obtain ⟨a, t, hat⟩ := List.exists_cons_of_ne_nil (natChars_ne_nil (floatScaled q / 10 ^ q.den))
  rw [hat] at h
  simp at h
  subst h
  apply mem_natChars_isDigit (floatScaled q / 10 ^ q.den)
  rw [hat]
  exact List.mem_cons_self _ _

/-- The central decimal-codec inverse: printing any rational whose reduced
denominator divides a power of ten, then re-parsing it, recovers the
rational exactly. -/
theorem parseFloat_printFloat (q : ℚ) (hq : q.den ∣ 10 ^ q.den) :
    parseFloat (printFloat q) = some q := by
  have habs := parseUnsignedFloat_floatBody q hq
  rw [natAbs_div_den_abs] at habs
  unfold printFloat parseFloat
  by_cases hneg : q < 0
  · rw [if_pos hneg]
    show (if ('-' :: floatBody q).head? = some '-' then
        (parseUnsignedFloat ('-' :: floatBody q).tail).map (fun q => -q)
      else if ('-' :: floatBody q).head? = some '+' then
        parseUnsignedFloat ('-' :: floatBody q).tail
      else parseUnsignedFloat ('-' :: floatBody q)) = some q
    rw [if_pos (by simp)]
    show (parseUnsignedFloat (floatBody q)).map (fun q => -q) = some q
    rw [habs]
    simp only [Option.map_some']
    rw [abs_of_neg hneg]
    simp
  · rw [if_neg hneg]
    have hhead : ∀ c, (floatBody q).head? = some c → ¬(c = '-') ∧ ¬(c = '+') := by
      intro c hc
      have := floatBody_head q c hc
      constructor
      · intro h2; subst h2; simp [Char.isDigit] at this
      · intro h2; subst h2; simp [Char.isDigit] at this
    show (if (floatBody q).head? = some '-' then
        (parseUnsignedFloat (floatBody q).tail).map (fun q => -q)
      else if (floatBody q).head? = some '+' then
        parseUnsignedFloat (floatBody q).tail
      else parseUnsignedFloat (floatBody q)) = some q
    rw [if_neg (fun hc => (hhead '-' hc).1 rfl), if_neg (fun hc => (hhead '+' hc).2 rfl), habs,
      abs_of_nonneg (not_lt.mp hneg)]

theorem parseFloat_dvd (s : String) (q : ℚ) (h : parseFloat s = some q) :
    q.den ∣ 10 ^ q.den := by
  unfold parseFloat at h
  split at h
  · simp only [Option.map_eq_some'] at h
    obtain ⟨r, hr, rfl⟩ := h
    obtain ⟨k, hk⟩ := parseUnsignedFloat_dvd _ _ hr
    rw [Rat.neg_den] at *
    exact dvd_ten_pow_self _ k hk
  · split at h
    · obtain ⟨k, hk⟩ := parseUnsignedFloat_dvd _ _ h
      exact dvd_ten_pow_self _ k hk
    · obtain ⟨k, hk⟩ := parseUnsignedFloat_dvd _ _ h
      exact dvd_ten_pow_self _ k hk

/-! ## Lemmas about the time codec and the email splitter -/

theorem spanDigits_append (ds : List Char) (c : Char) (rest : List Char)
    (hd : allDigits ds = true) (hc : ¬c.isDigit = true) :
    spanDigits (ds ++ c :: rest) = (ds, c :: rest) := by
  induction ds with
  | nil => simp [spanDigits, hc]
  | cons a t ih =>
    have ha : a.isDigit = true := by
      have := (List.all_eq_true.mp hd) a (List.mem_cons_self _ _)
      simpa using this
    have ht : allDigits t = true := by
      unfold allDigits at hd ⊢
      rw [List.all_eq_true] at hd ⊢
      exact fun x hx => hd x (List.mem_cons_of_mem _ hx)
    simp only [List.cons_append, spanDigits, if_pos ha, List.append_eq, ih ht]

theorem padNat_all_digits (w n : Nat) : allDigits (padNat w n) = true :=
  allDigits_pad w _ (allDigits_natChars n)

theorem padNat_ne_nil (w n : Nat) : padNat w n ≠ [] := by
  unfold padNat padChars
  intro h
  rw [List.append_eq_nil] at h
  exact natChars_ne_nil n h.2

theorem digitsVal_padNat (w n : Nat) : digitsVal (padNat w n) = n := by
  unfold padNat
  rw [digitsVal_pad, digitsVal_natChars]

theorem takeField_pad (sep : Char) (hsep : ¬sep.isDigit = true) (w n : Nat)
    (rest : List Char) : takeField sep (padNat w n ++ sep :: rest) = some (n, rest) := by
  unfold takeField
  rw [spanDigits_append _ _ _ (padNat_all_digits w n) hsep]
  simp [padNat_ne_nil w n, digitsVal_padNat]

theorem timeParse_timeFormat (t : Time) : timeParse (timeFormat t) = some t := by
  unfold timeParse timeFormat
  show (do
    let (y, r1) ← takeField '-' (padNat 4 t.year ++ '-' :: padNat 2 t.month
      ++ '-' :: padNat 2 t.day ++ 'T' :: padNat 2 t.hour ++ ':' :: padNat 2 t.minute
      ++ ':' :: padNat 2 t.second ++ ['Z'])
    let (mo, r2) ← takeField '-' r1
    let (d, r3) ← takeField 'T' r2
    let (h, r4) ← takeField ':' r3
    let (mi, r5) ← takeField ':' r4
    let (sec, r6) ← takeField 'Z' r5
    if r6 = [] then some ⟨y, mo, d, h, mi, sec⟩ else none) = some t
  simp only [List.cons_append, List.append_assoc]
  rw [takeField_pad '-' (by decide)]
  simp only [Option.bind_eq_bind, Option.some_bind]
  rw [takeField_pad '-' (by decide)]
  simp only [Option.some_bind]
  rw [takeField_pad 'T' (by decide)]
  simp only [Option.some_bind]
  rw [takeField_pad ':' (by decide)]
  simp only [Option.some_bind]
  rw [takeField_pad ':' (by decide)]
  simp only [Option.some_bind]
  rw [show (padNat 2 t.second ++ ['Z'] : List Char) = padNat 2 t.second ++ 'Z' :: [] from rfl,
    takeField_pad 'Z' (by decide)]
  simp only [Option.some_bind]
  rfl

theorem splitChar_ne_nil (sep : Char) (l : List Char) : splitChar sep l ≠ [] := by
  cases l with
  | nil => simp [splitChar]
  | cons c cs =>
    unfold splitChar
    by_cases hc : c = sep
    · simp [hc]
    · rw [if_neg hc]
      cases splitChar sep cs <;> simp

theorem splitChar_append (sep : Char) (l1 l2 : List Char) (h : sep ∉ l1) :
    splitChar sep (l1 ++ sep :: l2) = l1 :: splitChar sep l2 := by
  induction l1 with
  | nil => simp [splitChar]
  | cons c t ih =>
    have hc : ¬(c = sep) := fun hc => h (hc ▸ List.mem_cons_self _ _)
    have ht : sep ∉ t := fun hm => h (List.mem_cons_of_mem _ hm)
    simp only [List.cons_append, splitChar, if_neg hc, List.append_eq, ih ht]

theorem splitChar_no_sep (sep : Char) (l : List Char) (h : sep ∉ l) :
    splitChar sep l = [l] := by
  induction l with
  | nil => rfl
  | cons c t ih =>
    have hc : ¬(c = sep) := fun hc => h (hc ▸ List.mem_cons_self _ _)
    have ht : sep ∉ t := fun hm => h (List.mem_cons_of_mem _ hm)
    unfold splitChar
    rw [if_neg hc, ih ht]

/-! ## Small evaluation lemmas for the consumers -/

theorem verifyStartingTag_cons (tag : String) (attrs : List Attr) (rest : List XmlEvent) :
    verifyStartingTag tag (.startElement tag attrs :: rest) = .ok (attrs, rest) := by
  simp [verifyStartingTag]

theorem ok_bind {α β : Type} (a : α) (f : α → Except Err β) :
    (Except.ok a >>= f) = f a := rfl

theorem error_bind {α β : Type} (e : Err) (f : α → Except Err β) :
    ((Except.error e : Except Err α) >>= f) = .error e := rfl

theorem attrOr_some {attrs : List Attr} {n : String} {a : Attr} (p : String)
    (h : findAttr attrs n = some a) : attrOr attrs n p = .ok a := by
  unfold attrOr; rw [h]; rfl

theorem attrOr_none {attrs : List Attr} {n : String} (p : String)
    (h : findAttr attrs n = none) :
    attrOr attrs n p = .error (.invalidElementLacksAttribute n p) := by
  unfold attrOr; rw [h]; rfl

theorem floatOrMsg_some {a : Attr} {q : ℚ} (msg : String)
    (h : parseFloat a.value = some q) : floatOrMsg a msg = .ok q := by
  unfold floatOrMsg; rw [h]; rfl

theorem floatOrMsg_none {a : Attr} (msg : String)
    (h : parseFloat a.value = none) : floatOrMsg a msg = .error (.stringError msg) := by
  unfold floatOrMsg; rw [h]; rfl

theorem floatOrErr_some {a : Attr} {q : ℚ}
    (h : parseFloat a.value = some q) : floatOrErr a = .ok q := by
  unfold floatOrErr; rw [h]; rfl

theorem floatOrErr_none {a : Attr}
    (h : parseFloat a.value = none) : floatOrErr a = .error .parseFloatError := by
  unfold floatOrErr; rw [h]; rfl

/-! ## Claim C5 -/

/-- C5: parsing a gpx root whose `version` attribute is anything other
than `"1.0"` or `"1.1"` fails with the unknown-version error (no
forward-compatibility fallback), and writing a document whose version is
not 1.0/1.1 (i.e. `Unknown`) fails with the same unknown-version error
before emitting anything. -/
theorem claim_C5 :
    (∀ s : String, s ≠ "1.0" → s ≠ "1.1" →
      versionStringToVersion s = .error (.unknownVersionError .Unknown))
    ∧ (∀ (attrs : List Attr) (rest : List XmlEvent) (a : Attr),
        findAttr attrs "version" = some a → a.value ≠ "1.0" → a.value ≠ "1.1" →
        gpxConsume (.startElement "gpx" attrs :: rest)
          = .error (.unknownVersionError .Unknown))
    ∧ (∀ v : GpxVersion, v ≠ .Gpx10 → v ≠ .Gpx11 →
        versionToVersionString v = .error (.unknownVersionError v))
    ∧ (∀ g : Gpx, g.version = .Unknown →
        writeGpx g = .error (.unknownVersionError .Unknown)) := by
  refine ⟨?_, ?_, ?_, ?_⟩
  · intro s h1 h2
    unfold versionStringToVersion
    split <;> simp_all
  · intro attrs rest a hfind h1 h2
    unfold gpxConsume
    rw [verifyStartingTag_cons]
    have hv : versionStringToVersion a.value = .error (.unknownVersionError .Unknown) := by
      unfold versionStringToVersion
      split <;> simp_all
    simp only [ok_bind, attrOr_some "gpx" hfind, hv, error_bind]
  · intro v h1 h2
    cases v <;> simp_all [versionToVersionString]
  · intro g hg
    unfold writeGpx
    rw [hg]
    rfl

/-- Witness for C5 at concrete inputs: version string `"1.2"` at read
time, version `Unknown` at write time. -/
theorem claim_C5_witness :
    versionStringToVersion "1.2" = .error (.unknownVersionError .Unknown)
    ∧ gpxConsume [.startElement "gpx" [⟨"version", "1.2"⟩], .endElement "gpx"]
        = .error (.unknownVersionError .Unknown)
    ∧ versionToVersionString .Unknown = .error (.unknownVersionError .Unknown)
    ∧ writeGpx Gpx.default = .error (.unknownVersionError .Unknown) :=
  ⟨claim_C5.1 "1.2" (by decide) (by decide),
   claim_C5.2.1 [⟨"version", "1.2"⟩] [.endElement "gpx"] ⟨"version", "1.2"⟩
     (by decide) (by decide) (by decide),
   claim_C5.2.2.1 .Unknown (by decide) (by decide),
   claim_C5.2.2.2 Gpx.default (by decide)⟩

/-! ## Claim C6 -/

/-- C6: the fix consumer maps exactly the five lowercase tokens to the
five closed variants and wraps every other non-empty string `s` in
`Fix.Other s`; the writer renders each closed variant back to its
canonical token and renders `Fix.Other s` as the literal `s`, so every
parsed fix string re-serializes to the identical text. -/
theorem claim_C6 :
    (fixOfString "none" = .None ∧ fixOfString "2d" = .TwoDimensional
      ∧ fixOfString "3d" = .ThreeDimensional ∧ fixOfString "dgps" = .DGPS
      ∧ fixOfString "pps" = .PPS)
    ∧ (∀ s : String, s ≠ "none" → s ≠ "2d" → s ≠ "3d" → s ≠ "dgps" → s ≠ "pps" →
        fixOfString s = .Other s)
    ∧ (fixToString .None = "none" ∧ fixToString .TwoDimensional = "2d"
      ∧ fixToString .ThreeDimensional = "3d" ∧ fixToString .DGPS = "dgps"
      ∧ fixToString .PPS = "pps" ∧ ∀ s, fixToString (.Other s) = s)
    ∧ (∀ (attrs : List Attr) (s : String) (rest : List XmlEvent), s ≠ "" →
        fixConsume (.startElement "fix" attrs :: .characters s :: .endElement "fix" :: rest)
          = .ok (fixOfString s, rest))
    ∧ (∀ f : Fix, writeFixIfExists (some f)
        = [.startElement "fix" [], .characters (fixToString f), .endElement "fix"])
    ∧ (∀ s : String, fixToString (fixOfString s) = s) := by
  refine ⟨by refine ⟨rfl, rfl, rfl, rfl, rfl⟩, ?_, ⟨rfl, rfl, rfl, rfl, rfl, fun s => rfl⟩,
    ?_, fun f => rfl, ?_⟩
  · intro s h1 h2 h3 h4 h5
    unfold fixOfString
    split <;> simp_all
  · intro attrs s rest hs
    unfold fixConsume stringConsume
    rw [verifyStartingTag_cons]
    show Except.map _ (stringLoop "fix" false ""
      (.characters s :: .endElement "fix" :: rest)) = _
    unfold stringLoop
    simp only [stringLoop, if_pos rfl, Bool.false_eq_true, false_or, ne_eq, hs,
      not_false_eq_true, if_true]
    rfl
  · intro s
    unfold fixOfString
    split <;> simp_all [fixToString]

/-- Witness for C6 at the concrete unknown token `KF_4SV_OR_MORE` (and
the canonical token `dgps`). -/
theorem claim_C6_witness :
    fixOfString "KF_4SV_OR_MORE" = .Other "KF_4SV_OR_MORE"
    ∧ fixConsume [.startElement "fix" [], .characters "KF_4SV_OR_MORE", .endElement "fix"]
        = .ok (.Other "KF_4SV_OR_MORE", [])
    ∧ fixToString (fixOfString "KF_4SV_OR_MORE") = "KF_4SV_OR_MORE"
    ∧ fixConsume [.startElement "fix" [], .characters "dgps", .endElement "fix"]
        = .ok (.DGPS, []) := by
  refine ⟨claim_C6.2.1 "KF_4SV_OR_MORE" (by decide) (by decide) (by decide) (by decide)
      (by decide), ?_, claim_C6.2.2.2.2.2 "KF_4SV_OR_MORE", ?_⟩
  · have := claim_C6.2.2.2.1 [] "KF_4SV_OR_MORE" [] (by decide)
    simpa using this
  · have := claim_C6.2.2.2.1 [] "dgps" [] (by decide)
    simpa using this

/-! ## Claim C9 -/

theorem stringLoop_flat (tag : String) (allowEmpty : Bool) (acc : String)
    (pre : List XmlEvent) (hpre : FlatEvents pre) (suffix : List XmlEvent) :
    stringLoop tag allowEmpty acc (pre ++ suffix)
      = stringLoop tag allowEmpty (lastText acc pre) suffix := by
  induction pre generalizing acc with
  | nil => rfl
  | cons e t ih =>
    have ht : FlatEvents t := fun x hx => hpre x (List.mem_cons_of_mem _ hx)
    rcases hpre e (List.mem_cons_self _ _) with ⟨s, rfl⟩ | rfl
    · simp only [List.cons_append, stringLoop, lastText]
      exact ih s ht
    · simp only [List.cons_append, stringLoop, lastText]
      exact ih acc ht

/-- C9: for every tag name and `allow_empty` flag, the string consumer
(a) fails with an invalid-child-element error if an element opens inside
the string element (after any run of text events), (b) fails with an
invalid-closing-tag error when the closing tag name differs from the
expected tag, (c) returns the captured text (the last text event) on the
matching close, and (d) when `allow_empty` is false and no non-empty text
was captured, fails with the no-content error instead of returning the
empty string. -/
theorem claim_C9 :
    (∀ (tag : String) (ae : Bool) (attrs : List Attr) (pre : List XmlEvent)
        (n : String) (cattrs : List Attr) (rest : List XmlEvent), FlatEvents pre →
      stringConsume tag ae (.startElement tag attrs :: pre
          ++ .startElement n cattrs :: rest)
        = .error (.invalidChildElement n tag))
    ∧ (∀ (tag : String) (ae : Bool) (attrs : List Attr) (pre : List XmlEvent)
        (n : String) (rest : List XmlEvent), FlatEvents pre → n ≠ tag →
      stringConsume tag ae (.startElement tag attrs :: pre ++ .endElement n :: rest)
        = .error (.invalidClosingTag n tag))
    ∧ (∀ (tag : String) (ae : Bool) (attrs : List Attr) (pre : List XmlEvent)
        (rest : List XmlEvent), FlatEvents pre → (ae = true ∨ lastText "" pre ≠ "") →
      stringConsume tag ae (.startElement tag attrs :: pre ++ .endElement tag :: rest)
        = .ok (lastText "" pre, rest))
    ∧ (∀ (tag : String) (attrs : List Attr) (pre : List XmlEvent)
        (rest : List XmlEvent), FlatEvents pre → lastText "" pre = "" →
      stringConsume tag false (.startElement tag attrs :: pre ++ .endElement tag :: rest)
        = .error (.stringError "no content inside string")) := by
  refine ⟨?_, ?_, ?_, ?_⟩
  · intro tag ae attrs pre n cattrs rest hpre
    unfold stringConsume
    rw [show (XmlEvent.startElement tag attrs :: pre ++ XmlEvent.startElement n cattrs :: rest)
      = XmlEvent.startElement tag attrs :: (pre ++ XmlEvent.startElement n cattrs :: rest)
      from rfl, verifyStartingTag_cons]
    show stringLoop tag ae "" (pre ++ XmlEvent.startElement n cattrs :: rest) = _
    rw [stringLoop_flat tag ae "" pre hpre]
    rfl
  · intro tag ae attrs pre n rest hpre hn
    unfold stringConsume
    rw [show (XmlEvent.startElement tag attrs :: pre ++ XmlEvent.endElement n :: rest)
      = XmlEvent.startElement tag attrs :: (pre ++ XmlEvent.endElement n :: rest)
      from rfl, verifyStartingTag_cons]
    show stringLoop tag ae "" (pre ++ XmlEvent.endElement n :: rest) = _
    rw [stringLoop_flat tag ae "" pre hpre]
    simp [stringLoop, hn]
  · intro tag ae attrs pre rest hpre hne
    unfold stringConsume
    rw [show (XmlEvent.startElement tag attrs :: pre ++ XmlEvent.endElement tag :: rest)
      = XmlEvent.startElement tag attrs :: (pre ++ XmlEvent.endElement tag :: rest)
      from rfl, verifyStartingTag_cons]
    show stringLoop tag ae "" (pre ++ XmlEvent.endElement tag :: rest) = _
    rw [stringLoop_flat tag ae "" pre hpre]
    rcases hne with hae | hne
    · subst hae
      simp [stringLoop]
    · simp [stringLoop, hne]
  · intro tag attrs pre rest hpre hempty
    unfold stringConsume
    rw [show (XmlEvent.startElement tag attrs :: pre ++ XmlEvent.endElement tag :: rest)
      = XmlEvent.startElement tag attrs :: (pre ++ XmlEvent.endElement tag :: rest)
      from rfl, verifyStartingTag_cons]
    show stringLoop tag false "" (pre ++ XmlEvent.endElement tag :: rest) = _
    rw [stringLoop_flat tag false "" pre hpre]
    simp [stringLoop, hempty]

/-- Witness for C9 at concrete inputs. -/
theorem claim_C9_witness :
    stringConsume "foo" false
        [.startElement "foo" [], .characters "bar", .startElement "baz" [],
         .endElement "baz", .endElement "foo"]
      = .error (.invalidChildElement "baz" "foo")
    ∧ stringConsume "foo" false [.startElement "foo" [], .endElement "foobar"]
      = .error (.invalidClosingTag "foobar" "foo")
    ∧ stringConsume "string" false
        [.startElement "string" [], .characters "hello world", .endElement "string"]
      = .ok ("hello world", [])
    ∧ stringConsume "foo" false [.startElement "foo" [], .endElement "foo"]
      = .error (.stringError "no content inside string") := by
  refine ⟨?_, ?_, ?_, ?_⟩
  · have := claim_C9.1 "foo" false [] [.characters "bar"] "baz" []
      [.endElement "baz", .endElement "foo"] (by intro e he; simp at he; subst he; exact Or.inl ⟨_, rfl⟩)
    simpa using this
  · have := claim_C9.2.1 "foo" false [] [] "foobar" [] (by intro e he; simp at he) (by decide)
    simpa using this
  · have := claim_C9.2.2.1 "string" false [] [.characters "hello world"] []
      (by intro e he; simp at he; subst he; exact Or.inl ⟨_, rfl⟩) (by right; decide)
    simpa using this
  · have := claim_C9.2.2.2 "foo" [] [] [] (by intro e he; simp at he) (by decide)
    simpa using this

/-- Evaluation of the string consumer on a literal element with one text
event. -/
theorem stringConsume_chunk (tag : String) (ae : Bool) (attrs : List Attr) (s : String)
    (rest : List XmlEvent) (h : ae = true ∨ s ≠ "") :
    stringConsume tag ae (.startElement tag attrs :: .characters s :: .endElement tag :: rest)
      = .ok (s, rest) := by
  unfold stringConsume
  rw [verifyStartingTag_cons]
  show stringLoop tag ae "" (XmlEvent.characters s :: XmlEvent.endElement tag :: rest) = _
  rcases h with rfl | hs
  · simp [stringLoop]
  · simp [stringLoop, hs]

/-! ## Claim C10 -/

/-- C10: a copyright element whose `year` child text does not parse as an
integer still parses successfully, with `year = none` — the integer parse
failure is silently discarded (`parse().ok()`), exactly as when the
`year` child is absent entirely, so the two inputs are indistinguishable
in the result; a parsable year is kept as `some`. -/
theorem claim_C10 :
    (∀ (attrs yattrs : List Attr) (s : String) (rest : List XmlEvent),
      s ≠ "" → parseI32 s = none →
      copyrightConsume (.startElement "copyright" attrs :: .startElement "year" yattrs
          :: .characters s :: .endElement "year" :: .endElement "copyright" :: rest)
        = .ok (⟨(findAttr attrs "author").map (fun a => a.value), none, none⟩, rest))
    ∧ (∀ (attrs : List Attr) (rest : List XmlEvent),
      copyrightConsume (.startElement "copyright" attrs :: .endElement "copyright" :: rest)
        = .ok (⟨(findAttr attrs "author").map (fun a => a.value), none, none⟩, rest))
    ∧ (∀ (attrs yattrs : List Attr) (s : String) (v : Int) (rest : List XmlEvent),
      s ≠ "" → parseI32 s = some v →
      copyrightConsume (.startElement "copyright" attrs :: .startElement "year" yattrs
          :: .characters s :: .endElement "year" :: .endElement "copyright" :: rest)
        = .ok (⟨(findAttr attrs "author").map (fun a => a.value), some v, none⟩, rest)) := by
  refine ⟨?_, ?_, ?_⟩
  · intro attrs yattrs s rest hs hpi
    have h0 : copyrightConsume (.startElement "copyright" attrs :: .startElement "year" yattrs
        :: .characters s :: .endElement "year" :: .endElement "copyright" :: rest)
        = copyrightLoop (rest.length + 4 + 1)
          ⟨(findAttr attrs "author").map (fun a => a.value), none, none⟩
          (.startElement "year" yattrs :: .characters s :: .endElement "year"
            :: .endElement "copyright" :: rest) := rfl
    rw [h0]
    rw [copyrightLoop]
    simp only [reduceCtorEq, reduceIte, String.reduceEq,
      stringConsume_chunk "year" false yattrs s _ (Or.inr hs)]
    rw [copyrightLoop]
    simp [hpi]
  · intro attrs rest
    have h0 : copyrightConsume (.startElement "copyright" attrs :: .endElement "copyright" :: rest)
        = copyrightLoop (rest.length + 1 + 1)
          ⟨(findAttr attrs "author").map (fun a => a.value), none, none⟩
          (.endElement "copyright" :: rest) := rfl
    rw [h0]
    rw [copyrightLoop]
    simp
  · intro attrs yattrs s v rest hs hpi
    have h0 : copyrightConsume (.startElement "copyright" attrs :: .startElement "year" yattrs
        :: .characters s :: .endElement "year" :: .endElement "copyright" :: rest)
        = copyrightLoop (rest.length + 4 + 1)
          ⟨(findAttr attrs "author").map (fun a => a.value), none, none⟩
          (.startElement "year" yattrs :: .characters s :: .endElement "year"
            :: .endElement "copyright" :: rest) := rfl
    rw [h0]
    rw [copyrightLoop]
    simp only [reduceCtorEq, reduceIte, String.reduceEq,
      stringConsume_chunk "year" false yattrs s _ (Or.inr hs)]
    rw [copyrightLoop]
    simp [hpi]

/-- Witness for C10: `<copyright author="me"><year>20x20</year></copyright>`
yields `year = none`, indistinguishable from omitting `<year>`. -/
theorem claim_C10_witness :
    copyrightConsume [.startElement "copyright" [⟨"author", "me"⟩],
        .startElement "year" [], .characters "20x20", .endElement "year",
        .endElement "copyright"]
      = .ok (⟨some "me", none, none⟩, [])
    ∧ copyrightConsume [.startElement "copyright" [⟨"author", "me"⟩],
        .endElement "copyright"]
      = .ok (⟨some "me", none, none⟩, [])
    ∧ copyrightConsume [.startElement "copyright" [⟨"author", "me"⟩],
        .startElement "year" [], .characters "2020", .endElement "year",
        .endElement "copyright"]
      = .ok (⟨some "me", some 2020, none⟩, []) := by
  refine ⟨?_, ?_, ?_⟩
  · have := claim_C10.1 [⟨"author", "me"⟩] [] "20x20" [] (by decide) (by decide)
    simpa [findAttr] using this
  · have := claim_C10.2.1 [⟨"author", "me"⟩] []
    simpa [findAttr] using this
  · have := claim_C10.2.2 [⟨"author", "me"⟩] [] "2020" 2020 [] (by decide) (by decide)
    simpa [findAttr] using this

/-! ## Claim C7 -/

/-- C7: the email consumer assembles `id@domain` from the two required
attributes and fails with an attribute-lacking error when either is
missing; the email writer splits the address on `'@'` and re-emits `id`
and `domain` attributes, failing when there is no `'@'` (missing domain
part) and when there is more than one `'@'`. -/
theorem claim_C7 :
    (∀ (attrs : List Attr) (idA domA : Attr) (rest : List XmlEvent),
      findAttr attrs "id" = some idA → findAttr attrs "domain" = some domA →
      emailConsume (.startElement "email" attrs :: .endElement "email" :: rest)
        = .ok (idA.value ++ "@" ++ domA.value, rest))
    ∧ (∀ (attrs : List Attr) (rest : List XmlEvent),
      findAttr attrs "id" = none →
      emailConsume (.startElement "email" attrs :: rest)
        = .error (.invalidElementLacksAttribute "id" "email"))
    ∧ (∀ (attrs : List Attr) (idA : Attr) (rest : List XmlEvent),
      findAttr attrs "id" = some idA → findAttr attrs "domain" = none →
      emailConsume (.startElement "email" attrs :: rest)
        = .error (.invalidElementLacksAttribute "domain" "email"))
    ∧ (∀ (e : String) (i d : List Char),
      e.data = i ++ '@' :: d → '@' ∉ i → '@' ∉ d →
      writeEmailIfExists (some e)
        = .ok [.startElement "email" [⟨"id", String.mk i⟩, ⟨"domain", String.mk d⟩],
            .endElement "email"])
    ∧ (∀ e : String, '@' ∉ e.data →
      writeEmailIfExists (some e) = .error (.missingEmailPartError "domain"))
    ∧ (∀ (e : String) (i m d : List Char),
      e.data = i ++ '@' :: (m ++ '@' :: d) → '@' ∉ i → '@' ∉ m →
      writeEmailIfExists (some e) = .error .tooManyAtsError) := by
  refine ⟨?_, ?_, ?_, ?_, ?_, ?_⟩
  · intro attrs idA domA rest hid hdom
    unfold emailConsume
    rw [emailLoop]
    simp only [if_pos rfl, hid, hdom]
    rw [emailLoop]
    simp
  · intro attrs rest hid
    unfold emailConsume
    rw [emailLoop]
    simp [hid]
  · intro attrs idA rest hid hdom
    unfold emailConsume
    rw [emailLoop]
    simp [hid, hdom]
  · intro e i d he hi hd
    show emailEvents e = _
    unfold emailEvents
    rw [he, splitChar_append '@' i d hi, splitChar_no_sep '@' d hd]
  · intro e h
    show emailEvents e = _
    unfold emailEvents
    rw [splitChar_no_sep '@' e.data h]
  · intro e i m d he hi hm
    show emailEvents e = _
    unfold emailEvents
    rw [he, splitChar_append '@' i _ hi, splitChar_append '@' m d hm]
    obtain ⟨p, ps, hps⟩ := List.exists_cons_of_ne_nil (splitChar_ne_nil '@' d)
    rw [hps]

/-- Witness for C7: `<email id="me" domain="example.com"/>` parses to
`me@example.com`; the writer re-emits the two attributes; `a@b@c` fails
to write, as does an address without `@`; a missing attribute fails to
parse. -/
theorem claim_C7_witness :
    emailConsume [.startElement "email" [⟨"id", "me"⟩, ⟨"domain", "example.com"⟩],
        .endElement "email"]
      = .ok ("me@example.com", [])
    ∧ emailConsume [.startElement "email" [⟨"domain", "example.com"⟩],
        .endElement "email"]
      = .error (.invalidElementLacksAttribute "id" "email")
    ∧ emailConsume [.startElement "email" [⟨"id", "gpx"⟩], .endElement "email"]
      = .error (.invalidElementLacksAttribute "domain" "email")
    ∧ writeEmailIfExists (some "me@example.com")
      = .ok [.startElement "email" [⟨"id", "me"⟩, ⟨"domain", "example.com"⟩],
          .endElement "email"]
    ∧ writeEmailIfExists (some "nodomain") = .error (.missingEmailPartError "domain")
    ∧ writeEmailIfExists (some "a@b@c") = .error .tooManyAtsError := by
  refine ⟨?_, ?_, ?_, ?_, ?_, ?_⟩
  · have := claim_C7.1 [⟨"id", "me"⟩, ⟨"domain", "example.com"⟩]
      ⟨"id", "me"⟩ ⟨"domain", "example.com"⟩ [] (by decide) (by decide)
    simpa using this
  · exact claim_C7.2.1 [⟨"domain", "example.com"⟩] [.endElement "email"] (by decide)
  · exact claim_C7.2.2.1 [⟨"id", "gpx"⟩] ⟨"id", "gpx"⟩ [.endElement "email"]
      (by decide) (by decide)
  · have := claim_C7.2.2.2.1 "me@example.com" ['m', 'e']
      ['e', 'x', 'a', 'm', 'p', 'l', 'e', '.', 'c', 'o', 'm'] (by decide) (by decide) (by decide)
    simpa using this
  · exact claim_C7.2.2.2.2.1 "nodomain" (by decide)
  · exact claim_C7.2.2.2.2.2 "a@b@c" ['a'] ['b'] ['c'] (by decide) (by decide) (by decide)

/-! ## Claim C8 -/

theorem extensionsLoop_balanced (bal : List XmlEvent) (h : Balanced bal) :
    ∀ (stack : List String) (rest : List XmlEvent),
      extensionsLoop stack (bal ++ rest) = extensionsLoop stack rest := by
  induction h with
  | nil => intro stack rest; rfl
  | text s r _ ih =>
    intro stack rest
    show extensionsLoop stack (.characters s :: (r ++ rest)) = _
    rw [show extensionsLoop stack (.characters s :: (r ++ rest))
      = extensionsLoop stack (r ++ rest) from rfl]
    exact ih stack rest
  | misc r _ ih =>
    intro stack rest
    show extensionsLoop stack (.misc :: (r ++ rest)) = _
    rw [show extensionsLoop stack (.misc :: (r ++ rest))
      = extensionsLoop stack (r ++ rest) from rfl]
    exact ih stack rest
  | elem n attrs inner r _ _ ihInner ihRest =>
    intro stack rest
    show extensionsLoop stack (.startElement n attrs
      :: ((inner ++ .endElement n :: r) ++ rest)) = _
    rw [show extensionsLoop stack (.startElement n attrs
        :: ((inner ++ .endElement n :: r) ++ rest))
      = extensionsLoop (n :: stack) ((inner ++ .endElement n :: r) ++ rest) from rfl]
    rw [List.append_assoc, List.cons_append, ihInner]
    rw [show extensionsLoop (n :: stack) (.endElement n :: (r ++ rest))
      = (if n = n then extensionsLoop stack (r ++ rest)
        else .error (.invalidClosingTag n "inner-extensions-tag")) from rfl]
    simp only [if_pos rfl]
    exact ihRest stack rest

/-- C8: the extensions consumer accepts any well-nested interior content
(including nested `extensions` elements) and succeeds exactly at the
outermost `extensions` closing tag; a closing tag that does not match the
most recently opened inner tag is an invalid-closing-tag error, a closing
tag other than `extensions` with no inner tag open likewise, and reaching
end of stream first is a missing-closing-tag error. -/
theorem claim_C8 :
    (∀ (attrs : List Attr) (inner rest : List XmlEvent), Balanced inner →
      extensionsConsume (.startElement "extensions" attrs
          :: inner ++ .endElement "extensions" :: rest)
        = .ok ((), rest))
    ∧ (∀ (attrs : List Attr) (bal : List XmlEvent) (t : String) (attrs2 : List Attr)
        (u : String) (rest : List XmlEvent), Balanced bal → u ≠ t →
      extensionsConsume (.startElement "extensions" attrs
          :: bal ++ .startElement t attrs2 :: .endElement u :: rest)
        = .error (.invalidClosingTag u "inner-extensions-tag"))
    ∧ (∀ (attrs : List Attr) (bal : List XmlEvent) (u : String) (rest : List XmlEvent),
        Balanced bal → u ≠ "extensions" →
      extensionsConsume (.startElement "extensions" attrs
          :: bal ++ .endElement u :: rest)
        = .error (.invalidClosingTag u "extensions"))
    ∧ (∀ (attrs : List Attr) (bal : List XmlEvent), Balanced bal →
      extensionsConsume (.startElement "extensions" attrs :: bal)
        = .error (.missingClosingTag "extensions")) := by
  refine ⟨?_, ?_, ?_, ?_⟩
  · intro attrs inner rest hb
    unfold extensionsConsume
    simp only [List.cons_append]
    rw [verifyStartingTag_cons]
    show extensionsLoop [] (inner ++ XmlEvent.endElement "extensions" :: rest) = _
    rw [extensionsLoop_balanced inner hb]
    rw [extensionsLoop]
    simp
  · intro attrs bal t attrs2 u rest hb hu
    unfold extensionsConsume
    simp only [List.cons_append]
    rw [verifyStartingTag_cons]
    show extensionsLoop [] (bal ++ XmlEvent.startElement t attrs2
      :: XmlEvent.endElement u :: rest) = _
    rw [extensionsLoop_balanced bal hb]
    rw [extensionsLoop]
    rw [extensionsLoop]
    simp [hu]
  · intro attrs bal u rest hb hu
    unfold extensionsConsume
    simp only [List.cons_append]
    rw [verifyStartingTag_cons]
    show extensionsLoop [] (bal ++ XmlEvent.endElement u :: rest) = _
    rw [extensionsLoop_balanced bal hb]
    rw [extensionsLoop]
    simp [hu]
  · intro attrs bal hb
    unfold extensionsConsume
    rw [verifyStartingTag_cons]
    show extensionsLoop [] bal = _
    rw [show bal = bal ++ ([] : List XmlEvent) from (List.append_nil bal).symm,
      extensionsLoop_balanced bal hb]
    rfl

/-- Witness for C8: a nested `extensions` block parses; a mismatched
inner closing tag fails; a truncated stream fails. -/
theorem claim_C8_witness :
    extensionsConsume [.startElement "extensions" [], .characters "hello",
        .startElement "extensions" [], .startElement "a" [], .endElement "a",
        .endElement "extensions", .endElement "extensions", .misc]
      = .ok ((), [.misc])
    ∧ extensionsConsume [.startElement "extensions" [], .startElement "a" [],
        .endElement "extensions", .endElement "extensions"]
      = .error (.invalidClosingTag "extensions" "inner-extensions-tag")
    ∧ extensionsConsume [.startElement "extensions" [], .startElement "a" [],
        .endElement "a"]
      = .error (.missingClosingTag "extensions") := by
  refine ⟨?_, ?_, ?_⟩
  · have hb : Balanced [XmlEvent.characters "hello", .startElement "extensions" [],
        .startElement "a" [], .endElement "a", .endElement "extensions"] := by
      apply Balanced.text
      exact Balanced.elem "extensions" []
        [XmlEvent.startElement "a" [], .endElement "a"] []
        (Balanced.elem "a" [] [] [] Balanced.nil Balanced.nil) Balanced.nil
    have := claim_C8.1 [] [XmlEvent.characters "hello", .startElement "extensions" [],
        .startElement "a" [], .endElement "a", .endElement "extensions"] [.misc] hb
    simpa using this
  · have := claim_C8.2.1 [] [] "a" [] "extensions" [.endElement "extensions"]
      Balanced.nil (by decide)
    simpa using this
  · have hb : Balanced [XmlEvent.startElement "a" [], .endElement "a"] :=
      Balanced.elem "a" [] [] [] Balanced.nil Balanced.nil
    have := claim_C8.2.2.2 [] [XmlEvent.startElement "a" [], .endElement "a"] hb
    simpa using this

/-! ## Claim C4 -/

theorem boundsConsume_cons (attrs : List Attr) (rest : List XmlEvent) :
    boundsConsume (.startElement "bounds" attrs :: rest) = boundsBody attrs rest := rfl

/-- Successful evaluation of the bounds consumer on an immediately closed
element with four parsable, well-ordered attributes. -/
theorem boundsConsume_ok (attrs : List Attr) (rest : List XmlEvent) (a b c d : Attr)
    (qa qb qc qd : ℚ)
    (h1 : findAttr attrs "minlat" = some a) (h2 : findAttr attrs "maxlat" = some b)
    (h3 : parseFloat a.value = some qa) (h4 : parseFloat b.value = some qb)
    (h5 : findAttr attrs "minlon" = some c) (h6 : findAttr attrs "maxlon" = some d)
    (h7 : parseFloat c.value = some qc) (h8 : parseFloat d.value = some qd)
    (h9 : ¬(qc > qd)) (h10 : ¬(qa > qb)) :
    boundsConsume (.startElement "bounds" attrs :: .endElement "bounds" :: rest)
      = .ok (⟨⟨qc, qa⟩, ⟨qd, qb⟩⟩, rest) := by
  simp only [boundsConsume_cons, boundsBody, attrOr_some "bounds" h1,
    attrOr_some "bounds" h2, ok_bind,
    floatOrMsg_some "error while casting min latitude to f64" h3,
    floatOrMsg_some "error while casting max latitude to f64" h4,
    attrOr_some "bounds" h5, attrOr_some "bounds" h6,
    floatOrMsg_some "error while casting min longitude to f64" h7,
    floatOrMsg_some "error while casting max longitude to f64" h8]
  rw [if_neg h9, if_neg h10, boundsLoop]
  simp

/-- C4: each of the four bounds attributes is required and must parse as a
float — a missing one is an attribute-lacking error naming it and an
unparsable one a casting error naming it; `minlon > maxlon` and
`minlat > maxlat` are rejected before the rect is constructed and the
coordinates are never swapped (a successful parse returns exactly the
given coordinates); every successfully parsed rect satisfies
`min.x ≤ max.x` and `min.y ≤ max.y`. -/
theorem claim_C4 :
    (∀ (attrs : List Attr) (rest : List XmlEvent),
      findAttr attrs "minlat" = none →
      boundsConsume (.startElement "bounds" attrs :: rest)
        = .error (.invalidElementLacksAttribute "minlat" "bounds"))
    ∧ (∀ (attrs : List Attr) (rest : List XmlEvent) (a : Attr),
      findAttr attrs "minlat" = some a → findAttr attrs "maxlat" = none →
      boundsConsume (.startElement "bounds" attrs :: rest)
        = .error (.invalidElementLacksAttribute "maxlat" "bounds"))
    ∧ (∀ (attrs : List Attr) (rest : List XmlEvent) (a b : Attr),
      findAttr attrs "minlat" = some a → findAttr attrs "maxlat" = some b →
      parseFloat a.value = none →
      boundsConsume (.startElement "bounds" attrs :: rest)
        = .error (.stringError "error while casting min latitude to f64"))
    ∧ (∀ (attrs : List Attr) (rest : List XmlEvent) (a b : Attr) (qa : ℚ),
      findAttr attrs "minlat" = some a → findAttr attrs "maxlat" = some b →
      parseFloat a.value = some qa → parseFloat b.value = none →
      boundsConsume (.startElement "bounds" attrs :: rest)
        = .error (.stringError "error while casting max latitude to f64"))
    ∧ (∀ (attrs : List Attr) (rest : List XmlEvent) (a b : Attr) (qa qb : ℚ),
      findAttr attrs "minlat" = some a → findAttr attrs "maxlat" = some b →
      parseFloat a.value = some qa → parseFloat b.value = some qb →
      findAttr attrs "minlon" = none →
      boundsConsume (.startElement "bounds" attrs :: rest)
        = .error (.invalidElementLacksAttribute "minlon" "bounds"))
    ∧ (∀ (attrs : List Attr) (rest : List XmlEvent) (a b c : Attr) (qa qb : ℚ),
      findAttr attrs "minlat" = some a → findAttr attrs "maxlat" = some b →
      parseFloat a.value = some qa → parseFloat b.value = some qb →
      findAttr attrs "minlon" = some c → findAttr attrs "maxlon" = none →
      boundsConsume (.startElement "bounds" attrs :: rest)
        = .error (.invalidElementLacksAttribute "maxlon" "bounds"))
    ∧ (∀ (attrs : List Attr) (rest : List XmlEvent) (a b c d : Attr) (qa qb qc qd : ℚ),
      findAttr attrs "minlat" = some a → findAttr attrs "maxlat" = some b →
      parseFloat a.value = some qa → parseFloat b.value = some qb →
      findAttr attrs "minlon" = some c → findAttr attrs "maxlon" = some d →
      parseFloat c.value = some qc → parseFloat d.value = some qd →
      qc > qd →
      boundsConsume (.startElement "bounds" attrs :: rest)
        = .error (.stringError "Minimum longitude larger than maximum longitude"))
    ∧ (∀ (attrs : List Attr) (rest : List XmlEvent) (a b c d : Attr) (qa qb qc qd : ℚ),
      findAttr attrs "minlat" = some a → findAttr attrs "maxlat" = some b →
      parseFloat a.value = some qa → parseFloat b.value = some qb →
      findAttr attrs "minlon" = some c → findAttr attrs "maxlon" = some d →
      parseFloat c.value = some qc → parseFloat d.value = some qd →
      ¬(qc > qd) → qa > qb →
      boundsConsume (.startElement "bounds" attrs :: rest)
        = .error (.stringError "Minimum latitude larger than maximum latitude"))
    ∧ (∀ (attrs : List Attr) (rest : List XmlEvent) (a b c d : Attr) (qa qb qc qd : ℚ),
      findAttr attrs "minlat" = some a → findAttr attrs "maxlat" = some b →
      parseFloat a.value = some qa → parseFloat b.value = some qb →
      findAttr attrs "minlon" = some c → findAttr attrs "maxlon" = some d →
      parseFloat c.value = some qc → parseFloat d.value = some qd →
      ¬(qc > qd) → ¬(qa > qb) →
      boundsConsume (.startElement "bounds" attrs :: .endElement "bounds" :: rest)
        = .ok (⟨⟨qc, qa⟩, ⟨qd, qb⟩⟩, rest))
    ∧ (∀ (events : List XmlEvent) (r : Rect) (rest : List XmlEvent),
      boundsConsume events = .ok (r, rest) → r.min.x ≤ r.max.x ∧ r.min.y ≤ r.max.y) := by
  refine ⟨?_, ?_, ?_, ?_, ?_, ?_, ?_, ?_, ?_, ?_⟩
  · intro attrs rest h1
    simp only [boundsConsume_cons, boundsBody, attrOr_none "bounds" h1, error_bind]
  · intro attrs rest a h1 h2
    simp only [boundsConsume_cons, boundsBody, attrOr_some "bounds" h1, ok_bind,
      attrOr_none "bounds" h2, error_bind]
  · intro attrs rest a b h1 h2 h3
    simp only [boundsConsume_cons, boundsBody, attrOr_some "bounds" h1,
      attrOr_some "bounds" h2, ok_bind,
      floatOrMsg_none "error while casting min latitude to f64" h3, error_bind]
  · intro attrs rest a b qa h1 h2 h3 h4
    simp only [boundsConsume_cons, boundsBody, attrOr_some "bounds" h1,
      attrOr_some "bounds" h2, ok_bind,
      floatOrMsg_some "error while casting min latitude to f64" h3,
      floatOrMsg_none "error while casting max latitude to f64" h4, error_bind]
  · intro attrs rest a b qa qb h1 h2 h3 h4 h5
    simp only [boundsConsume_cons, boundsBody, attrOr_some "bounds" h1,
      attrOr_some "bounds" h2, ok_bind,
      floatOrMsg_some "error while casting min latitude to f64" h3,
      floatOrMsg_some "error while casting max latitude to f64" h4,
      attrOr_none "bounds" h5, error_bind]
  · intro attrs rest a b c qa qb h1 h2 h3 h4 h5 h6
    simp only [boundsConsume_cons, boundsBody, attrOr_some "bounds" h1,
      attrOr_some "bounds" h2, ok_bind,
      floatOrMsg_some "error while casting min latitude to f64" h3,
      floatOrMsg_some "error while casting max latitude to f64" h4,
      attrOr_some "bounds" h5, attrOr_none "bounds" h6, error_bind]
  · intro attrs rest a b c d qa qb qc qd h1 h2 h3 h4 h5 h6 h7 h8 h9
    simp only [boundsConsume_cons, boundsBody, attrOr_some "bounds" h1,
      attrOr_some "bounds" h2, ok_bind,
      floatOrMsg_some "error while casting min latitude to f64" h3,
      floatOrMsg_some "error while casting max latitude to f64" h4,
      attrOr_some "bounds" h5, attrOr_some "bounds" h6,
      floatOrMsg_some "error while casting min longitude to f64" h7,
      floatOrMsg_some "error while casting max longitude to f64" h8]
    rw [if_pos h9]
  · intro attrs rest a b c d qa qb qc qd h1 h2 h3 h4 h5 h6 h7 h8 h9 h10
    simp only [boundsConsume_cons, boundsBody, attrOr_some "bounds" h1,
      attrOr_some "bounds" h2, ok_bind,
      floatOrMsg_some "error while casting min latitude to f64" h3,
      floatOrMsg_some "error while casting max latitude to f64" h4,
      attrOr_some "bounds" h5, attrOr_some "bounds" h6,
      floatOrMsg_some "error while casting min longitude to f64" h7,
      floatOrMsg_some "error while casting max longitude to f64" h8]
    rw [if_neg h9, if_pos h10]
  · intro attrs rest a b c d qa qb qc qd h1 h2 h3 h4 h5 h6 h7 h8 h9 h10
    exact boundsConsume_ok attrs rest a b c d qa qb qc qd h1 h2 h3 h4 h5 h6 h7 h8 h9 h10
  · intro events r rest h
    unfold boundsConsume at h
    rcases hv : verifyStartingTag "bounds" events with e | ⟨attrs, rest2⟩
    · rw [hv, error_bind] at h
      simp at h
    rw [hv] at h
    simp only [ok_bind] at h
    replace h : boundsBody attrs rest2 = .ok (r, rest) := h
    unfold boundsBody at h
    rcases h1 : findAttr attrs "minlat" with - | a
    · simp only [attrOr_none "bounds" h1, error_bind, reduceCtorEq] at h
    simp only [attrOr_some "bounds" h1, ok_bind] at h
    rcases h2 : findAttr attrs "maxlat" with - | b
    · simp only [attrOr_none "bounds" h2, error_bind, reduceCtorEq] at h
    simp only [attrOr_some "bounds" h2, ok_bind] at h
    rcases h3 : parseFloat a.value with - | qa
    · simp only [floatOrMsg_none "error while casting min latitude to f64" h3,
        error_bind, reduceCtorEq] at h
    simp only [floatOrMsg_some "error while casting min latitude to f64" h3, ok_bind] at h
    rcases h4 : parseFloat b.value with - | qb
    · simp only [floatOrMsg_none "error while casting max latitude to f64" h4,
        error_bind, reduceCtorEq] at h
    simp only [floatOrMsg_some "error while casting max latitude to f64" h4, ok_bind] at h
    rcases h5 : findAttr attrs "minlon" with - | c
    · simp only [attrOr_none "bounds" h5, error_bind, reduceCtorEq] at h
    simp only [attrOr_some "bounds" h5, ok_bind] at h
    rcases h6 : findAttr attrs "maxlon" with - | d
    · simp only [attrOr_none "bounds" h6, error_bind, reduceCtorEq] at h
    simp only [attrOr_some "bounds" h6, ok_bind] at h
    rcases h7 : parseFloat c.value with - | qc
    · simp only [floatOrMsg_none "error while casting min longitude to f64" h7,
        error_bind, reduceCtorEq] at h
    simp only [floatOrMsg_some "error while casting min longitude to f64" h7, ok_bind] at h
    rcases h8 : parseFloat d.value with - | qd
    · simp only [floatOrMsg_none "error while casting max longitude to f64" h8,
        error_bind, reduceCtorEq] at h
    simp only [floatOrMsg_some "error while casting max longitude to f64" h8, ok_bind] at h
    by_cases h9 : qc > qd
    · rw [if_pos h9] at h
      simp at h
    rw [if_neg h9] at h
    by_cases h10 : qa > qb
    · rw [if_pos h10] at h
      simp at h
    rw [if_neg h10] at h
    have hrect : r = ⟨⟨qc, qa⟩, ⟨qd, qb⟩⟩ := by
      clear hv h1 h2 h3 h4 h5 h6 h7 h8
      induction rest2 generalizing r rest with
      | nil => rw [boundsLoop] at h; simp at h
      | cons e t ih =>
        cases e with
        | startElement n at2 => rw [boundsLoop] at h; simp at h
        | endElement n =>
          rw [boundsLoop] at h
          by_cases hn : n = "bounds"
          · rw [if_pos hn] at h
            injection h with h2
            exact (congrArg Prod.fst h2).symm
          · rw [if_neg hn] at h
            simp at h
        | characters s2 =>
          rw [show boundsLoop ⟨⟨qc, qa⟩, ⟨qd, qb⟩⟩ (XmlEvent.characters s2 :: t)
            = boundsLoop ⟨⟨qc, qa⟩, ⟨qd, qb⟩⟩ t from rfl] at h
          exact ih r rest h
        | misc =>
          rw [show boundsLoop ⟨⟨qc, qa⟩, ⟨qd, qb⟩⟩ (XmlEvent.misc :: t)
            = boundsLoop ⟨⟨qc, qa⟩, ⟨qd, qb⟩⟩ t from rfl] at h
          exact ih r rest h
    rw [hrect]
    exact ⟨not_lt.mp h9, not_lt.mp h10⟩

/-- Evaluates `parseFloat` at a literal via its definitional decimal
form. -/
theorem parseFloat_eval (s : String) (ip fp : List Char) (a b : Nat) (q : ℚ)
    (h1 : parseFloat s = some (decimalVal ip fp)) (h2 : digitsVal ip = a)
    (h3 : digitsVal fp = b) (h4 : ((a : ℚ) + (b : ℚ) / 10 ^ fp.length) = q) :
    parseFloat s = some q := by
  rw [h1]
  unfold decimalVal
  rw [h2, h3, h4]

/-- Witness for C4: `<bounds minlat="45.70" maxlat="45.48" minlon="1.0"
maxlon="2.0">` fails with the min-greater-than-max latitude error, a
well-ordered bounds succeeds with exactly the given corners, and a bounds
lacking `maxlon` fails naming it. -/
theorem claim_C4_witness :
    boundsConsume [.startElement "bounds" [⟨"minlat", "45.70"⟩, ⟨"maxlat", "45.48"⟩,
        ⟨"minlon", "1.0"⟩, ⟨"maxlon", "2.0"⟩], .endElement "bounds"]
      = .error (.stringError "Minimum latitude larger than maximum latitude")
    ∧ boundsConsume [.startElement "bounds" [⟨"minlat", "45.48"⟩, ⟨"maxlat", "45.70"⟩,
        ⟨"minlon", "1.0"⟩, ⟨"maxlon", "2.0"⟩], .endElement "bounds"]
      = .ok (⟨⟨1, 4548 / 100⟩, ⟨2, 4570 / 100⟩⟩, [])
    ∧ boundsConsume [.startElement "bounds" [⟨"minlat", "45.48"⟩, ⟨"maxlat", "45.70"⟩,
        ⟨"minlon", "1.0"⟩], .endElement "bounds"]
      = .error (.invalidElementLacksAttribute "maxlon" "bounds")
    ∧ ((45.48 : ℚ) ≤ 45.70 ∧ (1 : ℚ) ≤ 2) := by
  have p4570 : parseFloat "45.70" = some (4570 / 100) :=
    parseFloat_eval "45.70" ['4', '5'] ['7', '0'] 45 70 (4570 / 100) rfl rfl rfl (by norm_num)
  have p4548 : parseFloat "45.48" = some (4548 / 100) :=
    parseFloat_eval "45.48" ['4', '5'] ['4', '8'] 45 48 (4548 / 100) rfl rfl rfl (by norm_num)
  have p1 : parseFloat "1.0" = some 1 :=
    parseFloat_eval "1.0" ['1'] ['0'] 1 0 1 rfl rfl rfl (by norm_num)
  have p2 : parseFloat "2.0" = some 2 :=
    parseFloat_eval "2.0" ['2'] ['0'] 2 0 2 rfl rfl rfl (by norm_num)
  refine ⟨?_, ?_, ?_, by norm_num⟩
  · exact claim_C4.2.2.2.2.2.2.2.1 [⟨"minlat", "45.70"⟩, ⟨"maxlat", "45.48"⟩,
      ⟨"minlon", "1.0"⟩, ⟨"maxlon", "2.0"⟩] [.endElement "bounds"]
      ⟨"minlat", "45.70"⟩ ⟨"maxlat", "45.48"⟩
      ⟨"minlon", "1.0"⟩ ⟨"maxlon", "2.0"⟩ (4570 / 100) (4548 / 100) 1 2
      (by decide) (by decide) p4570 p4548 (by decide) (by decide) p1 p2
      (by norm_num) (by norm_num)
  · exact claim_C4.2.2.2.2.2.2.2.2.1 [⟨"minlat", "45.48"⟩, ⟨"maxlat", "45.70"⟩,
      ⟨"minlon", "1.0"⟩, ⟨"maxlon", "2.0"⟩] [] ⟨"minlat", "45.48"⟩ ⟨"maxlat", "45.70"⟩
      ⟨"minlon", "1.0"⟩ ⟨"maxlon", "2.0"⟩ (4548 / 100) (4570 / 100) 1 2
      (by decide) (by decide) p4548 p4570 (by decide) (by decide) p1 p2
      (by norm_num) (by norm_num)
  · exact claim_C4.2.2.2.2.2.1 [⟨"minlat", "45.48"⟩, ⟨"maxlat", "45.70"⟩,
      ⟨"minlon", "1.0"⟩] [.endElement "bounds"] ⟨"minlat", "45.48"⟩ ⟨"maxlat", "45.70"⟩
      ⟨"minlon", "1.0"⟩ (4548 / 100) (4570 / 100)
      (by decide) (by decide) p4548 p4570 (by decide) (by decide)

/-! ## Claim C2 -/

theorem waypointLoop_end (fuel : Nat) (version : GpxVersion) (tag : String)
    (acc : Waypoint) (rest : List XmlEvent) :
    waypointLoop (fuel + 1) version tag acc (.endElement tag :: rest) = .ok (acc, rest) := by
  rw [waypointLoop]
  simp

/-- C2: the waypoint consumer rejects a latitude outside `[-90, 90]` and a
longitude outside `[-180, 180)` with a lon/lat-out-of-bounds error when
the point is constructed from the `lat`/`lon` attributes, accepts values
inside (including both closed boundaries `lat = 90` and `lon = -180`),
and the error propagates out of the waypoint consumer. -/
theorem claim_C2 :
    (∀ (tag : String) (attrs : List Attr) (latA : Attr) (q : ℚ),
      findAttr attrs "lat" = some latA → parseFloat latA.value = some q →
      (q < -90 ∨ 90 < q) →
      waypointPoint tag attrs = .error (.lonLatOutOfBoundsError "latitude" "-90 and 90" q))
    ∧ (∀ (tag : String) (attrs : List Attr) (latA lonA : Attr) (qlat qlon : ℚ),
      findAttr attrs "lat" = some latA → parseFloat latA.value = some qlat →
      ¬(qlat < -90 ∨ 90 < qlat) →
      findAttr attrs "lon" = some lonA → parseFloat lonA.value = some qlon →
      (qlon < -180 ∨ 180 ≤ qlon) →
      waypointPoint tag attrs
        = .error (.lonLatOutOfBoundsError "longitude" "-180 and 180" qlon))
    ∧ (∀ (tag : String) (attrs : List Attr) (latA lonA : Attr) (qlat qlon : ℚ),
      findAttr attrs "lat" = some latA → parseFloat latA.value = some qlat →
      ¬(qlat < -90 ∨ 90 < qlat) →
      findAttr attrs "lon" = some lonA → parseFloat lonA.value = some qlon →
      ¬(qlon < -180 ∨ 180 ≤ qlon) →
      waypointPoint tag attrs = .ok ⟨qlon, qlat⟩)
    ∧ (∀ (version : GpxVersion) (tag : String) (attrs : List Attr)
        (rest : List XmlEvent) (e : Err),
      waypointPoint tag attrs = .error e →
      waypointConsume version tag (.startElement tag attrs :: rest) = .error e) := by
  refine ⟨?_, ?_, ?_, ?_⟩
  · intro tag attrs latA q h1 h2 h3
    simp only [waypointPoint, attrOr_some tag h1, ok_bind, floatOrErr_some h2]
    rw [if_pos h3]
  · intro tag attrs latA lonA qlat qlon h1 h2 h3 h4 h5 h6
    simp only [waypointPoint, attrOr_some tag h1, ok_bind, floatOrErr_some h2]
    rw [if_neg h3]
    simp only [attrOr_some tag h4, ok_bind, floatOrErr_some h5]
    rw [if_pos h6]
  · intro tag attrs latA lonA qlat qlon h1 h2 h3 h4 h5 h6
    simp only [waypointPoint, attrOr_some tag h1, ok_bind, floatOrErr_some h2]
    rw [if_neg h3]
    simp only [attrOr_some tag h4, ok_bind, floatOrErr_some h5]
    rw [if_neg h6]
  · intro version tag attrs rest e hpt
    unfold waypointConsume
    rw [verifyStartingTag_cons]
    simp only [ok_bind, hpt, error_bind]

/-- Witness for C2 at the boundary values: `lat="90.1"` fails,
`lat="90.0"` with `lon="-180.0"` succeeds, `lon="180.0"` fails. -/
theorem claim_C2_witness :
    waypointConsume .Gpx11 "wpt"
        [.startElement "wpt" [⟨"lat", "90.1"⟩, ⟨"lon", "0"⟩], .endElement "wpt"]
      = .error (.lonLatOutOfBoundsError "latitude" "-90 and 90" (901 / 10))
    ∧ waypointConsume .Gpx11 "wpt"
        [.startElement "wpt" [⟨"lat", "90.0"⟩, ⟨"lon", "-180.0"⟩], .endElement "wpt"]
      = .ok (Waypoint.new ⟨-180, 90⟩, [])
    ∧ waypointConsume .Gpx11 "wpt"
        [.startElement "wpt" [⟨"lat", "90.0"⟩, ⟨"lon", "180.0"⟩], .endElement "wpt"]
      = .error (.lonLatOutOfBoundsError "longitude" "-180 and 180" 180) := by
  have p901 : parseFloat "90.1" = some (901 / 10) :=
    parseFloat_eval "90.1" ['9', '0'] ['1'] 90 1 (901 / 10) rfl rfl rfl (by norm_num)
  have p90 : parseFloat "90.0" = some 90 :=
    parseFloat_eval "90.0" ['9', '0'] ['0'] 90 0 90 rfl rfl rfl (by norm_num)
  have p180 : parseFloat "180.0" = some 180 :=
    parseFloat_eval "180.0" ['1', '8', '0'] ['0'] 180 0 180 rfl rfl rfl (by norm_num)
  have pm180 : parseFloat "-180.0" = some (-180) := by
    rw [show parseFloat "-180.0"
      = (parseUnsignedFloat "-180.0".data.tail).map (fun q => -q) from rfl]
    rw [show parseUnsignedFloat "-180.0".data.tail
      = some (decimalVal ['1', '8', '0'] ['0']) from rfl]
    unfold decimalVal
    rw [show digitsVal ['1', '8', '0'] = 180 from rfl, show digitsVal ['0'] = 0 from rfl]
    norm_num
  refine ⟨?_, ?_, ?_⟩
  · apply claim_C2.2.2.2 .Gpx11 "wpt" _ _ _
    apply claim_C2.1 "wpt" _ ⟨"lat", "90.1"⟩ (901 / 10) (by decide) p901 (by norm_num)
  · have hpt : waypointPoint "wpt" [⟨"lat", "90.0"⟩, ⟨"lon", "-180.0"⟩]
        = .ok ⟨-180, 90⟩ := by
      apply claim_C2.2.2.1 "wpt" _ ⟨"lat", "90.0"⟩ ⟨"lon", "-180.0"⟩ 90 (-180)
        (by decide) p90 (by norm_num) (by decide) pm180 (by norm_num)
    unfold waypointConsume
    rw [verifyStartingTag_cons]
    simp only [ok_bind, hpt]
    exact waypointLoop_end 1 .Gpx11 "wpt" (Waypoint.new ⟨-180, 90⟩) []
  · apply claim_C2.2.2.2 .Gpx11 "wpt" _ _ _
    apply claim_C2.2.1 "wpt" _ ⟨"lat", "90.0"⟩ ⟨"lon", "180.0"⟩ 90 180
      (by decide) p90 (by norm_num) (by decide) p180 (by norm_num)

/-! ## Step lemmas for the container loops -/

theorem timeConsume_chunk (attrs : List Attr) (ts : String) (t : Time)
    (rest : List XmlEvent) (hts : ts ≠ "") (hp : timeParse ts = some t) :
    timeConsume (.startElement "time" attrs :: .characters ts :: .endElement "time" :: rest)
      = .ok (t, rest) := by
  unfold timeConsume
  rw [stringConsume_chunk "time" false attrs ts rest (Or.inr hts)]
  simp only [ok_bind, hp]

theorem personLoop_end (fuel : Nat) (tag : String) (acc : Person) (rest : List XmlEvent) :
    personLoop (fuel + 1) tag acc (.endElement tag :: rest) = .ok (acc, rest) := by
  rw [personLoop]
  simp

theorem personLoop_name (fuel : Nat) (tag : String) (acc : Person) (attrs : List Attr)
    (s : String) (rest : List XmlEvent) (hs : s ≠ "") :
    personLoop (fuel + 1) tag acc
        (.startElement "name" attrs :: .characters s :: .endElement "name" :: rest)
      = personLoop fuel tag { acc with name := some s } rest := by
  rw [personLoop]
  simp only [String.reduceEq, reduceIte, if_pos rfl,
    stringConsume_chunk "name" false attrs s rest (Or.inr hs)]

theorem metadataLoop_end (fuel : Nat) (acc : Metadata) (rest : List XmlEvent) :
    metadataLoop (fuel + 1) acc (.endElement "metadata" :: rest) = .ok (acc, rest) := by
  rw [metadataLoop]
  simp

theorem metadataLoop_name (fuel : Nat) (acc : Metadata) (attrs : List Attr)
    (s : String) (rest : List XmlEvent) (hs : s ≠ "") :
    metadataLoop (fuel + 1) acc
        (.startElement "name" attrs :: .characters s :: .endElement "name" :: rest)
      = metadataLoop fuel { acc with name := some s } rest := by
  rw [metadataLoop]
  simp only [String.reduceEq, reduceIte, if_pos rfl,
    stringConsume_chunk "name" false attrs s rest (Or.inr hs)]

theorem metadataLoop_desc (fuel : Nat) (acc : Metadata) (attrs : List Attr)
    (s : String) (rest : List XmlEvent) (hs : s ≠ "") :
    metadataLoop (fuel + 1) acc
        (.startElement "desc" attrs :: .characters s :: .endElement "desc" :: rest)
      = metadataLoop fuel { acc with description := some s } rest := by
  rw [metadataLoop]
  simp only [String.reduceEq, reduceIte, if_pos rfl,
    stringConsume_chunk "desc" false attrs s rest (Or.inr hs)]

theorem metadataLoop_keywords (fuel : Nat) (acc : Metadata) (attrs : List Attr)
    (s : String) (rest : List XmlEvent) (hs : s ≠ "") :
    metadataLoop (fuel + 1) acc
        (.startElement "keywords" attrs :: .characters s :: .endElement "keywords" :: rest)
      = metadataLoop fuel { acc with keywords := some s } rest := by
  rw [metadataLoop]
  simp only [String.reduceEq, reduceIte, if_pos rfl,
    stringConsume_chunk "keywords" false attrs s rest (Or.inr hs)]

theorem metadataLoop_author (fuel : Nat) (acc : Metadata) (attrs : List Attr)
    (tail rest : List XmlEvent) (p : Person)
    (h : personConsume "author" (.startElement "author" attrs :: tail) = .ok (p, rest)) :
    metadataLoop (fuel + 1) acc (.startElement "author" attrs :: tail)
      = metadataLoop fuel { acc with author := some p } rest := by
  rw [metadataLoop]
  simp only [String.reduceEq, reduceIte, if_pos rfl, h]

theorem metadataLoop_time (fuel : Nat) (acc : Metadata) (attrs : List Attr)
    (ts : String) (t : Time) (rest : List XmlEvent) (hts : ts ≠ "")
    (hp : timeParse ts = some t) :
    metadataLoop (fuel + 1) acc
        (.startElement "time" attrs :: .characters ts :: .endElement "time" :: rest)
      = metadataLoop fuel { acc with time := some t } rest := by
  rw [metadataLoop]
  simp only [String.reduceEq, reduceIte, if_pos rfl,
    timeConsume_chunk attrs ts t rest hts hp]

theorem metadataLoop_bounds (fuel : Nat) (acc : Metadata) (attrs : List Attr)
    (tail rest : List XmlEvent) (r : Rect)
    (h : boundsConsume (.startElement "bounds" attrs :: tail) = .ok (r, rest)) :
    metadataLoop (fuel + 1) acc (.startElement "bounds" attrs :: tail)
      = metadataLoop fuel { acc with bounds := some r } rest := by
  rw [metadataLoop]
  simp only [String.reduceEq, reduceIte, if_pos rfl, h]

theorem metadataLoop_link (fuel : Nat) (acc : Metadata) (attrs : List Attr)
    (tail rest : List XmlEvent) (l : Link)
    (h : linkConsume (.startElement "link" attrs :: tail) = .ok (l, rest)) :
    metadataLoop (fuel + 1) acc (.startElement "link" attrs :: tail)
      = metadataLoop fuel { acc with links := acc.links ++ [l] } rest := by
  rw [metadataLoop]
  simp only [String.reduceEq, reduceIte, if_pos rfl, h]

theorem metadataLoop_copyright (fuel : Nat) (acc : Metadata) (attrs : List Attr)
    (tail rest : List XmlEvent) (c : GpxCopyright)
    (h : copyrightConsume (.startElement "copyright" attrs :: tail) = .ok (c, rest)) :
    metadataLoop (fuel + 1) acc (.startElement "copyright" attrs :: tail)
      = metadataLoop fuel { acc with copyright := some c } rest := by
  rw [metadataLoop]
  simp only [String.reduceEq, reduceIte, if_pos rfl, h]

theorem gpxLoop_end10 (fuel : Nat) (g : Gpx) (scr : GpxScratch) (rest : List XmlEvent)
    (hv : g.version = .Gpx10) :
    gpxLoop (fuel + 1) g scr (.endElement "gpx" :: rest) = .ok (finishGpx10 g scr, rest) := by
  rw [gpxLoop]
  simp [hv]

theorem gpxLoop_end11 (fuel : Nat) (g : Gpx) (scr : GpxScratch) (rest : List XmlEvent)
    (hv : g.version = .Gpx11) :
    gpxLoop (fuel + 1) g scr (.endElement "gpx" :: rest) = .ok (g, rest) := by
  rw [gpxLoop]
  simp [hv]

theorem gpxLoop_metadata (fuel : Nat) (g : Gpx) (scr : GpxScratch) (attrs : List Attr)
    (tail rest : List XmlEvent) (m : Metadata) (hv : g.version ≠ .Gpx10)
    (h : metadataConsume (.startElement "metadata" attrs :: tail) = .ok (m, rest)) :
    gpxLoop (fuel + 1) g scr (.startElement "metadata" attrs :: tail)
      = gpxLoop fuel { g with metadata := some m } scr rest := by
  rw [gpxLoop]
  simp only [String.reduceEq, reduceIte, ne_eq, hv, not_false_eq_true, and_self, if_pos, h]

theorem gpxLoop_author10 (fuel : Nat) (g : Gpx) (scr : GpxScratch) (attrs : List Attr)
    (s : String) (rest : List XmlEvent) (hv : g.version = .Gpx10) (hs : s ≠ "") :
    gpxLoop (fuel + 1) g scr
        (.startElement "author" attrs :: .characters s :: .endElement "author" :: rest)
      = gpxLoop fuel g { scr with author := some s } rest := by
  rw [gpxLoop]
  simp [hv, stringConsume_chunk "author" false attrs s rest (Or.inr hs)]

theorem gpxLoop_name10 (fuel : Nat) (g : Gpx) (scr : GpxScratch) (attrs : List Attr)
    (s : String) (rest : List XmlEvent) (hv : g.version = .Gpx10) (hs : s ≠ "") :
    gpxLoop (fuel + 1) g scr
        (.startElement "name" attrs :: .characters s :: .endElement "name" :: rest)
      = gpxLoop fuel g { scr with gpx_name := some s } rest := by
  rw [gpxLoop]
  simp [hv, stringConsume_chunk "name" false attrs s rest (Or.inr hs)]

theorem gpxLoop_desc10 (fuel : Nat) (g : Gpx) (scr : GpxScratch) (attrs : List Attr)
    (s : String) (rest : List XmlEvent) (hv : g.version = .Gpx10) :
    gpxLoop (fuel + 1) g scr
        (.startElement "desc" attrs :: .characters s :: .endElement "desc" :: rest)
      = gpxLoop fuel g { scr with description := some s } rest := by
  rw [gpxLoop]
  simp [hv, stringConsume_chunk "desc" true attrs s rest (Or.inl rfl)]

theorem gpxLoop_keywords10 (fuel : Nat) (g : Gpx) (scr : GpxScratch) (attrs : List Attr)
    (s : String) (rest : List XmlEvent) (hv : g.version = .Gpx10) :
    gpxLoop (fuel + 1) g scr
        (.startElement "keywords" attrs :: .characters s :: .endElement "keywords" :: rest)
      = gpxLoop fuel g { scr with keywords := some s } rest := by
  rw [gpxLoop]
  simp [hv, stringConsume_chunk "keywords" true attrs s rest (Or.inl rfl)]

theorem gpxLoop_time10 (fuel : Nat) (g : Gpx) (scr : GpxScratch) (attrs : List Attr)
    (ts : String) (t : Time) (rest : List XmlEvent) (hv : g.version = .Gpx10)
    (hts : ts ≠ "") (hp : timeParse ts = some t) :
    gpxLoop (fuel + 1) g scr
        (.startElement "time" attrs :: .characters ts :: .endElement "time" :: rest)
      = gpxLoop fuel g { scr with time := some t } rest := by
  rw [gpxLoop]
  simp [hv, timeConsume_chunk attrs ts t rest hts hp]

theorem gpxLoop_bounds10 (fuel : Nat) (g : Gpx) (scr : GpxScratch) (attrs : List Attr)
    (tail rest : List XmlEvent) (r : Rect) (hv : g.version = .Gpx10)
    (h : boundsConsume (.startElement "bounds" attrs :: tail) = .ok (r, rest)) :
    gpxLoop (fuel + 1) g scr (.startElement "bounds" attrs :: tail)
      = gpxLoop fuel g { scr with bounds := some r } rest := by
  rw [gpxLoop]
  simp [hv, h]

/-! ## Entry lemmas for the consumers -/

theorem gpxConsume_entry10 (tail : List XmlEvent) :
    gpxConsume (.startElement "gpx" [⟨"version", "1.0"⟩] :: tail)
      = gpxLoop (tail.length + 1) ⟨.Gpx10, none, none, [], [], []⟩ GpxScratch.empty tail := rfl

theorem gpxConsume_entry11 (tail : List XmlEvent) :
    gpxConsume (.startElement "gpx" [⟨"version", "1.1"⟩] :: tail)
      = gpxLoop (tail.length + 1) ⟨.Gpx11, none, none, [], [], []⟩ GpxScratch.empty tail := rfl

theorem metadataConsume_entry (attrs : List Attr) (tail : List XmlEvent) :
    metadataConsume (.startElement "metadata" attrs :: tail)
      = metadataLoop (tail.length + 1) Metadata.default tail := by
  unfold metadataConsume
  rw [verifyStartingTag_cons]
  rfl

theorem personConsume_entry (tag : String) (attrs : List Attr) (tail : List XmlEvent) :
    personConsume tag (.startElement tag attrs :: tail)
      = personLoop (tail.length + 1) tag Person.default tail := by
  unfold personConsume
  rw [verifyStartingTag_cons]
  rfl

/-! ## Round-trip helper lemmas -/

theorem optElim_self {α : Type} (o : Option α) : o.elim none some = o := by
  cases o <;> rfl

theorem stringMk_ne_empty (l : List Char) (h : l ≠ []) : String.mk l ≠ "" :=
  fun he => h (congrArg String.data he)

theorem printNat_ne_empty (n : Nat) : printNat n ≠ "" :=
  stringMk_ne_empty _ (natChars_ne_nil n)

theorem floatBody_ne_nil (q : ℚ) : floatBody q ≠ [] := by
  unfold floatBody
  intro h
  exact natChars_ne_nil _ (List.append_eq_nil.mp h).1

theorem printFloat_ne_empty (q : ℚ) : printFloat q ≠ "" := by
  unfold printFloat
  split
  · exact stringMk_ne_empty _ (by simp)
  · exact stringMk_ne_empty _ (floatBody_ne_nil q)

theorem timeFormat_ne_empty (t : Time) : timeFormat t ≠ "" := by
  unfold timeFormat
  apply stringMk_ne_empty
  intro h
  exact List.cons_ne_nil 'Z' [] (List.append_eq_nil.mp h).2

theorem floatChild_chunk (tag : String) (attrs : List Attr) (q : ℚ)
    (rest : List XmlEvent) (hq : WfQ q) :
    floatChild tag (.startElement tag attrs :: .characters (printFloat q)
        :: .endElement tag :: rest) = .ok (q, rest) := by
  unfold floatChild
  rw [stringConsume_chunk tag false attrs (printFloat q) rest
    (Or.inr (printFloat_ne_empty q))]
  simp only [ok_bind, parseFloat_printFloat q hq]

theorem natChild_chunk (tag : String) (maxVal : Nat) (attrs : List Attr) (n : Nat)
    (rest : List XmlEvent) (hn : n ≤ maxVal) :
    natChild tag maxVal (.startElement tag attrs :: .characters (printNat n)
        :: .endElement tag :: rest) = .ok (n, rest) := by
  unfold natChild
  rw [stringConsume_chunk tag false attrs (printNat n) rest
    (Or.inr (printNat_ne_empty n))]
  simp only [ok_bind, parseNatLe_printNat maxVal n hn]

theorem fixConsume_chunk (attrs : List Attr) (f : Fix) (rest : List XmlEvent)
    (hf : WfFix f) :
    fixConsume (.startElement "fix" attrs :: .characters (fixToString f)
        :: .endElement "fix" :: rest) = .ok (f, rest) := by
  unfold fixConsume
  rw [stringConsume_chunk "fix" false attrs (fixToString f) rest (Or.inr hf.2)]
  simp only [Except.map]
  rw [hf.1]

theorem emailConsume_chunk (i d : String) (rest : List XmlEvent) :
    emailConsume (.startElement "email" [⟨"id", i⟩, ⟨"domain", d⟩]
        :: .endElement "email" :: rest) = .ok (i ++ "@" ++ d, rest) := rfl

theorem emailEvents_of_parts (e : String) (pr : String × String)
    (hp : emailParts e = some pr) :
    emailEvents e = .ok [.startElement "email" [⟨"id", pr.1⟩, ⟨"domain", pr.2⟩],
      .endElement "email"] := by
  unfold emailParts at hp
  unfold emailEvents
  rcases hsp : splitChar '@' e.data with _ | ⟨i, _ | ⟨d, _ | ⟨x, tl⟩⟩⟩ <;> rw [hsp] at hp
  · exact Option.noConfusion hp
  · exact Option.noConfusion hp
  · have h2 := Option.some.inj hp
    subst h2
    rfl
  · exact Option.noConfusion hp

/-! ## Link round-trip -/

theorem linkLoop_end (fuel : Nat) (acc : Link) (rest : List XmlEvent) :
    linkLoop (fuel + 1) acc (.endElement "link" :: rest) = .ok (acc, rest) := by
  rw [linkLoop]
  simp

theorem linkLoop_text (fuel : Nat) (acc : Link) (attrs : List Attr) (s : String)
    (rest : List XmlEvent) (hs : s ≠ "") :
    linkLoop (fuel + 1) acc
        (.startElement "text" attrs :: .characters s :: .endElement "text" :: rest)
      = linkLoop fuel { acc with text := some s } rest := by
  rw [linkLoop]
  simp only [String.reduceEq, reduceIte, if_pos rfl,
    stringConsume_chunk "text" false attrs s rest (Or.inr hs)]

theorem linkLoop_type (fuel : Nat) (acc : Link) (attrs : List Attr) (s : String)
    (rest : List XmlEvent) (hs : s ≠ "") :
    linkLoop (fuel + 1) acc
        (.startElement "type" attrs :: .characters s :: .endElement "type" :: rest)
      = linkLoop fuel { acc with _type := some s } rest := by
  rw [linkLoop]
  simp only [String.reduceEq, reduceIte, if_pos rfl,
    stringConsume_chunk "type" false attrs s rest (Or.inr hs)]

theorem linkConsume_inv (l : Link) (rest : List XmlEvent) (hl : WfLink l) :
    linkConsume (writeLink l ++ rest) = .ok (l, rest) := by
  obtain ⟨href, text, typ⟩ := l
  obtain ⟨ht, hy⟩ := hl
  cases text with
  | none =>
    cases typ with
    | none =>
      show linkConsume (.startElement "link" [⟨"href", href⟩]
        :: .endElement "link" :: rest) = _
      unfold linkConsume
      rw [verifyStartingTag_cons]
      simp only [ok_bind,
        @attrOr_some [⟨"href", href⟩] "href" ⟨"href", href⟩ "link" rfl,
        List.length_cons]
      exact linkLoop_end _ _ _
    | some ty =>
      show linkConsume (.startElement "link" [⟨"href", href⟩]
        :: .startElement "type" [] :: .characters ty :: .endElement "type"
        :: .endElement "link" :: rest) = _
      unfold linkConsume
      rw [verifyStartingTag_cons]
      simp only [ok_bind,
        @attrOr_some [⟨"href", href⟩] "href" ⟨"href", href⟩ "link" rfl,
        List.length_cons]
      rw [linkLoop_type _ _ [] ty _ hy]
      exact linkLoop_end _ _ _
  | some s =>
    cases typ with
    | none =>
      show linkConsume (.startElement "link" [⟨"href", href⟩]
        :: .startElement "text" [] :: .characters s :: .endElement "text"
        :: .endElement "link" :: rest) = _
      unfold linkConsume
      rw [verifyStartingTag_cons]
      simp only [ok_bind,
        @attrOr_some [⟨"href", href⟩] "href" ⟨"href", href⟩ "link" rfl,
        List.length_cons]
      rw [linkLoop_text _ _ [] s _ ht]
      exact linkLoop_end _ _ _
    | some ty =>
      show linkConsume (.startElement "link" [⟨"href", href⟩]
        :: .startElement "text" [] :: .characters s :: .endElement "text"
        :: .startElement "type" [] :: .characters ty :: .endElement "type"
        :: .endElement "link" :: rest) = _
      unfold linkConsume
      rw [verifyStartingTag_cons]
      simp only [ok_bind,
        @attrOr_some [⟨"href", href⟩] "href" ⟨"href", href⟩ "link" rfl,
        List.length_cons]
      rw [linkLoop_text _ _ [] s _ ht]
      rw [linkLoop_type _ _ [] ty _ hy]
      exact linkLoop_end _ _ _

theorem writeLink_append (l : Link) (rest : List XmlEvent) :
    writeLink l ++ rest
      = .startElement "link" [⟨"href", l.href⟩]
        :: (writeStringIfExists "text" l.text ++ (writeStringIfExists "type" l._type
          ++ (.endElement "link" :: rest))) := by
  simp [writeLink, List.append_assoc]

theorem one_le_writeLink (l : Link) : 1 ≤ (writeLink l).length := by
  simp [writeLink]

theorem length_le_flatten {α : Type} (f : α → List XmlEvent)
    (h1 : ∀ x : α, 1 ≤ (f x).length) :
    ∀ ls : List α, ls.length ≤ ((ls.map f).flatten).length := by
  intro ls
  induction ls with
  | nil => simp
  | cons x t ih =>
    simp only [List.map_cons, List.flatten_cons, List.length_cons, List.length_append]
    have := h1 x
    omega

theorem optSteps_le_writeString (k : String) (o : Option String) :
    optSteps o ≤ (writeStringIfExists k o).length := by
  cases o <;> simp [optSteps, writeStringIfExists, writeString]

theorem optSteps_le_writeFloat (k : String) (o : Option ℚ) :
    optSteps o ≤ (writeFloatIfExists k o).length := by
  cases o <;> simp [optSteps, writeFloatIfExists, writeString]

theorem optSteps_le_writeNat (k : String) (o : Option Nat) :
    optSteps o ≤ (writeNatIfExists k o).length := by
  cases o <;> simp [optSteps, writeNatIfExists, writeString]

theorem optSteps_le_writeTime (o : Option Time) :
    optSteps o ≤ (writeTimeIfExists o).length := by
  cases o <;> simp [optSteps, writeTimeIfExists]

theorem optSteps_le_writeBounds (o : Option Rect) :
    optSteps o ≤ (writeBoundsIfExists o).length := by
  cases o <;> simp [optSteps, writeBoundsIfExists]

theorem optSteps_le_writeFix (o : Option Fix) :
    optSteps o ≤ (writeFixIfExists o).length := by
  cases o <;> simp [optSteps, writeFixIfExists]

/-! ## Waypoint round-trip -/

theorem wpLoop_ele (fuel : Nat) (v : GpxVersion) (tag : String) (acc : Waypoint)
    (o : Option ℚ) (rest : List XmlEvent) (ho : WfOpt WfQ o) :
    waypointLoop (fuel + optSteps o) v tag acc (writeFloatIfExists "ele" o ++ rest)
      = waypointLoop fuel v tag { acc with elevation := o.elim acc.elevation some } rest := by
  cases o with
  | none => rfl
  | some q =>
    show waypointLoop (fuel + 1) v tag acc (.startElement "ele" []
      :: .characters (printFloat q) :: .endElement "ele" :: rest) = _
    rw [waypointLoop]
    simp only [String.reduceEq, false_and, reduceIte, if_pos rfl,
      floatChild_chunk "ele" [] q rest ho]
    rfl

theorem wpLoop_time (fuel : Nat) (v : GpxVersion) (tag : String) (acc : Waypoint)
    (o : Option Time) (rest : List XmlEvent) :
    waypointLoop (fuel + optSteps o) v tag acc (writeTimeIfExists o ++ rest)
      = waypointLoop fuel v tag { acc with time := o.elim acc.time some } rest := by
  cases o with
  | none => rfl
  | some t =>
    show waypointLoop (fuel + 1) v tag acc (.startElement "time" []
      :: .characters (timeFormat t) :: .endElement "time" :: rest) = _
    rw [waypointLoop]
    simp only [String.reduceEq, false_and, reduceIte, if_pos rfl,
      timeConsume_chunk [] (timeFormat t) t rest (timeFormat_ne_empty t)
        (timeParse_timeFormat t)]
    rfl

theorem wpLoop_name (fuel : Nat) (v : GpxVersion) (tag : String) (acc : Waypoint)
    (o : Option String) (rest : List XmlEvent)
    (ho : WfOpt (fun s : String => s ≠ "") o) :
    waypointLoop (fuel + optSteps o) v tag acc (writeStringIfExists "name" o ++ rest)
      = waypointLoop fuel v tag { acc with name := o.elim acc.name some } rest := by
  cases o with
  | none => rfl
  | some s =>
    show waypointLoop (fuel + 1) v tag acc (.startElement "name" []
      :: .characters s :: .endElement "name" :: rest) = _
    rw [waypointLoop]
    simp only [String.reduceEq, false_and, reduceIte, if_pos rfl,
      stringConsume_chunk "name" false [] s rest (Or.inr ho)]
    rfl

theorem wpLoop_cmt (fuel : Nat) (v : GpxVersion) (tag : String) (acc : Waypoint)
    (o : Option String) (rest : List XmlEvent)
    (ho : WfOpt (fun s : String => s ≠ "") o) :
    waypointLoop (fuel + optSteps o) v tag acc (writeStringIfExists "cmt" o ++ rest)
      = waypointLoop fuel v tag { acc with comment := o.elim acc.comment some } rest := by
  cases o with
  | none => rfl
  | some s =>
    show waypointLoop (fuel + 1) v tag acc (.startElement "cmt" []
      :: .characters s :: .endElement "cmt" :: rest) = _
    rw [waypointLoop]
    simp only [String.reduceEq, false_and, reduceIte, if_pos rfl,
      stringConsume_chunk "cmt" false [] s rest (Or.inr ho)]
    rfl

theorem wpLoop_desc (fuel : Nat) (v : GpxVersion) (tag : String) (acc : Waypoint)
    (o : Option String) (rest : List XmlEvent)
    (ho : WfOpt (fun s : String => s ≠ "") o) :
    waypointLoop (fuel + optSteps o) v tag acc (writeStringIfExists "desc" o ++ rest)
      = waypointLoop fuel v tag { acc with description := o.elim acc.description some }
          rest := by
  cases o with
  | none => rfl
  | some s =>
    show waypointLoop (fuel + 1) v tag acc (.startElement "desc" []
      :: .characters s :: .endElement "desc" :: rest) = _
    rw [waypointLoop]
    simp only [String.reduceEq, false_and, reduceIte, if_pos rfl,
      stringConsume_chunk "desc" false [] s rest (Or.inr ho)]
    rfl

theorem wpLoop_src (fuel : Nat) (v : GpxVersion) (tag : String) (acc : Waypoint)
    (o : Option String) (rest : List XmlEvent)
    (ho : WfOpt (fun s : String => s ≠ "") o) :
    waypointLoop (fuel + optSteps o) v tag acc (writeStringIfExists "src" o ++ rest)
      = waypointLoop fuel v tag { acc with source := o.elim acc.source some } rest := by
  cases o with
  | none => rfl
  | some s =>
    show waypointLoop (fuel + 1) v tag acc (.startElement "src" []
      :: .characters s :: .endElement "src" :: rest) = _
    rw [waypointLoop]
    simp only [String.reduceEq, false_and, reduceIte, if_pos rfl,
      stringConsume_chunk "src" false [] s rest (Or.inr ho)]
    rfl

theorem wpLoop_sym (fuel : Nat) (v : GpxVersion) (tag : String) (acc : Waypoint)
    (o : Option String) (rest : List XmlEvent)
    (ho : WfOpt (fun s : String => s ≠ "") o) :
    waypointLoop (fuel + optSteps o) v tag acc (writeStringIfExists "sym" o ++ rest)
      = waypointLoop fuel v tag { acc with symbol := o.elim acc.symbol some } rest := by
  cases o with
  | none => rfl
  | some s =>
    show waypointLoop (fuel + 1) v tag acc (.startElement "sym" []
      :: .characters s :: .endElement "sym" :: rest) = _
    rw [waypointLoop]
    simp only [String.reduceEq, false_and, reduceIte, if_pos rfl,
      stringConsume_chunk "sym" false [] s rest (Or.inr ho)]
    rfl

theorem wpLoop_type (fuel : Nat) (v : GpxVersion) (tag : String) (acc : Waypoint)
    (o : Option String) (rest : List XmlEvent)
    (ho : WfOpt (fun s : String => s ≠ "") o) :
    waypointLoop (fuel + optSteps o) v tag acc (writeStringIfExists "type" o ++ rest)
      = waypointLoop fuel v tag { acc with _type := o.elim acc._type some } rest := by
  cases o with
  | none => rfl
  | some s =>
    show waypointLoop (fuel + 1) v tag acc (.startElement "type" []
      :: .characters s :: .endElement "type" :: rest) = _
    rw [waypointLoop]
    simp only [String.reduceEq, false_and, reduceIte, if_pos rfl,
      stringConsume_chunk "type" false [] s rest (Or.inr ho)]
    rfl

theorem wpLoop_fix (fuel : Nat) (v : GpxVersion) (tag : String) (acc : Waypoint)
    (o : Option Fix) (rest : List XmlEvent) (ho : WfOpt WfFix o) :
    waypointLoop (fuel + optSteps o) v tag acc (writeFixIfExists o ++ rest)
      = waypointLoop fuel v tag { acc with fix := o.elim acc.fix some } rest := by
  cases o with
  | none => rfl
  | some f =>
    show waypointLoop (fuel + 1) v tag acc (.startElement "fix" []
      :: .characters (fixToString f) :: .endElement "fix" :: rest) = _
    rw [waypointLoop]
    simp only [String.reduceEq, false_and, reduceIte, if_pos rfl,
      fixConsume_chunk [] f rest ho]
    rfl

theorem wpLoop_sat (fuel : Nat) (v : GpxVersion) (tag : String) (acc : Waypoint)
    (o : Option Nat) (rest : List XmlEvent) (ho : WfOpt (fun n => n ≤ u64Max) o) :
    waypointLoop (fuel + optSteps o) v tag acc (writeNatIfExists "sat" o ++ rest)
      = waypointLoop fuel v tag { acc with sat := o.elim acc.sat some } rest := by
  cases o with
  | none => rfl
  | some n =>
    show waypointLoop (fuel + 1) v tag acc (.startElement "sat" []
      :: .characters (printNat n) :: .endElement "sat" :: rest) = _
    rw [waypointLoop]
    simp only [String.reduceEq, false_and, reduceIte, if_pos rfl,
      natChild_chunk "sat" u64Max [] n rest ho]
    rfl

theorem wpLoop_hdop (fuel : Nat) (v : GpxVersion) (tag : String) (acc : Waypoint)
    (o : Option ℚ) (rest : List XmlEvent) (ho : WfOpt WfQ o) :
    waypointLoop (fuel + optSteps o) v tag acc (writeFloatIfExists "hdop" o ++ rest)
      = waypointLoop fuel v tag { acc with hdop := o.elim acc.hdop some } rest := by
  cases o with
  | none => rfl
  | some q =>
    show waypointLoop (fuel + 1) v tag acc (.startElement "hdop" []
      :: .characters (printFloat q) :: .endElement "hdop" :: rest) = _
    rw [waypointLoop]
    simp only [String.reduceEq, false_and, reduceIte, if_pos rfl,
      floatChild_chunk "hdop" [] q rest ho]
    rfl

theorem wpLoop_vdop (fuel : Nat) (v : GpxVersion) (tag : String) (acc : Waypoint)
    (o : Option ℚ) (rest : List XmlEvent) (ho : WfOpt WfQ o) :
    waypointLoop (fuel + optSteps o) v tag acc (writeFloatIfExists "vdop" o ++ rest)
      = waypointLoop fuel v tag { acc with vdop := o.elim acc.vdop some } rest := by
  cases o with
  | none => rfl
  | some q =>
    show waypointLoop (fuel + 1) v tag acc (.startElement "vdop" []
      :: .characters (printFloat q) :: .endElement "vdop" :: rest) = _
    rw [waypointLoop]
    simp only [String.reduceEq, false_and, reduceIte, if_pos rfl,
      floatChild_chunk "vdop" [] q rest ho]
    rfl

theorem wpLoop_pdop (fuel : Nat) (v : GpxVersion) (tag : String) (acc : Waypoint)
    (o : Option ℚ) (rest : List XmlEvent) (ho : WfOpt WfQ o) :
    waypointLoop (fuel + optSteps o) v tag acc (writeFloatIfExists "pdop" o ++ rest)
      = waypointLoop fuel v tag { acc with pdop := o.elim acc.pdop some } rest := by
  cases o with
  | none => rfl
  | some q =>
    show waypointLoop (fuel + 1) v tag acc (.startElement "pdop" []
      :: .characters (printFloat q) :: .endElement "pdop" :: rest) = _
    rw [waypointLoop]
    simp only [String.reduceEq, false_and, reduceIte, if_pos rfl,
      floatChild_chunk "pdop" [] q rest ho]
    rfl

theorem wpLoop_dga (fuel : Nat) (v : GpxVersion) (tag : String) (acc : Waypoint)
    (o : Option ℚ) (rest : List XmlEvent) (ho : WfOpt WfQ o) :
    waypointLoop (fuel + optSteps o) v tag acc
        (writeFloatIfExists "ageofdgpsdata" o ++ rest)
      = waypointLoop fuel v tag { acc with dgps_age := o.elim acc.dgps_age some } rest := by
  cases o with
  | none => rfl
  | some q =>
    show waypointLoop (fuel + 1) v tag acc (.startElement "ageofdgpsdata" []
      :: .characters (printFloat q) :: .endElement "ageofdgpsdata" :: rest) = _
    rw [waypointLoop]
    simp only [String.reduceEq, false_and, reduceIte, if_pos rfl,
      floatChild_chunk "ageofdgpsdata" [] q rest ho]
    rfl

theorem wpLoop_dgpsid (fuel : Nat) (v : GpxVersion) (tag : String) (acc : Waypoint)
    (o : Option Nat) (rest : List XmlEvent) (ho : WfOpt (fun n => n ≤ u16Max) o) :
    waypointLoop (fuel + optSteps o) v tag acc (writeNatIfExists "dgpsid" o ++ rest)
      = waypointLoop fuel v tag { acc with dgpsid := o.elim acc.dgpsid some } rest := by
  cases o with
  | none => rfl
  | some n =>
    show waypointLoop (fuel + 1) v tag acc (.startElement "dgpsid" []
      :: .characters (printNat n) :: .endElement "dgpsid" :: rest) = _
    rw [waypointLoop]
    simp only [String.reduceEq, false_and, reduceIte, if_pos rfl,
      natChild_chunk "dgpsid" u16Max [] n rest ho]
    rfl

theorem wpLoop_link_step (fuel : Nat) (v : GpxVersion) (tag : String) (acc : Waypoint)
    (attrs : List Attr) (tail rest : List XmlEvent) (l : Link)
    (h : linkConsume (.startElement "link" attrs :: tail) = .ok (l, rest)) :
    waypointLoop (fuel + 1) v tag acc (.startElement "link" attrs :: tail)
      = waypointLoop fuel v tag { acc with links := acc.links ++ [l] } rest := by
  rw [waypointLoop]
  simp only [String.reduceEq, false_and, reduceIte, if_pos rfl, h]

theorem wpLoop_links (v : GpxVersion) (tag : String) :
    ∀ ls : List Link, (∀ l ∈ ls, WfLink l) →
      ∀ (fuel : Nat) (acc : Waypoint) (rest : List XmlEvent),
      waypointLoop (fuel + ls.length) v tag acc ((ls.map writeLink).flatten ++ rest)
        = waypointLoop fuel v tag { acc with links := acc.links ++ ls } rest := by
  intro ls
  induction ls with
  | nil =>
    intro _ fuel acc rest
    simp only [List.map_nil, List.flatten_nil, List.nil_append, List.length_nil,
      Nat.add_zero, List.append_nil]
  | cons l t ih =>
    intro hls fuel acc rest
    simp only [List.map_cons, List.flatten_cons, List.length_cons, List.append_assoc]
    have hstep : linkConsume (.startElement "link" [⟨"href", l.href⟩]
        :: (writeStringIfExists "text" l.text ++ (writeStringIfExists "type" l._type
          ++ (.endElement "link" :: ((t.map writeLink).flatten ++ rest)))))
        = .ok (l, (t.map writeLink).flatten ++ rest) := by
      rw [← writeLink_append]
      exact linkConsume_inv l _ (hls l (List.mem_cons_self l t))
    rw [show fuel + (t.length + 1) = (fuel + t.length) + 1 from rfl]
    rw [writeLink_append]
    rw [wpLoop_link_step _ _ _ _ _ _ _ _ hstep]
    rw [ih (fun x hx => hls x (List.mem_cons_of_mem l hx)) fuel _ rest]
    simp only [List.append_assoc, List.singleton_append]

theorem waypointPoint_inv (tag : String) (px py : ℚ) (hpt : WfPoint ⟨px, py⟩) :
    waypointPoint tag [⟨"lat", printFloat py⟩, ⟨"lon", printFloat px⟩] = .ok ⟨px, py⟩ := by
  obtain ⟨hx, hy, h1, h2, h3, h4⟩ := hpt
  have hq1 : -90 ≤ py := h1
  have hq2 : py ≤ 90 := h2
  have hq3 : -180 ≤ px := h3
  have hq4 : px < 180 := h4
  have hlat : parseFloat (⟨"lat", printFloat py⟩ : Attr).value = some py :=
    parseFloat_printFloat py hy
  have hlon : parseFloat (⟨"lon", printFloat px⟩ : Attr).value = some px :=
    parseFloat_printFloat px hx
  unfold waypointPoint
  simp only [@attrOr_some [⟨"lat", printFloat py⟩, ⟨"lon", printFloat px⟩] "lat"
    ⟨"lat", printFloat py⟩ tag rfl, ok_bind, floatOrErr_some hlat]
  rw [if_neg (by rintro (h | h) <;> linarith)]
  simp only [@attrOr_some [⟨"lat", printFloat py⟩, ⟨"lon", printFloat px⟩] "lon"
    ⟨"lon", printFloat px⟩ tag rfl, ok_bind, floatOrErr_some hlon]
  rw [if_neg (by rintro (h | h) <;> linarith)]

theorem writeFloatIfExists_none (k : String) : writeFloatIfExists k none = [] := rfl

theorem writeWaypoint_append (tag : String) (w : Waypoint) (rest : List XmlEvent) :
    writeWaypoint tag w ++ rest
      = .startElement tag [⟨"lat", printFloat w.point.y⟩, ⟨"lon", printFloat w.point.x⟩]
        :: (writeFloatIfExists "ele" w.elevation ++ (writeTimeIfExists w.time
        ++ (writeFloatIfExists "geoidheight" w.geoidheight
        ++ (writeStringIfExists "name" w.name ++ (writeStringIfExists "cmt" w.comment
        ++ (writeStringIfExists "desc" w.description
        ++ (writeStringIfExists "src" w.source ++ ((w.links.map writeLink).flatten
        ++ (writeStringIfExists "sym" w.symbol ++ (writeStringIfExists "type" w._type
        ++ (writeFixIfExists w.fix ++ (writeNatIfExists "sat" w.sat
        ++ (writeFloatIfExists "hdop" w.hdop ++ (writeFloatIfExists "vdop" w.vdop
        ++ (writeFloatIfExists "pdop" w.pdop
        ++ (writeFloatIfExists "ageofdgpsdata" w.dgps_age
        ++ (writeNatIfExists "dgpsid" w.dgpsid
        ++ (.endElement tag :: rest)))))))))))))))))) := by
  simp [writeWaypoint, List.append_assoc]

theorem one_le_writeWaypoint (tag : String) (w : Waypoint) :
    1 ≤ (writeWaypoint tag w).length := by
  simp [writeWaypoint]

theorem waypointLoop_run (v : GpxVersion) (tag : String) (px py : ℚ)
    (ele : Option ℚ) (tm : Option Time) (nm cm dsc src : Option String)
    (lks : List Link) (sym typ : Option String) (fx : Option Fix) (sat : Option Nat)
    (hd vd pd dga : Option ℚ) (dgi : Option Nat)
    (fuel : Nat) (rest : List XmlEvent)
    (hele : WfOpt WfQ ele) (hname : WfOpt (fun s : String => s ≠ "") nm)
    (hcmt : WfOpt (fun s : String => s ≠ "") cm)
    (hdesc : WfOpt (fun s : String => s ≠ "") dsc)
    (hsrc : WfOpt (fun s : String => s ≠ "") src)
    (hlinks : ∀ l ∈ lks, WfLink l)
    (hsym : WfOpt (fun s : String => s ≠ "") sym)
    (htype : WfOpt (fun s : String => s ≠ "") typ)
    (hfix : WfOpt WfFix fx) (hsat : WfOpt (fun n => n ≤ u64Max) sat)
    (hhdop : WfOpt WfQ hd) (hvdop : WfOpt WfQ vd) (hpdop : WfOpt WfQ pd)
    (hdga : WfOpt WfQ dga) (hdgpsid : WfOpt (fun n => n ≤ u16Max) dgi)
    (hfuel : wpSteps ⟨⟨px, py⟩, ele, none, tm, nm, cm, dsc, src, lks, sym, typ, none,
      fx, sat, hd, vd, pd, none, dga, dgi⟩ + 1 ≤ fuel) :
    waypointLoop fuel v tag (Waypoint.new ⟨px, py⟩)
        (writeFloatIfExists "ele" ele ++ (writeTimeIfExists tm
          ++ (writeStringIfExists "name" nm ++ (writeStringIfExists "cmt" cm
          ++ (writeStringIfExists "desc" dsc ++ (writeStringIfExists "src" src
          ++ ((lks.map writeLink).flatten ++ (writeStringIfExists "sym" sym
          ++ (writeStringIfExists "type" typ ++ (writeFixIfExists fx
          ++ (writeNatIfExists "sat" sat ++ (writeFloatIfExists "hdop" hd
          ++ (writeFloatIfExists "vdop" vd ++ (writeFloatIfExists "pdop" pd
          ++ (writeFloatIfExists "ageofdgpsdata" dga
          ++ (writeNatIfExists "dgpsid" dgi
          ++ (.endElement tag :: rest)))))))))))))))))
      = .ok (⟨⟨px, py⟩, ele, none, tm, nm, cm, dsc, src, lks, sym, typ, none,
          fx, sat, hd, vd, pd, none, dga, dgi⟩, rest) := by
  obtain ⟨k, hk⟩ : ∃ k, fuel = (k + 1) + wpSteps ⟨⟨px, py⟩, ele, none, tm, nm, cm,
      dsc, src, lks, sym, typ, none, fx, sat, hd, vd, pd, none, dga, dgi⟩ :=
    ⟨fuel - 1 - wpSteps ⟨⟨px, py⟩, ele, none, tm, nm, cm, dsc, src, lks, sym, typ,
      none, fx, sat, hd, vd, pd, none, dga, dgi⟩, by omega⟩
  subst hk
  simp only [wpSteps]
  simp only [← Nat.add_assoc]
  rw [wpLoop_ele _ v tag _ ele _ hele]
  rw [wpLoop_time _ v tag _ tm _]
  rw [wpLoop_name _ v tag _ nm _ hname]
  rw [wpLoop_cmt _ v tag _ cm _ hcmt]
  rw [wpLoop_desc _ v tag _ dsc _ hdesc]
  rw [wpLoop_src _ v tag _ src _ hsrc]
  rw [wpLoop_links v tag lks hlinks]
  rw [wpLoop_sym _ v tag _ sym _ hsym]
  rw [wpLoop_type _ v tag _ typ _ htype]
  rw [wpLoop_fix _ v tag _ fx _ hfix]
  rw [wpLoop_sat _ v tag _ sat _ hsat]
  rw [wpLoop_hdop _ v tag _ hd _ hhdop]
  rw [wpLoop_vdop _ v tag _ vd _ hvdop]
  rw [wpLoop_pdop _ v tag _ pd _ hpdop]
  rw [wpLoop_dga _ v tag _ dga _ hdga]
  rw [wpLoop_dgpsid _ v tag _ dgi _ hdgpsid]
  rw [waypointLoop_end k v tag _ rest]
  simp only [Waypoint.new, optElim_self, List.nil_append]

theorem waypointConsume_inv (v : GpxVersion) (tag : String) (w : Waypoint)
    (rest : List XmlEvent) (hw : WfWaypoint w) :
    waypointConsume v tag (writeWaypoint tag w ++ rest) = .ok (w, rest) := by
  obtain ⟨pt, ele, spd, tm, nm, cm, dsc, src, lks, sym, typ, geo, fx, sat, hd, vd, pd,
    ag, dga, dgi⟩ := w
  obtain ⟨px, py⟩ := pt
  obtain ⟨hpt, hele, hspeed, hname, hcmt, hdesc, hsrc, hlinks, hsym, htype, hgeo, hfix,
    hsat, hhdop, hvdop, hpdop, hage, hdga, hdgpsid⟩ := hw
  have hspd : spd = none := hspeed
  have hgeo2 : geo = none := hgeo
  have hag2 : ag = none := hage
  subst hspd hgeo2 hag2
  rw [writeWaypoint_append]
  simp only [writeFloatIfExists_none, List.nil_append]
  unfold waypointConsume
  rw [verifyStartingTag_cons]
  simp only [ok_bind, waypointPoint_inv tag px py hpt]
  apply waypointLoop_run v tag px py ele tm nm cm dsc src lks sym typ fx sat hd vd pd
    dga dgi _ rest hele hname hcmt hdesc hsrc hlinks hsym htype hfix hsat hhdop hvdop
    hpdop hdga hdgpsid
  simp only [wpSteps, List.length_append, List.length_cons, List.length_nil]
  have b1 := optSteps_le_writeFloat "ele" ele
  have b2 := optSteps_le_writeTime tm
  have b3 := optSteps_le_writeString "name" nm
  have b4 := optSteps_le_writeString "cmt" cm
  have b5 := optSteps_le_writeString "desc" dsc
  have b6 := optSteps_le_writeString "src" src
  have b7 := length_le_flatten writeLink one_le_writeLink lks
  have b8 := optSteps_le_writeString "sym" sym
  have b9 := optSteps_le_writeString "type" typ
  have b10 := optSteps_le_writeFix fx
  have b11 := optSteps_le_writeNat "sat" sat
  have b12 := optSteps_le_writeFloat "hdop" hd
  have b13 := optSteps_le_writeFloat "vdop" vd
  have b14 := optSteps_le_writeFloat "pdop" pd
  have b15 := optSteps_le_writeFloat "ageofdgpsdata" dga
  have b16 := optSteps_le_writeNat "dgpsid" dgi
  omega

/-! ## Person round-trip -/

theorem optSteps_le_writeLinkOpt (o : Option Link) :
    optSteps o ≤ (writeLinkIfExists o).length := by
  cases o with
  | none => exact Nat.le_refl 0
  | some l => exact one_le_writeLink l

theorem plLoop_name (fuel : Nat) (tag : String) (acc : Person) (o : Option String)
    (rest : List XmlEvent) (ho : WfOpt (fun s : String => s ≠ "") o) :
    personLoop (fuel + optSteps o) tag acc (writeStringIfExists "name" o ++ rest)
      = personLoop fuel tag { acc with name := o.elim acc.name some } rest := by
  cases o with
  | none => rfl
  | some s =>
    show personLoop (fuel + 1) tag acc (.startElement "name" [] :: .characters s
      :: .endElement "name" :: rest) = _
    rw [personLoop_name fuel tag acc [] s rest ho]
    rfl

theorem plLoop_email (tag : String) (o : Option String) (ho : WfOpt WfEmail o) :
    ∃ evs, writeEmailIfExists o = .ok evs ∧ optSteps o ≤ evs.length
      ∧ ∀ (fuel : Nat) (acc : Person) (rest : List XmlEvent),
        personLoop (fuel + optSteps o) tag acc (evs ++ rest)
          = personLoop fuel tag { acc with email := o.elim acc.email some } rest := by
  cases o with
  | none => exact ⟨[], rfl, Nat.le_refl 0, fun fuel acc rest => rfl⟩
  | some e =>
    obtain ⟨pr, hpr, hjoin⟩ := Option.map_eq_some'.mp ho
    refine ⟨[.startElement "email" [⟨"id", pr.1⟩, ⟨"domain", pr.2⟩],
      .endElement "email"], emailEvents_of_parts e pr hpr, Nat.le_succ 1, ?_⟩
    intro fuel acc rest
    show personLoop (fuel + 1) tag acc
      (.startElement "email" [⟨"id", pr.1⟩, ⟨"domain", pr.2⟩]
        :: .endElement "email" :: rest) = _
    rw [personLoop]
    simp only [String.reduceEq, reduceIte, if_pos rfl, emailConsume_chunk pr.1 pr.2 rest]
    rw [hjoin]
    rfl

theorem plLoop_link (fuel : Nat) (tag : String) (acc : Person) (o : Option Link)
    (rest : List XmlEvent) (ho : WfOpt WfLink o) :
    personLoop (fuel + optSteps o) tag acc (writeLinkIfExists o ++ rest)
      = personLoop fuel tag { acc with link := o.elim acc.link some } rest := by
  cases o with
  | none => rfl
  | some l =>
    have hstep : linkConsume (.startElement "link" [⟨"href", l.href⟩]
        :: (writeStringIfExists "text" l.text ++ (writeStringIfExists "type" l._type
          ++ (.endElement "link" :: rest)))) = .ok (l, rest) := by
      rw [← writeLink_append]
      exact linkConsume_inv l rest ho
    show personLoop (fuel + 1) tag acc (writeLink l ++ rest) = _
    rw [writeLink_append]
    rw [personLoop]
    simp only [String.reduceEq, reduceIte, if_pos rfl, hstep]
    rfl

theorem personLoop_run (key : String) (pn pe : Option String) (pl : Option Link)
    (eevs : List XmlEvent) (fuel : Nat) (rest : List XmlEvent)
    (hn : WfOpt (fun s : String => s ≠ "") pn)
    (herun : ∀ (fuel : Nat) (acc : Person) (r : List XmlEvent),
      personLoop (fuel + optSteps pe) key acc (eevs ++ r)
        = personLoop fuel key { acc with email := pe.elim acc.email some } r)
    (hl : WfOpt WfLink pl)
    (hfuel : personSteps ⟨pn, pe, pl⟩ + 1 ≤ fuel) :
    personLoop fuel key Person.default
        (writeStringIfExists "name" pn ++ (eevs ++ (writeLinkIfExists pl
          ++ (.endElement key :: rest))))
      = .ok (⟨pn, pe, pl⟩, rest) := by
  obtain ⟨k, hk⟩ : ∃ k, fuel = (k + 1) + personSteps ⟨pn, pe, pl⟩ :=
    ⟨fuel - 1 - personSteps ⟨pn, pe, pl⟩, by omega⟩
  subst hk
  simp only [personSteps]
  simp only [← Nat.add_assoc]
  rw [plLoop_name _ key _ pn _ hn]
  rw [herun]
  rw [plLoop_link _ key _ pl _ hl]
  rw [personLoop_end k key _ rest]
  simp only [Person.default, optElim_self]

theorem personChunk (key : String) (p : Person) (hp : WfPerson p) :
    ∃ tail, writePersonIfExists key (some p) = .ok (.startElement key [] :: tail)
      ∧ ∀ rest : List XmlEvent,
        personConsume key (.startElement key [] :: (tail ++ rest)) = .ok (p, rest) := by
  obtain ⟨pn, pe, pl⟩ := p
  obtain ⟨hn, he, hl⟩ := hp
  obtain ⟨eevs, heevs, helen, herun⟩ := plLoop_email key pe he
  refine ⟨writeStringIfExists "name" pn ++ (eevs ++ (writeLinkIfExists pl
    ++ [.endElement key])), ?_, ?_⟩
  · rw [show writePersonIfExists key (some ⟨pn, pe, pl⟩)
        = (writeEmailIfExists pe >>= fun ev => Except.ok
          ([.startElement key []] ++ writeStringIfExists "name" pn ++ ev
            ++ writeLinkIfExists pl ++ [.endElement key])) from rfl]
    rw [heevs, ok_bind]
    simp [List.append_assoc]
  · intro rest
    have hnorm : (writeStringIfExists "name" pn ++ (eevs ++ (writeLinkIfExists pl
        ++ [.endElement key]))) ++ rest
        = writeStringIfExists "name" pn ++ (eevs ++ (writeLinkIfExists pl
          ++ (.endElement key :: rest))) := by
      simp [List.append_assoc]
    rw [personConsume_entry key []]
    rw [hnorm]
    apply personLoop_run key pn pe pl eevs _ rest hn herun hl
    simp only [personSteps, List.length_append, List.length_cons]
    have b1 := optSteps_le_writeString "name" pn
    have b2 := helen
    have b3 := optSteps_le_writeLinkOpt pl
    omega

/-! ## Metadata round-trip -/

theorem mdLoop_name (fuel : Nat) (acc : Metadata) (o : Option String)
    (rest : List XmlEvent) (ho : WfOpt (fun s : String => s ≠ "") o) :
    metadataLoop (fuel + optSteps o) acc (writeStringIfExists "name" o ++ rest)
      = metadataLoop fuel { acc with name := o.elim acc.name some } rest := by
  cases o with
  | none => rfl
  | some s =>
    show metadataLoop (fuel + 1) acc (.startElement "name" [] :: .characters s
      :: .endElement "name" :: rest) = _
    rw [metadataLoop_name fuel acc [] s rest ho]
    rfl

theorem mdLoop_desc (fuel : Nat) (acc : Metadata) (o : Option String)
    (rest : List XmlEvent) (ho : WfOpt (fun s : String => s ≠ "") o) :
    metadataLoop (fuel + optSteps o) acc (writeStringIfExists "desc" o ++ rest)
      = metadataLoop fuel { acc with description := o.elim acc.description some } rest := by
  cases o with
  | none => rfl
  | some s =>
    show metadataLoop (fuel + 1) acc (.startElement "desc" [] :: .characters s
      :: .endElement "desc" :: rest) = _
    rw [metadataLoop_desc fuel acc [] s rest ho]
    rfl

theorem mdLoop_keywords (fuel : Nat) (acc : Metadata) (o : Option String)
    (rest : List XmlEvent) (ho : WfOpt (fun s : String => s ≠ "") o) :
    metadataLoop (fuel + optSteps o) acc (writeStringIfExists "keywords" o ++ rest)
      = metadataLoop fuel { acc with keywords := o.elim acc.keywords some } rest := by
  cases o with
  | none => rfl
  | some s =>
    show metadataLoop (fuel + 1) acc (.startElement "keywords" [] :: .characters s
      :: .endElement "keywords" :: rest) = _
    rw [metadataLoop_keywords fuel acc [] s rest ho]
    rfl

theorem mdLoop_time (fuel : Nat) (acc : Metadata) (o : Option Time)
    (rest : List XmlEvent) :
    metadataLoop (fuel + optSteps o) acc (writeTimeIfExists o ++ rest)
      = metadataLoop fuel { acc with time := o.elim acc.time some } rest := by
  cases o with
  | none => rfl
  | some t =>
    show metadataLoop (fuel + 1) acc (.startElement "time" []
      :: .characters (timeFormat t) :: .endElement "time" :: rest) = _
    rw [metadataLoop_time fuel acc [] (timeFormat t) t rest (timeFormat_ne_empty t)
      (timeParse_timeFormat t)]
    rfl

theorem mdLoop_bounds (fuel : Nat) (acc : Metadata) (o : Option Rect)
    (rest : List XmlEvent) (ho : WfOpt WfRect o) :
    metadataLoop (fuel + optSteps o) acc (writeBoundsIfExists o ++ rest)
      = metadataLoop fuel { acc with bounds := o.elim acc.bounds some } rest := by
  cases o with
  | none => rfl
  | some r =>
    obtain ⟨hq1, hq2, hq3, hq4, hle1, hle2⟩ := ho
    show metadataLoop (fuel + 1) acc (.startElement "bounds"
      [⟨"minlat", printFloat r.min.y⟩, ⟨"maxlat", printFloat r.max.y⟩,
       ⟨"minlon", printFloat r.min.x⟩, ⟨"maxlon", printFloat r.max.x⟩]
      :: .endElement "bounds" :: rest) = _
    rw [metadataLoop_bounds fuel acc _ _ rest r
      (boundsConsume_ok [⟨"minlat", printFloat r.min.y⟩, ⟨"maxlat", printFloat r.max.y⟩,
        ⟨"minlon", printFloat r.min.x⟩, ⟨"maxlon", printFloat r.max.x⟩]
        rest ⟨"minlat", printFloat r.min.y⟩
        ⟨"maxlat", printFloat r.max.y⟩ ⟨"minlon", printFloat r.min.x⟩
        ⟨"maxlon", printFloat r.max.x⟩ r.min.y r.max.y r.min.x r.max.x
        rfl rfl (parseFloat_printFloat r.min.y hq2) (parseFloat_printFloat r.max.y hq4)
        rfl rfl (parseFloat_printFloat r.min.x hq1) (parseFloat_printFloat r.max.x hq3)
        (not_lt.mpr hle1) (not_lt.mpr hle2))]
    rfl

theorem mdLoop_author (o : Option Person) (ho : WfOpt WfPerson o) :
    ∃ evs, writePersonIfExists "author" o = .ok evs ∧ optSteps o ≤ evs.length
      ∧ ∀ (fuel : Nat) (acc : Metadata) (rest : List XmlEvent),
        metadataLoop (fuel + optSteps o) acc (evs ++ rest)
          = metadataLoop fuel { acc with author := o.elim acc.author some } rest := by
  cases o with
  | none => exact ⟨[], rfl, Nat.le_refl 0, fun fuel acc rest => rfl⟩
  | some p =>
    obtain ⟨tail, hw, hrun⟩ := personChunk "author" p ho
    refine ⟨.startElement "author" [] :: tail, hw,
      Nat.succ_le_succ (Nat.zero_le _), ?_⟩
    intro fuel acc rest
    show metadataLoop (fuel + 1) acc ((.startElement "author" [] :: tail) ++ rest) = _
    rw [List.cons_append]
    rw [metadataLoop_author fuel acc [] _ rest p (hrun rest)]
    rfl

theorem mdLoop_links :
    ∀ ls : List Link, (∀ l ∈ ls, WfLink l) →
      ∀ (fuel : Nat) (acc : Metadata) (rest : List XmlEvent),
      metadataLoop (fuel + ls.length) acc ((ls.map writeLink).flatten ++ rest)
        = metadataLoop fuel { acc with links := acc.links ++ ls } rest := by
  intro ls
  induction ls with
  | nil =>
    intro _ fuel acc rest
    simp only [List.map_nil, List.flatten_nil, List.nil_append, List.length_nil,
      Nat.add_zero, List.append_nil]
  | cons l t ih =>
    intro hls fuel acc rest
    simp only [List.map_cons, List.flatten_cons, List.length_cons, List.append_assoc]
    have hstep : linkConsume (.startElement "link" [⟨"href", l.href⟩]
        :: (writeStringIfExists "text" l.text ++ (writeStringIfExists "type" l._type
          ++ (.endElement "link" :: ((t.map writeLink).flatten ++ rest)))))
        = .ok (l, (t.map writeLink).flatten ++ rest) := by
      rw [← writeLink_append]
      exact linkConsume_inv l _ (hls l (List.mem_cons_self l t))
    rw [show fuel + (t.length + 1) = (fuel + t.length) + 1 from rfl]
    rw [writeLink_append]
    rw [metadataLoop_link _ _ _ _ _ _ hstep]
    rw [ih (fun x hx => hls x (List.mem_cons_of_mem l hx)) fuel _ rest]
    simp only [List.append_assoc, List.singleton_append]

theorem metadataLoop_run (nm dsc : Option String) (au : Option Person)
    (aevs : List XmlEvent) (kw : Option String) (tm : Option Time) (lks : List Link)
    (bnd : Option Rect) (fuel : Nat) (rest : List XmlEvent)
    (hnm : WfOpt (fun s : String => s ≠ "") nm)
    (hdsc : WfOpt (fun s : String => s ≠ "") dsc)
    (harun : ∀ (fuel : Nat) (acc : Metadata) (r : List XmlEvent),
      metadataLoop (fuel + optSteps au) acc (aevs ++ r)
        = metadataLoop fuel { acc with author := au.elim acc.author some } r)
    (hkw : WfOpt (fun s : String => s ≠ "") kw)
    (hlks : ∀ l ∈ lks, WfLink l) (hbnd : WfOpt WfRect bnd)
    (hfuel : mdSteps ⟨nm, dsc, au, lks, tm, kw, none, bnd⟩ + 1 ≤ fuel) :
    metadataLoop fuel Metadata.default
        (writeStringIfExists "name" nm ++ (writeStringIfExists "desc" dsc
          ++ (aevs ++ (writeStringIfExists "keywords" kw ++ (writeTimeIfExists tm
          ++ ((lks.map writeLink).flatten ++ (writeBoundsIfExists bnd
          ++ (.endElement "metadata" :: rest))))))))
      = .ok (⟨nm, dsc, au, lks, tm, kw, none, bnd⟩, rest) := by
  obtain ⟨k, hk⟩ : ∃ k, fuel = (k + 1) + mdSteps ⟨nm, dsc, au, lks, tm, kw, none, bnd⟩ :=
    ⟨fuel - 1 - mdSteps ⟨nm, dsc, au, lks, tm, kw, none, bnd⟩, by omega⟩
  subst hk
  simp only [mdSteps]
  simp only [← Nat.add_assoc]
  rw [mdLoop_name _ _ nm _ hnm]
  rw [mdLoop_desc _ _ dsc _ hdsc]
  rw [harun]
  rw [mdLoop_keywords _ _ kw _ hkw]
  rw [mdLoop_time _ _ tm _]
  rw [mdLoop_links lks hlks]
  rw [mdLoop_bounds _ _ bnd _ hbnd]
  rw [metadataLoop_end k _ rest]
  simp only [Metadata.default, optElim_self, List.nil_append]

theorem mdChunk (m : Metadata) (hm : WfMetadata m) :
    ∃ tail, writeGpx11Metadata (some m) = .ok (.startElement "metadata" [] :: tail)
      ∧ ∀ rest : List XmlEvent,
        metadataConsume (.startElement "metadata" [] :: (tail ++ rest)) = .ok (m, rest) := by
  obtain ⟨nm, dsc, au, lks, tm, kw, cp, bnd⟩ := m
  obtain ⟨hnm, hdsc, hau, hlks, hkw, hcp, hbnd⟩ := hm
  have hcp2 : cp = none := hcp
  subst hcp2
  obtain ⟨aevs, haw, halen, harun⟩ := mdLoop_author au hau
  refine ⟨writeStringIfExists "name" nm ++ (writeStringIfExists "desc" dsc
    ++ (aevs ++ (writeStringIfExists "keywords" kw ++ (writeTimeIfExists tm
    ++ ((lks.map writeLink).flatten ++ (writeBoundsIfExists bnd
    ++ [.endElement "metadata"])))))), ?_, ?_⟩
  · rw [show writeGpx11Metadata (some ⟨nm, dsc, au, lks, tm, kw, none, bnd⟩)
        = (writePersonIfExists "author" au >>= fun pv => Except.ok
          ([.startElement "metadata" []] ++ writeStringIfExists "name" nm
            ++ writeStringIfExists "desc" dsc ++ pv ++ writeStringIfExists "keywords" kw
            ++ writeTimeIfExists tm ++ (lks.map writeLink).flatten
            ++ writeBoundsIfExists bnd ++ [.endElement "metadata"])) from rfl]
    rw [haw, ok_bind]
    simp [List.append_assoc]
  · intro rest
    rw [metadataConsume_entry []]
    have hnorm : (writeStringIfExists "name" nm ++ (writeStringIfExists "desc" dsc
        ++ (aevs ++ (writeStringIfExists "keywords" kw ++ (writeTimeIfExists tm
        ++ ((lks.map writeLink).flatten ++ (writeBoundsIfExists bnd
        ++ [.endElement "metadata"]))))))) ++ rest
        = writeStringIfExists "name" nm ++ (writeStringIfExists "desc" dsc
          ++ (aevs ++ (writeStringIfExists "keywords" kw ++ (writeTimeIfExists tm
          ++ ((lks.map writeLink).flatten ++ (writeBoundsIfExists bnd
          ++ (.endElement "metadata" :: rest))))))) := by
      simp [List.append_assoc]
    rw [hnorm]
    apply metadataLoop_run nm dsc au aevs kw tm lks bnd _ rest hnm hdsc harun hkw
      hlks hbnd
    simp only [mdSteps, List.length_append, List.length_cons]
    have b1 := optSteps_le_writeString "name" nm
    have b2 := optSteps_le_writeString "desc" dsc
    have b3 := halen
    have b4 := optSteps_le_writeString "keywords" kw
    have b5 := optSteps_le_writeTime tm
    have b6 := length_le_flatten writeLink one_le_writeLink lks
    have b7 := optSteps_le_writeBounds bnd
    omega

/-! ## Track-segment round-trip -/

theorem segLoop_end (fuel : Nat) (v : GpxVersion) (acc : TrackSegment)
    (rest : List XmlEvent) :
    trackSegmentLoop (fuel + 1) v acc (.endElement "trkseg" :: rest) = .ok (acc, rest) := by
  rw [trackSegmentLoop]
  simp

theorem segLoop_point_step (fuel : Nat) (v : GpxVersion) (acc : TrackSegment)
    (attrs : List Attr) (tail rest : List XmlEvent) (w : Waypoint)
    (h : waypointConsume v "trkpt" (.startElement "trkpt" attrs :: tail) = .ok (w, rest)) :
    trackSegmentLoop (fuel + 1) v acc (.startElement "trkpt" attrs :: tail)
      = trackSegmentLoop fuel v ⟨acc.points ++ [w]⟩ rest := by
  rw [trackSegmentLoop]
  simp only [String.reduceEq, reduceIte, if_pos rfl, h]

theorem segLoop_points (v : GpxVersion) :
    ∀ ws : List Waypoint, (∀ w ∈ ws, WfWaypoint w) →
      ∀ (fuel : Nat) (acc : TrackSegment) (rest : List XmlEvent),
      trackSegmentLoop (fuel + ws.length) v acc
          ((ws.map (writeWaypoint "trkpt")).flatten ++ rest)
        = trackSegmentLoop fuel v ⟨acc.points ++ ws⟩ rest := by
  intro ws
  induction ws with
  | nil =>
    intro _ fuel acc rest
    simp only [List.map_nil, List.flatten_nil, List.nil_append, List.length_nil,
      Nat.add_zero, List.append_nil]
  | cons w t ih =>
    intro hws fuel acc rest
    simp only [List.map_cons, List.flatten_cons, List.length_cons, List.append_assoc]
    have hstep := waypointConsume_inv v "trkpt" w
      ((t.map (writeWaypoint "trkpt")).flatten ++ rest) (hws w (List.mem_cons_self w t))
    rw [writeWaypoint_append] at hstep
    rw [show fuel + (t.length + 1) = (fuel + t.length) + 1 from rfl]
    rw [writeWaypoint_append]
    rw [segLoop_point_step _ _ _ _ _ _ _ hstep]
    rw [ih (fun x hx => hws x (List.mem_cons_of_mem w hx)) fuel _ rest]
    simp only [List.append_assoc, List.singleton_append]

theorem writeTrackSegment_append (s : TrackSegment) (rest : List XmlEvent) :
    writeTrackSegment s ++ rest
      = .startElement "trkseg" [] :: ((s.points.map (writeWaypoint "trkpt")).flatten
        ++ (.endElement "trkseg" :: rest)) := by
  simp [writeTrackSegment, List.append_assoc]

theorem one_le_writeTrackSegment (s : TrackSegment) :
    1 ≤ (writeTrackSegment s).length := by
  simp [writeTrackSegment]

theorem trackSegmentConsume_inv (v : GpxVersion) (s : TrackSegment)
    (rest : List XmlEvent) (hs : ∀ w ∈ s.points, WfWaypoint w) :
    trackSegmentConsume v (writeTrackSegment s ++ rest) = .ok (s, rest) := by
  obtain ⟨ws⟩ := s
  rw [writeTrackSegment_append]
  unfold trackSegmentConsume
  rw [verifyStartingTag_cons]
  simp only [ok_bind]
  obtain ⟨k, hk⟩ : ∃ k, ((ws.map (writeWaypoint "trkpt")).flatten
      ++ (.endElement "trkseg" :: rest)).length + 1 = (k + 1) + ws.length := by
    refine ⟨((ws.map (writeWaypoint "trkpt")).flatten
      ++ (.endElement "trkseg" :: rest)).length - ws.length, ?_⟩
    have := length_le_flatten (writeWaypoint "trkpt") (one_le_writeWaypoint "trkpt") ws
    simp only [List.length_append, List.length_cons]
    omega
  rw [hk]
  rw [segLoop_points v ws hs (k + 1) ⟨[]⟩ (.endElement "trkseg" :: rest)]
  rw [segLoop_end k v _ rest]
  rfl

/-! ## Track round-trip -/

theorem trackLoop_end (fuel : Nat) (v : GpxVersion) (acc : Track)
    (rest : List XmlEvent) :
    trackLoop (fuel + 1) v acc (.endElement "trk" :: rest) = .ok (acc, rest) := by
  rw [trackLoop]
  simp

theorem tlLoop_name (fuel : Nat) (v : GpxVersion) (acc : Track) (o : Option String)
    (rest : List XmlEvent) (ho : WfOpt (fun s : String => s ≠ "") o) :
    trackLoop (fuel + optSteps o) v acc (writeStringIfExists "name" o ++ rest)
      = trackLoop fuel v { acc with name := o.elim acc.name some } rest := by
  cases o with
  | none => rfl
  | some s =>
    show trackLoop (fuel + 1) v acc (.startElement "name" [] :: .characters s
      :: .endElement "name" :: rest) = _
    rw [trackLoop]
    simp only [String.reduceEq, reduceIte, if_pos rfl,
      stringConsume_chunk "name" false [] s rest (Or.inr ho)]
    rfl

theorem tlLoop_cmt (fuel : Nat) (v : GpxVersion) (acc : Track) (o : Option String)
    (rest : List XmlEvent) (ho : WfOpt (fun s : String => s ≠ "") o) :
    trackLoop (fuel + optSteps o) v acc (writeStringIfExists "cmt" o ++ rest)
      = trackLoop fuel v { acc with comment := o.elim acc.comment some } rest := by
  cases o with
  | none => rfl
  | some s =>
    show trackLoop (fuel + 1) v acc (.startElement "cmt" [] :: .characters s
      :: .endElement "cmt" :: rest) = _
    rw [trackLoop]
    simp only [String.reduceEq, reduceIte, if_pos rfl,
      stringConsume_chunk "cmt" false [] s rest (Or.inr ho)]
    rfl

theorem tlLoop_desc (fuel : Nat) (v : GpxVersion) (acc : Track) (o : Option String)
    (rest : List XmlEvent) (ho : WfOpt (fun s : String => s ≠ "") o) :
    trackLoop (fuel + optSteps o) v acc (writeStringIfExists "desc" o ++ rest)
      = trackLoop fuel v { acc with description := o.elim acc.description some } rest := by
  cases o with
  | none => rfl
  | some s =>
    show trackLoop (fuel + 1) v acc (.startElement "desc" [] :: .characters s
      :: .endElement "desc" :: rest) = _
    rw [trackLoop]
    simp only [String.reduceEq, reduceIte, if_pos rfl,
      stringConsume_chunk "desc" false [] s rest (Or.inr ho)]
    rfl

theorem tlLoop_src (fuel : Nat) (v : GpxVersion) (acc : Track) (o : Option String)
    (rest : List XmlEvent) (ho : WfOpt (fun s : String => s ≠ "") o) :
    trackLoop (fuel + optSteps o) v acc (writeStringIfExists "src" o ++ rest)
      = trackLoop fuel v { acc with source := o.elim acc.source some } rest := by
  cases o with
  | none => rfl
  | some s =>
    show trackLoop (fuel + 1) v acc (.startElement "src" [] :: .characters s
      :: .endElement "src" :: rest) = _
    rw [trackLoop]
    simp only [String.reduceEq, reduceIte, if_pos rfl,
      stringConsume_chunk "src" false [] s rest (Or.inr ho)]
    rfl

theorem tlLoop_type (fuel : Nat) (v : GpxVersion) (acc : Track) (o : Option String)
    (rest : List XmlEvent) (ho : WfOpt (fun s : String => s ≠ "") o) :
    trackLoop (fuel + optSteps o) v acc (writeStringIfExists "type" o ++ rest)
      = trackLoop fuel v { acc with _type := o.elim acc._type some } rest := by
  cases o with
  | none => rfl
  | some s =>
    show trackLoop (fuel + 1) v acc (.startElement "type" [] :: .characters s
      :: .endElement "type" :: rest) = _
    rw [trackLoop]
    simp only [String.reduceEq, reduceIte, if_pos rfl,
      stringConsume_chunk "type" false [] s rest (Or.inr ho)]
    rfl

theorem tlLoop_link_step (fuel : Nat) (v : GpxVersion) (acc : Track)
    (attrs : List Attr) (tail rest : List XmlEvent) (l : Link)
    (h : linkConsume (.startElement "link" attrs :: tail) = .ok (l, rest)) :
    trackLoop (fuel + 1) v acc (.startElement "link" attrs :: tail)
      = trackLoop fuel v { acc with links := acc.links ++ [l] } rest := by
  rw [trackLoop]
  simp only [String.reduceEq, reduceIte, if_pos rfl, h]

theorem tlLoop_links (v : GpxVersion) :
    ∀ ls : List Link, (∀ l ∈ ls, WfLink l) →
      ∀ (fuel : Nat) (acc : Track) (rest : List XmlEvent),
      trackLoop (fuel + ls.length) v acc ((ls.map writeLink).flatten ++ rest)
        = trackLoop fuel v { acc with links := acc.links ++ ls } rest := by
  intro ls
  induction ls with
  | nil =>
    intro _ fuel acc rest
    simp only [List.map_nil, List.flatten_nil, List.nil_append, List.length_nil,
      Nat.add_zero, List.append_nil]
  | cons l t ih =>
    intro hls fuel acc rest
    simp only [List.map_cons, List.flatten_cons, List.length_cons, List.append_assoc]
    have hstep : linkConsume (.startElement "link" [⟨"href", l.href⟩]
        :: (writeStringIfExists "text" l.text ++ (writeStringIfExists "type" l._type
          ++ (.endElement "link" :: ((t.map writeLink).flatten ++ rest)))))
        = .ok (l, (t.map writeLink).flatten ++ rest) := by
      rw [← writeLink_append]
      exact linkConsume_inv l _ (hls l (List.mem_cons_self l t))
    rw [show fuel + (t.length + 1) = (fuel + t.length) + 1 from rfl]
    rw [writeLink_append]
    rw [tlLoop_link_step _ _ _ _ _ _ _ hstep]
    rw [ih (fun x hx => hls x (List.mem_cons_of_mem l hx)) fuel _ rest]
    simp only [List.append_assoc, List.singleton_append]

theorem tlLoop_seg_step (fuel : Nat) (v : GpxVersion) (acc : Track)
    (attrs : List Attr) (tail rest : List XmlEvent) (sg : TrackSegment)
    (h : trackSegmentConsume v (.startElement "trkseg" attrs :: tail) = .ok (sg, rest)) :
    trackLoop (fuel + 1) v acc (.startElement "trkseg" attrs :: tail)
      = trackLoop fuel v { acc with segments := acc.segments ++ [sg] } rest := by
  rw [trackLoop]
  simp only [String.reduceEq, reduceIte, if_pos rfl, h]

theorem tlLoop_segs (v : GpxVersion) :
    ∀ sgs : List TrackSegment, (∀ sg ∈ sgs, ∀ w ∈ sg.points, WfWaypoint w) →
      ∀ (fuel : Nat) (acc : Track) (rest : List XmlEvent),
      trackLoop (fuel + sgs.length) v acc ((sgs.map writeTrackSegment).flatten ++ rest)
        = trackLoop fuel v { acc with segments := acc.segments ++ sgs } rest := by
  intro sgs
  induction sgs with
  | nil =>
    intro _ fuel acc rest
    simp only [List.map_nil, List.flatten_nil, List.nil_append, List.length_nil,
      Nat.add_zero, List.append_nil]
  | cons sg t ih =>
    intro hsgs fuel acc rest
    simp only [List.map_cons, List.flatten_cons, List.length_cons, List.append_assoc]
    have hstep := trackSegmentConsume_inv v sg
      ((t.map writeTrackSegment).flatten ++ rest) (hsgs sg (List.mem_cons_self sg t))
    rw [writeTrackSegment_append] at hstep
    rw [show fuel + (t.length + 1) = (fuel + t.length) + 1 from rfl]
    rw [writeTrackSegment_append]
    rw [tlLoop_seg_step _ _ _ _ _ _ _ hstep]
    rw [ih (fun x hx => hsgs x (List.mem_cons_of_mem sg hx)) fuel _ rest]
    simp only [List.append_assoc, List.singleton_append]

theorem trackLoop_run (v : GpxVersion) (nm cm dsc src : Option String)
    (lks : List Link) (typ : Option String) (sgs : List TrackSegment)
    (fuel : Nat) (rest : List XmlEvent)
    (hnm : WfOpt (fun s : String => s ≠ "") nm)
    (hcm : WfOpt (fun s : String => s ≠ "") cm)
    (hdsc : WfOpt (fun s : String => s ≠ "") dsc)
    (hsrc : WfOpt (fun s : String => s ≠ "") src)
    (hlks : ∀ l ∈ lks, WfLink l)
    (htyp : WfOpt (fun s : String => s ≠ "") typ)
    (hsgs : ∀ sg ∈ sgs, ∀ w ∈ sg.points, WfWaypoint w)
    (hfuel : trackSteps ⟨nm, cm, dsc, src, lks, typ, sgs⟩ + 1 ≤ fuel) :
    trackLoop fuel v Track.default
        (writeStringIfExists "name" nm ++ (writeStringIfExists "cmt" cm
          ++ (writeStringIfExists "desc" dsc ++ (writeStringIfExists "src" src
          ++ ((lks.map writeLink).flatten ++ (writeStringIfExists "type" typ
          ++ ((sgs.map writeTrackSegment).flatten
          ++ (.endElement "trk" :: rest))))))))
      = .ok (⟨nm, cm, dsc, src, lks, typ, sgs⟩, rest) := by
  obtain ⟨k, hk⟩ : ∃ k, fuel = (k + 1) + trackSteps ⟨nm, cm, dsc, src, lks, typ, sgs⟩ :=
    ⟨fuel - 1 - trackSteps ⟨nm, cm, dsc, src, lks, typ, sgs⟩, by omega⟩
  subst hk
  simp only [trackSteps]
  simp only [← Nat.add_assoc]
  rw [tlLoop_name _ v _ nm _ hnm]
  rw [tlLoop_cmt _ v _ cm _ hcm]
  rw [tlLoop_desc _ v _ dsc _ hdsc]
  rw [tlLoop_src _ v _ src _ hsrc]
  rw [tlLoop_links v lks hlks]
  rw [tlLoop_type _ v _ typ _ htyp]
  rw [tlLoop_segs v sgs hsgs]
  rw [trackLoop_end k v _ rest]
  simp only [Track.default, optElim_self, List.nil_append]

theorem one_le_writeTrack (t : Track) : 1 ≤ (writeTrack t).length := by
  simp [writeTrack]

theorem writeTrack_append (t : Track) (rest : List XmlEvent) :
    writeTrack t ++ rest
      = .startElement "trk" [] :: (writeStringIfExists "name" t.name
        ++ (writeStringIfExists "cmt" t.comment
        ++ (writeStringIfExists "desc" t.description
        ++ (writeStringIfExists "src" t.source ++ ((t.links.map writeLink).flatten
        ++ (writeStringIfExists "type" t._type ++ ((t.segments.map writeTrackSegment).flatten
        ++ (.endElement "trk" :: rest)))))))) := by
  simp [writeTrack, List.append_assoc]

theorem trackConsume_inv (v : GpxVersion) (t : Track) (rest : List XmlEvent)
    (ht : WfTrack t) :
    trackConsume v (writeTrack t ++ rest) = .ok (t, rest) := by
  obtain ⟨nm, cm, dsc, src, lks, typ, sgs⟩ := t
  obtain ⟨hnm, hcm, hdsc, hsrc, hlks, htyp, hsgs⟩ := ht
  rw [writeTrack_append]
  unfold trackConsume
  rw [verifyStartingTag_cons]
  simp only [ok_bind]
  apply trackLoop_run v nm cm dsc src lks typ sgs _ rest hnm hcm hdsc hsrc hlks htyp hsgs
  simp only [trackSteps, List.length_append, List.length_cons]
  have b1 := optSteps_le_writeString "name" nm
  have b2 := optSteps_le_writeString "cmt" cm
  have b3 := optSteps_le_writeString "desc" dsc
  have b4 := optSteps_le_writeString "src" src
  have b5 := length_le_flatten writeLink one_le_writeLink lks
  have b6 := optSteps_le_writeString "type" typ
  have b7 := length_le_flatten writeTrackSegment one_le_writeTrackSegment sgs
  omega

/-! ## Route round-trip -/

theorem routeLoop_end (fuel : Nat) (v : GpxVersion) (acc : Route)
    (rest : List XmlEvent) :
    routeLoop (fuel + 1) v acc (.endElement "rte" :: rest) = .ok (acc, rest) := by
  rw [routeLoop]
  simp

theorem rlLoop_name (fuel : Nat) (v : GpxVersion) (acc : Route) (o : Option String)
    (rest : List XmlEvent) (ho : WfOpt (fun s : String => s ≠ "") o) :
    routeLoop (fuel + optSteps o) v acc (writeStringIfExists "name" o ++ rest)
      = routeLoop fuel v { acc with name := o.elim acc.name some } rest := by
  cases o with
  | none => rfl
  | some s =>
    show routeLoop (fuel + 1) v acc (.startElement "name" [] :: .characters s
      :: .endElement "name" :: rest) = _
    rw [routeLoop]
    simp only [String.reduceEq, reduceIte, if_pos rfl,
      stringConsume_chunk "name" false [] s rest (Or.inr ho)]
    rfl

theorem rlLoop_cmt (fuel : Nat) (v : GpxVersion) (acc : Route) (o : Option String)
    (rest : List XmlEvent) :
    routeLoop (fuel + optSteps o) v acc (writeStringIfExists "cmt" o ++ rest)
      = routeLoop fuel v { acc with comment := o.elim acc.comment some } rest := by
  cases o with
  | none => rfl
  | some s =>
    show routeLoop (fuel + 1) v acc (.startElement "cmt" [] :: .characters s
      :: .endElement "cmt" :: rest) = _
    rw [routeLoop]
    simp only [String.reduceEq, reduceIte, if_pos rfl,
      stringConsume_chunk "cmt" true [] s rest (Or.inl rfl)]
    rfl

theorem rlLoop_desc (fuel : Nat) (v : GpxVersion) (acc : Route) (o : Option String)
    (rest : List XmlEvent) :
    routeLoop (fuel + optSteps o) v acc (writeStringIfExists "desc" o ++ rest)
      = routeLoop fuel v { acc with description := o.elim acc.description some } rest := by
  cases o with
  | none => rfl
  | some s =>
    show routeLoop (fuel + 1) v acc (.startElement "desc" [] :: .characters s
      :: .endElement "desc" :: rest) = _
    rw [routeLoop]
    simp only [String.reduceEq, reduceIte, if_pos rfl,
      stringConsume_chunk "desc" true [] s rest (Or.inl rfl)]
    rfl

theorem rlLoop_src (fuel : Nat) (v : GpxVersion) (acc : Route) (o : Option String)
    (rest : List XmlEvent) :
    routeLoop (fuel + optSteps o) v acc (writeStringIfExists "src" o ++ rest)
      = routeLoop fuel v { acc with source := o.elim acc.source some } rest := by
  cases o with
  | none => rfl
  | some s =>
    show routeLoop (fuel + 1) v acc (.startElement "src" [] :: .characters s
      :: .endElement "src" :: rest) = _
    rw [routeLoop]
    simp only [String.reduceEq, reduceIte, if_pos rfl,
      stringConsume_chunk "src" true [] s rest (Or.inl rfl)]
    rfl

theorem rlLoop_number (fuel : Nat) (v : GpxVersion) (acc : Route) (o : Option Nat)
    (rest : List XmlEvent) (ho : WfOpt (fun n => n ≤ u32Max) o) :
    routeLoop (fuel + optSteps o) v acc (writeNatIfExists "number" o ++ rest)
      = routeLoop fuel v { acc with number := o.elim acc.number some } rest := by
  cases o with
  | none => rfl
  | some n =>
    show routeLoop (fuel + 1) v acc (.startElement "number" []
      :: .characters (printNat n) :: .endElement "number" :: rest) = _
    rw [routeLoop]
    simp only [String.reduceEq, reduceIte, if_pos rfl,
      natChild_chunk "number" u32Max [] n rest ho]
    rfl

theorem rlLoop_type (fuel : Nat) (v : GpxVersion) (acc : Route) (o : Option String)
    (rest : List XmlEvent) (ho : WfOpt (fun s : String => s ≠ "") o) :
    routeLoop (fuel + optSteps o) v acc (writeStringIfExists "type" o ++ rest)
      = routeLoop fuel v { acc with _type := o.elim acc._type some } rest := by
  cases o with
  | none => rfl
  | some s =>
    show routeLoop (fuel + 1) v acc (.startElement "type" [] :: .characters s
      :: .endElement "type" :: rest) = _
    rw [routeLoop]
    simp only [String.reduceEq, reduceIte, if_pos rfl,
      stringConsume_chunk "type" false [] s rest (Or.inr ho)]
    rfl

theorem rlLoop_link_step (fuel : Nat) (v : GpxVersion) (acc : Route)
    (attrs : List Attr) (tail rest : List XmlEvent) (l : Link)
    (h : linkConsume (.startElement "link" attrs :: tail) = .ok (l, rest)) :
    routeLoop (fuel + 1) v acc (.startElement "link" attrs :: tail)
      = routeLoop fuel v { acc with links := acc.links ++ [l] } rest := by
  rw [routeLoop]
  simp only [String.reduceEq, reduceIte, if_pos rfl, h]

theorem rlLoop_links (v : GpxVersion) :
    ∀ ls : List Link, (∀ l ∈ ls, WfLink l) →
      ∀ (fuel : Nat) (acc : Route) (rest : List XmlEvent),
      routeLoop (fuel + ls.length) v acc ((ls.map writeLink).flatten ++ rest)
        = routeLoop fuel v { acc with links := acc.links ++ ls } rest := by
  intro ls
  induction ls with
  | nil =>
    intro _ fuel acc rest
    simp only [List.map_nil, List.flatten_nil, List.nil_append, List.length_nil,
      Nat.add_zero, List.append_nil]
  | cons l t ih =>
    intro hls fuel acc rest
    simp only [List.map_cons, List.flatten_cons, List.length_cons, List.append_assoc]
    have hstep : linkConsume (.startElement "link" [⟨"href", l.href⟩]
        :: (writeStringIfExists "text" l.text ++ (writeStringIfExists "type" l._type
          ++ (.endElement "link" :: ((t.map writeLink).flatten ++ rest)))))
        = .ok (l, (t.map writeLink).flatten ++ rest) := by
      rw [← writeLink_append]
      exact linkConsume_inv l _ (hls l (List.mem_cons_self l t))
    rw [show fuel + (t.length + 1) = (fuel + t.length) + 1 from rfl]
    rw [writeLink_append]
    rw [rlLoop_link_step _ _ _ _ _ _ _ hstep]
    rw [ih (fun x hx => hls x (List.mem_cons_of_mem l hx)) fuel _ rest]
    simp only [List.append_assoc, List.singleton_append]

theorem rlLoop_point_step (fuel : Nat) (v : GpxVersion) (acc : Route)
    (attrs : List Attr) (tail rest : List XmlEvent) (w : Waypoint)
    (h : waypointConsume v "rtept" (.startElement "rtept" attrs :: tail) = .ok (w, rest)) :
    routeLoop (fuel + 1) v acc (.startElement "rtept" attrs :: tail)
      = routeLoop fuel v { acc with points := acc.points ++ [w] } rest := by
  rw [routeLoop]
  simp only [String.reduceEq, reduceIte, if_pos rfl, h]

theorem rlLoop_points (v : GpxVersion) :
    ∀ ws : List Waypoint, (∀ w ∈ ws, WfWaypoint w) →
      ∀ (fuel : Nat) (acc : Route) (rest : List XmlEvent),
      routeLoop (fuel + ws.length) v acc
          ((ws.map (writeWaypoint "rtept")).flatten ++ rest)
        = routeLoop fuel v { acc with points := acc.points ++ ws } rest := by
  intro ws
  induction ws with
  | nil =>
    intro _ fuel acc rest
    simp only [List.map_nil, List.flatten_nil, List.nil_append, List.length_nil,
      Nat.add_zero, List.append_nil]
  | cons w t ih =>
    intro hws fuel acc rest
    simp only [List.map_cons, List.flatten_cons, List.length_cons, List.append_assoc]
    have hstep := waypointConsume_inv v "rtept" w
      ((t.map (writeWaypoint "rtept")).flatten ++ rest) (hws w (List.mem_cons_self w t))
    rw [writeWaypoint_append] at hstep
    rw [show fuel + (t.length + 1) = (fuel + t.length) + 1 from rfl]
    rw [writeWaypoint_append]
    rw [rlLoop_point_step _ _ _ _ _ _ _ hstep]
    rw [ih (fun x hx => hws x (List.mem_cons_of_mem w hx)) fuel _ rest]
    simp only [List.append_assoc, List.singleton_append]

theorem routeLoop_run (v : GpxVersion) (nm cm dsc src : Option String)
    (lks : List Link) (num : Option Nat) (typ : Option String) (ws : List Waypoint)
    (fuel : Nat) (rest : List XmlEvent)
    (hnm : WfOpt (fun s : String => s ≠ "") nm)
    (hlks : ∀ l ∈ lks, WfLink l)
    (hnum : WfOpt (fun n => n ≤ u32Max) num)
    (htyp : WfOpt (fun s : String => s ≠ "") typ)
    (hws : ∀ w ∈ ws, WfWaypoint w)
    (hfuel : routeSteps ⟨nm, cm, dsc, src, lks, num, typ, ws⟩ + 1 ≤ fuel) :
    routeLoop fuel v Route.default
        (writeStringIfExists "name" nm ++ (writeStringIfExists "cmt" cm
          ++ (writeStringIfExists "desc" dsc ++ (writeStringIfExists "src" src
          ++ ((lks.map writeLink).flatten ++ (writeNatIfExists "number" num
          ++ (writeStringIfExists "type" typ ++ ((ws.map (writeWaypoint "rtept")).flatten
          ++ (.endElement "rte" :: rest)))))))))
      = .ok (⟨nm, cm, dsc, src, lks, num, typ, ws⟩, rest) := by
  obtain ⟨k, hk⟩ : ∃ k, fuel
      = (k + 1) + routeSteps ⟨nm, cm, dsc, src, lks, num, typ, ws⟩ :=
    ⟨fuel - 1 - routeSteps ⟨nm, cm, dsc, src, lks, num, typ, ws⟩, by omega⟩
  subst hk
  simp only [routeSteps]
  simp only [← Nat.add_assoc]
  rw [rlLoop_name _ v _ nm _ hnm]
  rw [rlLoop_cmt _ v _ cm _]
  rw [rlLoop_desc _ v _ dsc _]
  rw [rlLoop_src _ v _ src _]
  rw [rlLoop_links v lks hlks]
  rw [rlLoop_number _ v _ num _ hnum]
  rw [rlLoop_type _ v _ typ _ htyp]
  rw [rlLoop_points v ws hws]
  rw [routeLoop_end k v _ rest]
  simp only [Route.default, optElim_self, List.nil_append]

theorem one_le_writeRoute (r : Route) : 1 ≤ (writeRoute r).length := by
  simp [writeRoute]

theorem writeRoute_append (r : Route) (rest : List XmlEvent) :
    writeRoute r ++ rest
      = .startElement "rte" [] :: (writeStringIfExists "name" r.name
        ++ (writeStringIfExists "cmt" r.comment
        ++ (writeStringIfExists "desc" r.description
        ++ (writeStringIfExists "src" r.source ++ ((r.links.map writeLink).flatten
        ++ (writeNatIfExists "number" r.number ++ (writeStringIfExists "type" r._type
        ++ ((r.points.map (writeWaypoint "rtept")).flatten
        ++ (.endElement "rte" :: rest))))))))) := by
  simp [writeRoute, List.append_assoc]

theorem routeConsume_inv (v : GpxVersion) (r : Route) (rest : List XmlEvent)
    (hr : WfRoute r) :
    routeConsume v (writeRoute r ++ rest) = .ok (r, rest) := by
  obtain ⟨nm, cm, dsc, src, lks, num, typ, ws⟩ := r
  obtain ⟨hnm, hlks, hnum, htyp, hws⟩ := hr
  rw [writeRoute_append]
  unfold routeConsume
  rw [verifyStartingTag_cons]
  simp only [ok_bind]
  apply routeLoop_run v nm cm dsc src lks num typ ws _ rest hnm hlks hnum htyp hws
  simp only [routeSteps, List.length_append, List.length_cons]
  have b1 := optSteps_le_writeString "name" nm
  have b2 := optSteps_le_writeString "cmt" cm
  have b3 := optSteps_le_writeString "desc" dsc
  have b4 := optSteps_le_writeString "src" src
  have b5 := length_le_flatten writeLink one_le_writeLink lks
  have b6 := optSteps_le_writeNat "number" num
  have b7 := optSteps_le_writeString "type" typ
  have b8 := length_le_flatten (writeWaypoint "rtept") (one_le_writeWaypoint "rtept") ws
  omega

/-! ## Document round-trip (GPX 1.1) -/

theorem glLoop_wpt_step (fuel : Nat) (g : Gpx) (scr : GpxScratch) (attrs : List Attr)
    (tail rest : List XmlEvent) (w : Waypoint)
    (h : waypointConsume g.version "wpt" (.startElement "wpt" attrs :: tail)
      = .ok (w, rest)) :
    gpxLoop (fuel + 1) g scr (.startElement "wpt" attrs :: tail)
      = gpxLoop fuel { g with waypoints := g.waypoints ++ [w] } scr rest := by
  rw [gpxLoop]
  simp only [String.reduceEq, false_and, reduceIte, if_pos rfl, h]

theorem glLoop_trk_step (fuel : Nat) (g : Gpx) (scr : GpxScratch) (attrs : List Attr)
    (tail rest : List XmlEvent) (t : Track)
    (h : trackConsume g.version (.startElement "trk" attrs :: tail) = .ok (t, rest)) :
    gpxLoop (fuel + 1) g scr (.startElement "trk" attrs :: tail)
      = gpxLoop fuel { g with tracks := g.tracks ++ [t] } scr rest := by
  rw [gpxLoop]
  simp only [String.reduceEq, false_and, reduceIte, if_pos rfl, h]

theorem glLoop_rte_step (fuel : Nat) (g : Gpx) (scr : GpxScratch) (attrs : List Attr)
    (tail rest : List XmlEvent) (r : Route)
    (h : routeConsume g.version (.startElement "rte" attrs :: tail) = .ok (r, rest)) :
    gpxLoop (fuel + 1) g scr (.startElement "rte" attrs :: tail)
      = gpxLoop fuel { g with routes := g.routes ++ [r] } scr rest := by
  rw [gpxLoop]
  simp only [String.reduceEq, false_and, reduceIte, if_pos rfl, h]

theorem glLoop_wpts :
    ∀ ws : List Waypoint, (∀ w ∈ ws, WfWaypoint w) →
      ∀ (fuel : Nat) (g : Gpx) (scr : GpxScratch) (rest : List XmlEvent),
      gpxLoop (fuel + ws.length) g scr ((ws.map (writeWaypoint "wpt")).flatten ++ rest)
        = gpxLoop fuel { g with waypoints := g.waypoints ++ ws } scr rest := by
  intro ws
  induction ws with
  | nil =>
    intro _ fuel g scr rest
    simp only [List.map_nil, List.flatten_nil, List.nil_append, List.length_nil,
      Nat.add_zero, List.append_nil]
  | cons w t ih =>
    intro hws fuel g scr rest
    simp only [List.map_cons, List.flatten_cons, List.length_cons, List.append_assoc]
    have hstep := waypointConsume_inv g.version "wpt" w
      ((t.map (writeWaypoint "wpt")).flatten ++ rest) (hws w (List.mem_cons_self w t))
    rw [writeWaypoint_append] at hstep
    rw [show fuel + (t.length + 1) = (fuel + t.length) + 1 from rfl]
    rw [writeWaypoint_append]
    rw [glLoop_wpt_step _ _ _ _ _ _ _ hstep]
    rw [ih (fun x hx => hws x (List.mem_cons_of_mem w hx)) fuel _ scr rest]
    simp only [List.append_assoc, List.singleton_append]

theorem glLoop_trks :
    ∀ ts : List Track, (∀ t ∈ ts, WfTrack t) →
      ∀ (fuel : Nat) (g : Gpx) (scr : GpxScratch) (rest : List XmlEvent),
      gpxLoop (fuel + ts.length) g scr ((ts.map writeTrack).flatten ++ rest)
        = gpxLoop fuel { g with tracks := g.tracks ++ ts } scr rest := by
  intro ts
  induction ts with
  | nil =>
    intro _ fuel g scr rest
    simp only [List.map_nil, List.flatten_nil, List.nil_append, List.length_nil,
      Nat.add_zero, List.append_nil]
  | cons t ts2 ih =>
    intro hts fuel g scr rest
    simp only [List.map_cons, List.flatten_cons, List.length_cons, List.append_assoc]
    have hstep := trackConsume_inv g.version t
      ((ts2.map writeTrack).flatten ++ rest) (hts t (List.mem_cons_self t ts2))
    rw [writeTrack_append] at hstep
    rw [show fuel + (ts2.length + 1) = (fuel + ts2.length) + 1 from rfl]
    rw [writeTrack_append]
    rw [glLoop_trk_step _ _ _ _ _ _ _ hstep]
    rw [ih (fun x hx => hts x (List.mem_cons_of_mem t hx)) fuel _ scr rest]
    simp only [List.append_assoc, List.singleton_append]

theorem glLoop_rtes :
    ∀ rs : List Route, (∀ r ∈ rs, WfRoute r) →
      ∀ (fuel : Nat) (g : Gpx) (scr : GpxScratch) (rest : List XmlEvent),
      gpxLoop (fuel + rs.length) g scr ((rs.map writeRoute).flatten ++ rest)
        = gpxLoop fuel { g with routes := g.routes ++ rs } scr rest := by
  intro rs
  induction rs with
  | nil =>
    intro _ fuel g scr rest
    simp only [List.map_nil, List.flatten_nil, List.nil_append, List.length_nil,
      Nat.add_zero, List.append_nil]
  | cons r rs2 ih =>
    intro hrs fuel g scr rest
    simp only [List.map_cons, List.flatten_cons, List.length_cons, List.append_assoc]
    have hstep := routeConsume_inv g.version r
      ((rs2.map writeRoute).flatten ++ rest) (hrs r (List.mem_cons_self r rs2))
    rw [writeRoute_append] at hstep
    rw [show fuel + (rs2.length + 1) = (fuel + rs2.length) + 1 from rfl]
    rw [writeRoute_append]
    rw [glLoop_rte_step _ _ _ _ _ _ _ hstep]
    rw [ih (fun x hx => hrs x (List.mem_cons_of_mem r hx)) fuel _ scr rest]
    simp only [List.append_assoc, List.singleton_append]

theorem glLoop_md (o : Option Metadata) (ho : WfOpt WfMetadata o) :
    ∃ evs, writeGpx11Metadata o = .ok evs ∧ optSteps o ≤ evs.length
      ∧ ∀ (fuel : Nat) (g : Gpx) (scr : GpxScratch) (rest : List XmlEvent),
        g.version ≠ .Gpx10 →
        gpxLoop (fuel + optSteps o) g scr (evs ++ rest)
          = gpxLoop fuel { g with metadata := o.elim g.metadata some } scr rest := by
  cases o with
  | none => exact ⟨[], rfl, Nat.le_refl 0, fun fuel g scr rest _ => rfl⟩
  | some m =>
    obtain ⟨tail, hw, hrun⟩ := mdChunk m ho
    refine ⟨.startElement "metadata" [] :: tail, hw,
      Nat.succ_le_succ (Nat.zero_le _), ?_⟩
    intro fuel g scr rest hv
    show gpxLoop (fuel + 1) g scr ((.startElement "metadata" [] :: tail) ++ rest) = _
    rw [List.cons_append]
    rw [gpxLoop_metadata fuel g scr [] _ rest m hv (hrun rest)]
    rfl

theorem gpxLoop_run (c : String) (md : Option Metadata) (mevs : List XmlEvent)
    (wps : List Waypoint) (trks : List Track) (rts : List Route)
    (fuel : Nat) (rest : List XmlEvent)
    (hmrun : ∀ (fuel : Nat) (g : Gpx) (scr : GpxScratch) (r : List XmlEvent),
      g.version ≠ .Gpx10 →
      gpxLoop (fuel + optSteps md) g scr (mevs ++ r)
        = gpxLoop fuel { g with metadata := md.elim g.metadata some } scr r)
    (hwps : ∀ w ∈ wps, WfWaypoint w) (htrks : ∀ t ∈ trks, WfTrack t)
    (hrts : ∀ r ∈ rts, WfRoute r)
    (hfuel : gpxSteps ⟨.Gpx11, some c, md, wps, trks, rts⟩ + 1 ≤ fuel) :
    gpxLoop fuel ⟨.Gpx11, some c, none, [], [], []⟩ GpxScratch.empty
        (mevs ++ ((wps.map (writeWaypoint "wpt")).flatten
          ++ ((trks.map writeTrack).flatten
          ++ ((rts.map writeRoute).flatten ++ (.endElement "gpx" :: rest)))))
      = .ok (⟨.Gpx11, some c, md, wps, trks, rts⟩, rest) := by
  obtain ⟨k, hk⟩ : ∃ k, fuel = (k + 1) + gpxSteps ⟨.Gpx11, some c, md, wps, trks, rts⟩ :=
    ⟨fuel - 1 - gpxSteps ⟨.Gpx11, some c, md, wps, trks, rts⟩, by omega⟩
  subst hk
  simp only [gpxSteps]
  simp only [← Nat.add_assoc]
  rw [hmrun _ ⟨.Gpx11, some c, none, [], [], []⟩ GpxScratch.empty _
    (by intro h; exact GpxVersion.noConfusion h)]
  rw [glLoop_wpts wps hwps]
  rw [glLoop_trks trks htrks]
  rw [glLoop_rtes rts hrts]
  rw [gpxLoop_end11 k _ _ rest rfl]
  simp only [optElim_self, List.nil_append]

theorem gpxConsume_entry11c (c : String) (tail : List XmlEvent) :
    gpxConsume (.startElement "gpx" [⟨"version", "1.1"⟩,
        ⟨"xmlns", "http://www.topografix.com/GPX/1/1"⟩, ⟨"creator", c⟩] :: tail)
      = gpxLoop (tail.length + 1) ⟨.Gpx11, some c, none, [], [], []⟩
          GpxScratch.empty tail := rfl

/-! ## Claim C1 -/

/-- C1, counterexample to the claim as stated: the parser produces a
document with `creator = none` from a creator-less GPX 1.1 root, but the
writer substitutes the default creator `https://github.com/georust/gpx`
for a missing one, so serialize-then-parse yields a document whose
`creator` field differs from the original — the round trip is not the
identity on all parser-producible documents. -/
theorem claim_C1_counterexample :
    gpxConsume [.startElement "gpx" [⟨"version", "1.1"⟩], .endElement "gpx"]
      = .ok (⟨.Gpx11, none, none, [], [], []⟩, [])
    ∧ writeGpx ⟨.Gpx11, none, none, [], [], []⟩
      = .ok [.startElement "gpx" [⟨"version", "1.1"⟩,
          ⟨"xmlns", "http://www.topografix.com/GPX/1/1"⟩,
          ⟨"creator", "https://github.com/georust/gpx"⟩], .endElement "gpx"]
    ∧ gpxConsume [.startElement "gpx" [⟨"version", "1.1"⟩,
          ⟨"xmlns", "http://www.topografix.com/GPX/1/1"⟩,
          ⟨"creator", "https://github.com/georust/gpx"⟩], .endElement "gpx"]
      = .ok (⟨.Gpx11, some "https://github.com/georust/gpx", none, [], [], []⟩, [])
    ∧ (⟨.Gpx11, some "https://github.com/georust/gpx", none, [], [], []⟩ : Gpx)
      ≠ ⟨.Gpx11, none, none, [], [], []⟩ := by
  refine ⟨rfl, rfl, rfl, by decide⟩

/-- C1 (amended): serialize-then-parse is the identity on well-formed
GPX 1.1 documents whose creator is set — for every document with version
1.1, a present creator, waypoints carrying no `speed` or deprecated
`age` (fields the writer never emits) and no `geoidheight` (emitted by
the writer but rejected by the waypoint consumer, which has no arm for
it, so parser-producible waypoints never carry it), non-empty text
fields wherever the consumers require content (route `cmt`/`desc`/`src`
are read with `allow_empty` and stay unconstrained),
decimal-representable rationals, coordinates inside the lat/lon range
invariant, well-ordered bounds, emails that split on exactly one `'@'`,
fix tokens that classify back, integer fields within their parse bounds
and metadata without copyright, the writer succeeds and parsing its exact
event output returns the document field by field with no remaining
events.  Documents outside this class can fail the round trip, as the
missing-creator counterexample shows. -/
theorem claim_C1 (g : Gpx) (c : String) (hv : g.version = .Gpx11)
    (hc : g.creator = some c) (hg : WfGpx g) :
    ∃ evs, writeGpx g = .ok evs ∧ gpxConsume evs = .ok (g, []) := by
  obtain ⟨ver, cr, md, wps, trks, rts⟩ := g
  have hv2 : ver = .Gpx11 := hv
  have hc2 : cr = some c := hc
  subst hv2 hc2
  obtain ⟨hmd, hwps, htrks, hrts⟩ := hg
  obtain ⟨mevs, hmw, hmlen, hmrun⟩ := glLoop_md md hmd
  refine ⟨[.startElement "gpx" [⟨"version", "1.1"⟩,
      ⟨"xmlns", "http://www.topografix.com/GPX/1/1"⟩, ⟨"creator", c⟩]]
      ++ mevs ++ (wps.map (writeWaypoint "wpt")).flatten
      ++ (trks.map writeTrack).flatten ++ (rts.map writeRoute).flatten
      ++ [.endElement "gpx"], ?_, ?_⟩
  · rw [show writeGpx ⟨.Gpx11, some c, md, wps, trks, rts⟩
        = (writeGpx11Metadata md >>= fun mev => Except.ok
          ([.startElement "gpx" [⟨"version", "1.1"⟩,
            ⟨"xmlns", "http://www.topografix.com/GPX/1/1"⟩, ⟨"creator", c⟩]]
            ++ mev ++ (wps.map (writeWaypoint "wpt")).flatten
            ++ (trks.map writeTrack).flatten ++ (rts.map writeRoute).flatten
            ++ [.endElement "gpx"])) from rfl]
    rw [hmw, ok_bind]
  · have hnorm : [XmlEvent.startElement "gpx" [⟨"version", "1.1"⟩,
        ⟨"xmlns", "http://www.topografix.com/GPX/1/1"⟩, ⟨"creator", c⟩]]
        ++ mevs ++ (wps.map (writeWaypoint "wpt")).flatten
        ++ (trks.map writeTrack).flatten ++ (rts.map writeRoute).flatten
        ++ [.endElement "gpx"]
        = .startElement "gpx" [⟨"version", "1.1"⟩,
            ⟨"xmlns", "http://www.topografix.com/GPX/1/1"⟩, ⟨"creator", c⟩]
          :: (mevs ++ ((wps.map (writeWaypoint "wpt")).flatten
            ++ ((trks.map writeTrack).flatten
            ++ ((rts.map writeRoute).flatten ++ (.endElement "gpx" :: []))))) := by
      simp [List.append_assoc]
    rw [hnorm]
    rw [gpxConsume_entry11c c _]
    apply gpxLoop_run c md mevs wps trks rts _ [] hmrun hwps htrks hrts
    simp only [gpxSteps, List.length_append, List.length_cons, List.length_nil]
    have b1 := hmlen
    have b2 := length_le_flatten (writeWaypoint "wpt") (one_le_writeWaypoint "wpt") wps
    have b3 := length_le_flatten writeTrack one_le_writeTrack trks
    have b4 := length_le_flatten writeRoute one_le_writeRoute rts
    omega

/-- Witness for the amended C1 at a concrete document exercising every
component: metadata with author (name, split email, link), two links,
time, keywords and bounds; a waypoint with elevation, time, strings,
link, symbol, type, an `Other` fix, sat, the dilutions, DGPS age and id;
a track with two segments; a route with a number. -/
theorem claim_C1_witness :
    ∃ evs, writeGpx ⟨.Gpx11, some "roundtrip-check",
        some ⟨some "mn", some "md",
          some ⟨some "au", some "me@example.com",
            some ⟨"http://a", some "at", some "aty"⟩⟩,
          [⟨"http://m1", none, none⟩, ⟨"http://m2", some "m2t", none⟩],
          some ⟨2016, 3, 27, 18, 57, 55⟩, some "kw", none,
          some ⟨⟨-1, -2⟩, ⟨3, 4⟩⟩⟩,
        [⟨⟨7, 8⟩, some 9, none, some ⟨2020, 1, 2, 3, 4, 5⟩, some "wn", some "wc",
          some "wd", some "ws", [⟨"http://wl", some "wlt", none⟩], some "sy",
          some "ty", none, some (.Other "KF_4SV_OR_MORE"), some 5, some 1, some 2,
          some 3, none, some 4, some 6⟩],
        [⟨some "tn", some "tc", some "td", some "tsr",
          [⟨"http://t", none, some "tlty"⟩], some "tty",
          [⟨[Waypoint.new ⟨1, 2⟩, Waypoint.new ⟨-3, -4⟩]⟩, ⟨[]⟩]⟩],
        [⟨some "rn", none, none, none, [], some 12, some "rty",
          [Waypoint.new ⟨5, 6⟩]⟩]⟩
      = .ok evs
    ∧ gpxConsume evs = .ok (⟨.Gpx11, some "roundtrip-check",
        some ⟨some "mn", some "md",
          some ⟨some "au", some "me@example.com",
            some ⟨"http://a", some "at", some "aty"⟩⟩,
          [⟨"http://m1", none, none⟩, ⟨"http://m2", some "m2t", none⟩],
          some ⟨2016, 3, 27, 18, 57, 55⟩, some "kw", none,
          some ⟨⟨-1, -2⟩, ⟨3, 4⟩⟩⟩,
        [⟨⟨7, 8⟩, some 9, none, some ⟨2020, 1, 2, 3, 4, 5⟩, some "wn", some "wc",
          some "wd", some "ws", [⟨"http://wl", some "wlt", none⟩], some "sy",
          some "ty", none, some (.Other "KF_4SV_OR_MORE"), some 5, some 1, some 2,
          some 3, none, some 4, some 6⟩],
        [⟨some "tn", some "tc", some "td", some "tsr",
          [⟨"http://t", none, some "tlty"⟩], some "tty",
          [⟨[Waypoint.new ⟨1, 2⟩, Waypoint.new ⟨-3, -4⟩]⟩, ⟨[]⟩]⟩],
        [⟨some "rn", none, none, none, [], some 12, some "rty",
          [Waypoint.new ⟨5, 6⟩]⟩]⟩, []) :=
  claim_C1 _ "roundtrip-check" rfl rfl (by decide)

/-! ## Claim C3 -/

theorem append_at_ne_empty (i d : String) : i ++ "@" ++ d ≠ "" := by
  intro h
  have h2 : (i.data ++ '@' :: []) ++ d.data = [] := congrArg String.data h
  have h3 := (List.append_eq_nil.mp h2).1
  exact List.cons_ne_nil '@' [] (List.append_eq_nil.mp h3).2

theorem gpxLoop_email10 (fuel : Nat) (g : Gpx) (scr : GpxScratch) (attrs : List Attr)
    (s : String) (rest : List XmlEvent) (hv : g.version = .Gpx10) (hs : s ≠ "") :
    gpxLoop (fuel + 1) g scr
        (.startElement "email" attrs :: .characters s :: .endElement "email" :: rest)
      = gpxLoop fuel g { scr with email := some s } rest := by
  rw [gpxLoop]
  simp [hv, stringConsume_chunk "email" false attrs s rest (Or.inr hs)]

theorem gpxLoop_url10 (fuel : Nat) (g : Gpx) (scr : GpxScratch) (attrs : List Attr)
    (s : String) (rest : List XmlEvent) (hv : g.version = .Gpx10) (hs : s ≠ "") :
    gpxLoop (fuel + 1) g scr
        (.startElement "url" attrs :: .characters s :: .endElement "url" :: rest)
      = gpxLoop fuel g { scr with url := some s } rest := by
  rw [gpxLoop]
  simp [hv, stringConsume_chunk "url" false attrs s rest (Or.inr hs)]

theorem gpxLoop_urlname10 (fuel : Nat) (g : Gpx) (scr : GpxScratch) (attrs : List Attr)
    (s : String) (rest : List XmlEvent) (hv : g.version = .Gpx10) (hs : s ≠ "") :
    gpxLoop (fuel + 1) g scr
        (.startElement "urlname" attrs :: .characters s :: .endElement "urlname" :: rest)
      = gpxLoop fuel g { scr with urlname := some s } rest := by
  rw [gpxLoop]
  simp [hv, stringConsume_chunk "urlname" false attrs s rest (Or.inr hs)]

theorem personLoop_email_step (fuel : Nat) (tag : String) (acc : Person)
    (i d : String) (rest : List XmlEvent) :
    personLoop (fuel + 1) tag acc
        (.startElement "email" [⟨"id", i⟩, ⟨"domain", d⟩] :: .endElement "email" :: rest)
      = personLoop fuel tag { acc with email := some (i ++ "@" ++ d) } rest := by
  rw [personLoop]
  simp only [String.reduceEq, reduceIte, if_pos rfl, emailConsume_chunk i d rest]

theorem personLoop_link_step (fuel : Nat) (tag : String) (acc : Person)
    (attrs : List Attr) (tail rest : List XmlEvent) (l : Link)
    (h : linkConsume (.startElement "link" attrs :: tail) = .ok (l, rest)) :
    personLoop (fuel + 1) tag acc (.startElement "link" attrs :: tail)
      = personLoop fuel tag { acc with link := some l } rest := by
  rw [personLoop]
  simp only [String.reduceEq, reduceIte, if_pos rfl, h]

/-- C3: under version 1.0 the flattened top-level tags (`author`,
`email`, `url`, `urlname`, `name`, `desc`, `keywords`, `time`, `bounds`)
are back-filled into a synthesized `Metadata` at the root's closing tag —
the `Person` is assembled from `author`/`email`/`url`/`urlname`, its
link's `href` from `url` and text from `urlname`; it is attached only
when it differs from the all-default `Person`, and the synthesized
`Metadata` only when it differs from the all-default `Metadata`; the
resulting document carries exactly the metadata produced by parsing the
equivalent content nested inside `<metadata>` under version 1.1 (the
author as a nested person with `name`, attribute-form `email` and `link`
children) — the two documents differ only in the version field. -/
theorem claim_C3 (a n d k ts u un i dm : String) (t : Time) (battrs : List Attr)
    (ba bb bc bd : Attr) (qa qb qc qd : ℚ)
    (ha : a ≠ "") (hn : n ≠ "") (hd : d ≠ "") (hk : k ≠ "")
    (hu : u ≠ "") (hun : un ≠ "")
    (hts : ts ≠ "") (hpt : timeParse ts = some t)
    (h1 : findAttr battrs "minlat" = some ba) (h2 : findAttr battrs "maxlat" = some bb)
    (h3 : parseFloat ba.value = some qa) (h4 : parseFloat bb.value = some qb)
    (h5 : findAttr battrs "minlon" = some bc) (h6 : findAttr battrs "maxlon" = some bd)
    (h7 : parseFloat bc.value = some qc) (h8 : parseFloat bd.value = some qd)
    (h9 : ¬(qc > qd)) (h10 : ¬(qa > qb)) :
    gpxConsume [.startElement "gpx" [⟨"version", "1.0"⟩],
        .startElement "name" [], .characters n, .endElement "name",
        .startElement "desc" [], .characters d, .endElement "desc",
        .startElement "author" [], .characters a, .endElement "author",
        .startElement "email" [], .characters (i ++ "@" ++ dm), .endElement "email",
        .startElement "url" [], .characters u, .endElement "url",
        .startElement "urlname" [], .characters un, .endElement "urlname",
        .startElement "keywords" [], .characters k, .endElement "keywords",
        .startElement "time" [], .characters ts, .endElement "time",
        .startElement "bounds" battrs, .endElement "bounds",
        .endElement "gpx"]
      = .ok (⟨.Gpx10, none, some ⟨some n, some d,
          some ⟨some a, some (i ++ "@" ++ dm), some ⟨u, some un, none⟩⟩, [],
          some t, some k, none, some ⟨⟨qc, qa⟩, ⟨qd, qb⟩⟩⟩, [], [], []⟩, [])
    ∧ gpxConsume [.startElement "gpx" [⟨"version", "1.1"⟩],
        .startElement "metadata" [],
        .startElement "name" [], .characters n, .endElement "name",
        .startElement "desc" [], .characters d, .endElement "desc",
        .startElement "author" [],
        .startElement "name" [], .characters a, .endElement "name",
        .startElement "email" [⟨"id", i⟩, ⟨"domain", dm⟩], .endElement "email",
        .startElement "link" [⟨"href", u⟩],
        .startElement "text" [], .characters un, .endElement "text",
        .endElement "link",
        .endElement "author",
        .startElement "keywords" [], .characters k, .endElement "keywords",
        .startElement "time" [], .characters ts, .endElement "time",
        .startElement "bounds" battrs, .endElement "bounds",
        .endElement "metadata",
        .endElement "gpx"]
      = .ok (⟨.Gpx11, none, some ⟨some n, some d,
          some ⟨some a, some (i ++ "@" ++ dm), some ⟨u, some un, none⟩⟩, [],
          some t, some k, none, some ⟨⟨qc, qa⟩, ⟨qd, qb⟩⟩⟩, [], [], []⟩, [])
    ∧ ((⟨.Gpx10, none, some ⟨some n, some d,
          some ⟨some a, some (i ++ "@" ++ dm), some ⟨u, some un, none⟩⟩, [],
          some t, some k, none, some ⟨⟨qc, qa⟩, ⟨qd, qb⟩⟩⟩, [], [], []⟩ : Gpx)
        = { (⟨.Gpx11, none, some ⟨some n, some d,
            some ⟨some a, some (i ++ "@" ++ dm), some ⟨u, some un, none⟩⟩, [],
            some t, some k, none, some ⟨⟨qc, qa⟩, ⟨qd, qb⟩⟩⟩, [], [], []⟩ : Gpx)
            with version := .Gpx10 })
    ∧ gpxConsume [.startElement "gpx" [⟨"version", "1.0"⟩], .endElement "gpx"]
      = .ok (⟨.Gpx10, none, none, [], [], []⟩, [])
    ∧ gpxConsume [.startElement "gpx" [⟨"version", "1.0"⟩],
        .startElement "name" [], .characters n, .endElement "name", .endElement "gpx"]
      = .ok (⟨.Gpx10, none, some { Metadata.default with name := some n }, [], [], []⟩,
          []) := by
  have hv10 : (⟨.Gpx10, none, none, [], [], []⟩ : Gpx).version = .Gpx10 := rfl
  have hem : i ++ "@" ++ dm ≠ "" := append_at_ne_empty i dm
  refine ⟨?_, ?_, rfl, ?_, ?_⟩
  · rw [gpxConsume_entry10]
    simp only [List.length_cons, List.length_nil]
    rw [gpxLoop_name10 _ ⟨.Gpx10, none, none, [], [], []⟩ _ [] n _ hv10 hn]
    rw [gpxLoop_desc10 _ ⟨.Gpx10, none, none, [], [], []⟩ _ [] d _ hv10]
    rw [gpxLoop_author10 _ ⟨.Gpx10, none, none, [], [], []⟩ _ [] a _ hv10 ha]
    rw [gpxLoop_email10 _ ⟨.Gpx10, none, none, [], [], []⟩ _ [] _ _ hv10 hem]
    rw [gpxLoop_url10 _ ⟨.Gpx10, none, none, [], [], []⟩ _ [] u _ hv10 hu]
    rw [gpxLoop_urlname10 _ ⟨.Gpx10, none, none, [], [], []⟩ _ [] un _ hv10 hun]
    rw [gpxLoop_keywords10 _ ⟨.Gpx10, none, none, [], [], []⟩ _ [] k _ hv10]
    rw [gpxLoop_time10 _ ⟨.Gpx10, none, none, [], [], []⟩ _ [] ts t _ hv10 hts hpt]
    rw [gpxLoop_bounds10 _ ⟨.Gpx10, none, none, [], [], []⟩ _ battrs _ _ _ hv10
      (boundsConsume_ok battrs [.endElement "gpx"] ba bb bc bd qa qb qc qd
        h1 h2 h3 h4 h5 h6 h7 h8 h9 h10)]
    rw [gpxLoop_end10 _ _ _ _ hv10]
    unfold finishGpx10
    simp only [GpxScratch.empty, Option.map_some', Link.default]
    rw [if_pos (show (⟨some a, some (i ++ "@" ++ dm),
      some ⟨u, some un, none⟩⟩ : Person) ≠ Person.default by simp [Person.default])]
    rw [if_pos (by simp [Metadata.default])]
    rfl
  · have hlink : ∀ tail : List XmlEvent,
        linkConsume (.startElement "link" [⟨"href", u⟩] :: .startElement "text" []
          :: .characters un :: .endElement "text" :: .endElement "link" :: tail)
          = .ok (⟨u, some un, none⟩, tail) := by
      intro tail
      have h0 := linkConsume_inv ⟨u, some un, none⟩ tail ⟨hun, True.intro⟩
      rw [writeLink_append] at h0
      simp only [writeStringIfExists, writeString, List.cons_append,
        List.nil_append] at h0
      exact h0
    have hperson : ∀ tail : List XmlEvent,
        personConsume "author" (.startElement "author" []
          :: .startElement "name" [] :: .characters a :: .endElement "name"
          :: .startElement "email" [⟨"id", i⟩, ⟨"domain", dm⟩] :: .endElement "email"
          :: .startElement "link" [⟨"href", u⟩] :: .startElement "text" []
          :: .characters un :: .endElement "text" :: .endElement "link"
          :: .endElement "author" :: tail)
          = .ok (⟨some a, some (i ++ "@" ++ dm), some ⟨u, some un, none⟩⟩, tail) := by
      intro tail
      rw [personConsume_entry]
      simp only [List.length_cons]
      rw [personLoop_name _ "author" Person.default [] a _ ha]
      rw [personLoop_email_step]
      rw [personLoop_link_step _ _ _ _ _ _ _ (hlink (.endElement "author" :: tail))]
      exact personLoop_end _ "author" _ tail
    have hmeta : metadataConsume (.startElement "metadata" [] ::
        .startElement "name" [] :: .characters n :: .endElement "name" ::
        .startElement "desc" [] :: .characters d :: .endElement "desc" ::
        .startElement "author" [] ::
        .startElement "name" [] :: .characters a :: .endElement "name" ::
        .startElement "email" [⟨"id", i⟩, ⟨"domain", dm⟩] :: .endElement "email" ::
        .startElement "link" [⟨"href", u⟩] ::
        .startElement "text" [] :: .characters un :: .endElement "text" ::
        .endElement "link" ::
        .endElement "author" ::
        .startElement "keywords" [] :: .characters k :: .endElement "keywords" ::
        .startElement "time" [] :: .characters ts :: .endElement "time" ::
        .startElement "bounds" battrs :: .endElement "bounds" ::
        .endElement "metadata" :: [.endElement "gpx"])
        = .ok (⟨some n, some d,
            some ⟨some a, some (i ++ "@" ++ dm), some ⟨u, some un, none⟩⟩, [],
            some t, some k, none, some ⟨⟨qc, qa⟩, ⟨qd, qb⟩⟩⟩, [.endElement "gpx"]) := by
      rw [metadataConsume_entry]
      simp only [List.length_cons, List.length_nil]
      rw [metadataLoop_name _ Metadata.default [] n _ hn]
      rw [metadataLoop_desc _ _ [] d _ hd]
      rw [metadataLoop_author _ _ [] _ _ _ (hperson _)]
      rw [metadataLoop_keywords _ _ [] k _ hk]
      rw [metadataLoop_time _ _ [] ts t _ hts hpt]
      rw [metadataLoop_bounds _ _ battrs _ _ _
        (boundsConsume_ok battrs [.endElement "metadata", .endElement "gpx"]
          ba bb bc bd qa qb qc qd h1 h2 h3 h4 h5 h6 h7 h8 h9 h10)]
      exact metadataLoop_end _ _ _
    rw [gpxConsume_entry11]
    simp only [List.length_cons, List.length_nil]
    rw [gpxLoop_metadata _ ⟨.Gpx11, none, none, [], [], []⟩ _ [] _ _ _
      (by simp) hmeta]
    exact gpxLoop_end11 _ _ _ _ rfl
  · rw [gpxConsume_entry10]
    simp only [List.length_cons, List.length_nil]
    rw [gpxLoop_end10 _ _ _ _ hv10]
    unfold finishGpx10
    simp only [GpxScratch.empty, Option.map_none']
    rw [if_neg (show ¬((⟨none, none, none⟩ : Person) ≠ Person.default) by
      simp [Person.default])]
    rw [if_neg (by simp [Metadata.default])]
  · rw [gpxConsume_entry10]
    simp only [List.length_cons, List.length_nil]
    rw [gpxLoop_name10 _ ⟨.Gpx10, none, none, [], [], []⟩ _ [] n _ hv10 hn]
    rw [gpxLoop_end10 _ _ _ _ hv10]
    unfold finishGpx10
    simp only [GpxScratch.empty, Option.map_none']
    rw [if_neg (show ¬((⟨none, none, none⟩ : Person) ≠ Person.default) by
      simp [Person.default])]
    rw [if_pos (by simp [Metadata.default])]
    rfl

/-- Witness for C3 at concrete values, exercising the full flattened tag
set including `email`, `url` and `urlname`. -/
theorem claim_C3_witness :
    gpxConsume [.startElement "gpx" [⟨"version", "1.0"⟩],
        .startElement "name" [], .characters "nm", .endElement "name",
        .startElement "desc" [], .characters "ds", .endElement "desc",
        .startElement "author" [], .characters "John Doe", .endElement "author",
        .startElement "email" [], .characters "me@example.com", .endElement "email",
        .startElement "url" [], .characters "http://ex", .endElement "url",
        .startElement "urlname" [], .characters "Example", .endElement "urlname",
        .startElement "keywords" [], .characters "kw", .endElement "keywords",
        .startElement "time" [], .characters "2016-03-27T18:57:55Z", .endElement "time",
        .startElement "bounds" [⟨"minlat", "1.0"⟩, ⟨"maxlat", "2.0"⟩,
          ⟨"minlon", "3.0"⟩, ⟨"maxlon", "4.0"⟩], .endElement "bounds",
        .endElement "gpx"]
      = .ok (⟨.Gpx10, none, some ⟨some "nm", some "ds",
          some ⟨some "John Doe", some "me@example.com",
            some ⟨"http://ex", some "Example", none⟩⟩, [],
          some ⟨2016, 3, 27, 18, 57, 55⟩, some "kw", none,
          some ⟨⟨3, 1⟩, ⟨4, 2⟩⟩⟩, [], [], []⟩, []) := by
  have p1 : parseFloat "1.0" = some 1 :=
    parseFloat_eval "1.0" ['1'] ['0'] 1 0 1 rfl rfl rfl (by norm_num)
  have p2 : parseFloat "2.0" = some 2 :=
    parseFloat_eval "2.0" ['2'] ['0'] 2 0 2 rfl rfl rfl (by norm_num)
  have p3 : parseFloat "3.0" = some 3 :=
    parseFloat_eval "3.0" ['3'] ['0'] 3 0 3 rfl rfl rfl (by norm_num)
  have p4 : parseFloat "4.0" = some 4 :=
    parseFloat_eval "4.0" ['4'] ['0'] 4 0 4 rfl rfl rfl (by norm_num)
  exact (claim_C3 "John Doe" "nm" "ds" "kw" "2016-03-27T18:57:55Z"
    "http://ex" "Example" "me" "example.com"
    ⟨2016, 3, 27, 18, 57, 55⟩
    [⟨"minlat", "1.0"⟩, ⟨"maxlat", "2.0"⟩, ⟨"minlon", "3.0"⟩, ⟨"maxlon", "4.0"⟩]
    ⟨"minlat", "1.0"⟩ ⟨"maxlat", "2.0"⟩ ⟨"minlon", "3.0"⟩ ⟨"maxlon", "4.0"⟩
    1 2 3 4 (by decide) (by decide) (by decide) (by decide) (by decide)
    (by decide) (by decide) (by decide) (by decide) (by decide) p1 p2
    (by decide) (by decide) p3 p4 (by norm_num) (by norm_num)).1

end GpxSpec
